import Mathlib

/-!
# DiscordVoiceNotify: session / notification lifecycle and the debounced update queue

A shallow embedding of `src/services/sessionService.js`,
`src/services/messageUpdateService.js` and `src/services/notificationService.js`, of the
two formatting methods of `src/utils/messageFormatter.js` and of `handleReactionAdd` of
`src/services/subscriptionService.js`.

* The Prisma store is a record of tables (lists of rows); `findFirst` / `findMany` /
  `updateMany` / `update` / `create` are list functions. `update` on a missing row
  throws in Prisma and is modelled by `Option`.
* JavaScript `Map`s (session cache, rate-limit ledger, update queue) are
  insertion-ordered association lists keyed by the very strings the code builds.
* The outside world (clock, random bytes, Discord DM delivery) is an oracle `Env`
  indexed by a tick counter kept in the state, so that successive consultations are
  independent of each other.
* Closures handed to `queueUpdate` are defunctionalised: the closure built by
  `updateExistingNotifications` is the record `UpdateJob` of its captured variables
  and `runUpdateJob` is its body.
* A handler runs as one step. The one interleaving that is modelled is a call to the
  update queue while the callback of a fired timeout awaits its function
  (`timeoutFires`, then the call, then `callbackEnds`).
* Logger calls are not modelled.
-/

namespace VoiceNotify

/-! ## JavaScript `Map` -/

/-- Insertion-ordered string-keyed map, as a JavaScript `Map` with string keys. -/
abbrev JsMap (V : Type) := List (String × V)

namespace JsMap

variable {V : Type}

/-- Membership test `Map.prototype.has`. -/
def has (m : JsMap V) (k : String) : Bool :=
  m.any (fun e => e.1 == k)

/-- Lookup `Map.prototype.get`; `none` stands for `undefined`. -/
def get (m : JsMap V) (k : String) : Option V :=
  (m.find? (fun e => e.1 == k)).map (fun e => e.2)

/-- Update `Map.prototype.set`: an existing key keeps its position, a new one goes last. -/
def set (m : JsMap V) (k : String) (v : V) : JsMap V :=
  if m.has k then m.map (fun e => if e.1 == k then (k, v) else e) else m ++ [(k, v)]

/-- Removal `Map.prototype.delete`. -/
def delete (m : JsMap V) (k : String) : JsMap V :=
  m.filter (fun e => !(e.1 == k))

/-- The `size` property. -/
def size (m : JsMap V) : Nat :=
  m.length

end JsMap

/-! ## Rows of the store and Discord objects -/

/-- One entry of the occupant snapshot stored in `NotificationState.userList`. -/
structure StoredUser where
  id : String
  username : String
  displayName : Option String
  avatar : Option String
deriving DecidableEq, Repr

/-- A guild member as seen through `channel.members` (discord.js `GuildMember`). -/
structure Member where
  id : String
  bot : Bool
  username : String
  displayName : Option String
  userDisplayName : Option String
  avatar : Option String
deriving DecidableEq, Repr

/-- A voice channel: id, name and its member collection in iteration order. -/
structure VoiceChannel where
  id : String
  name : String
  members : List Member
deriving DecidableEq, Repr

/-- A discord.js `VoiceState`: the guild and the (possibly absent) channel. -/
structure VoiceState where
  guildId : String
  channel : Option VoiceChannel
deriving DecidableEq, Repr

/-- Row of the `channelSession` table. -/
structure ChannelSession where
  id : Nat
  guildId : String
  channelId : String
  sessionId : String
  isActive : Bool
  startedAt : Nat
  endedAt : Option Nat
deriving DecidableEq, Repr

/-- Row of the `notificationState` table. -/
structure NotificationState where
  id : Nat
  guildId : String
  channelId : String
  userId : String
  messageId : String
  sessionId : String
  isActive : Bool
  userList : List StoredUser
  lastUpdated : Nat
  createdAt : Nat
deriving DecidableEq, Repr

/-- Row of the `userSubscription` table. -/
structure UserSubscription where
  guildId : String
  userId : String
  channelId : String
deriving DecidableEq, Repr

/-- Row of the `guild` table (per-guild configuration). -/
structure GuildConfig where
  id : String
  maxUsers : Int
  maxDisplayUsers : Int
  customMessage : String
deriving DecidableEq, Repr

/-- Row of the `monitoredChannel` table. -/
structure MonitoredChannel where
  guildId : String
  channelId : String
  channelName : String
  emoji : String
deriving DecidableEq, Repr

/-- Four bytes as returned by `crypto.randomBytes(4)`. -/
structure RandomBytes4 where
  b0 : Fin 256
  b1 : Fin 256
  b2 : Fin 256
  b3 : Fin 256
deriving DecidableEq, Repr

/-- A call made to the Discord client by the message update service. -/
inductive DiscordCall where
  | sendNewDM (userId : String) (currentUsers : List Member)
      (guildConfig : GuildConfig) (monitoredChannel : MonitoredChannel)
  | updateDMMessage (userId : String) (messageId : String) (currentUsers : List Member)
      (guildConfig : GuildConfig) (monitoredChannel : MonitoredChannel)
deriving DecidableEq, Repr

/-- The user a call to the Discord client is addressed to. -/
def DiscordCall.userId : DiscordCall → String
  | DiscordCall.sendNewDM userId _ _ _ => userId
  | DiscordCall.updateDMMessage userId _ _ _ _ => userId

/-- The outside world, consulted at a tick: the clock (`Date.now()`, `new Date()`),
`crypto.randomBytes(4)`, whether `sendNewDM` to a user yields a message (its id) and
whether `updateDMMessage` manages to fetch and edit a message of a user. -/
structure Env where
  clock : Nat → Nat
  randomBytes : Nat → RandomBytes4
  sendDM : Nat → String → Option String
  editDM : Nat → String → String → Bool

/-! ## The debounce queue of `MessageUpdateService` -/

/-- Value stored in `updateQueue`: the function and the handle of its timeout. -/
structure QueueItem (F : Type) where
  updateFunction : F
  timeout : Nat
deriving DecidableEq, Repr

/-- A pending timeout of the runtime created by `queueUpdate`: its handle, delay, and the
key and function captured by its callback. -/
structure Timer (F : Type) where
  id : Nat
  delay : Nat
  key : String
  updateFunction : F
deriving DecidableEq, Repr

/-- State of `MessageUpdateService` together with the runtime timers it created. -/
structure MessageUpdateService (F : Type) where
  updateQueue : JsMap (QueueItem F)
  timers : List (Timer F)
  nextTimer : Nat
deriving Repr

namespace MessageUpdateService

variable {F σ : Type}

/-- A fresh service: `new MessageUpdateService()`. -/
def empty : MessageUpdateService F :=
  { updateQueue := [], timers := [], nextTimer := 0 }

/-- The runtime call `clearTimeout(handle)`: the timeout will not fire any more. -/
def clearTimeout (t : Nat) (s : MessageUpdateService F) : MessageUpdateService F :=
  { s with timers := s.timers.filter (fun x => !(x.id == t)) }

/-- The first statement of `queueUpdate`: if the queue has an entry for the key, the
timeout of that entry is cleared. -/
def cancelPending (s : MessageUpdateService F) (key : String) : MessageUpdateService F :=
  match s.updateQueue.get key with
  | some item => clearTimeout item.timeout s
  | none => s

/-- The method `queueUpdate(key, updateFunction, delay)`. -/
def queueUpdate (s : MessageUpdateService F) (key : String) (updateFunction : F)
    (delay : Nat) : MessageUpdateService F :=
  let s1 := cancelPending s key
  let t := s1.nextTimer
  { updateQueue := s1.updateQueue.set key { updateFunction := updateFunction, timeout := t }
    timers := s1.timers ++ [{ id := t, delay := delay, key := key, updateFunction := updateFunction }]
    nextTimer := t + 1 }

/-- The runtime fires the pending timeout with handle `t`: the timeout is spent and its
callback calls the captured `updateFunction`; the callback is then suspended at
`await updateFunction()`. Returns the timeout fired, `none` when no such timeout is
pending. Until `callbackEnds`, other calls to the service can take place. -/
def timeoutFires (t : Nat) (s : MessageUpdateService F) :
    MessageUpdateService F × Option (Timer F) :=
  match s.timers.find? (fun x => x.id == t) with
  | none => (s, none)
  | some tm => ({ s with timers := s.timers.filter (fun x => !(x.id == t)) }, some tm)

/-- The callback of a fired timeout comes back from its `await`: the `try` branch and the
`catch` branch both run `this.updateQueue.delete(key)` with the key the callback
captured, whichever entry the queue holds for that key by then. -/
def callbackEnds (key : String) (s : MessageUpdateService F) : MessageUpdateService F :=
  { s with updateQueue := s.updateQueue.delete key }

/-- A firing of the timeout `t` during which nothing else calls the service: `timeoutFires`,
the function awaited, `callbackEnds`. The outcome of the function is not inspected, as
both branches of the callback end in the same `delete`. `exec f st` is the effect of
awaiting `f` on the rest of the program state, with `false` for a rejection. Returns the
invocations made, each as the key and the function invoked for it. -/
def fireTimer (exec : F → σ → σ × Bool) (t : Nat) (s : MessageUpdateService F) (st : σ) :
    MessageUpdateService F × σ × List (String × F) :=
  match timeoutFires t s with
  | (s1, some tm) =>
    let r := exec tm.updateFunction st
    (callbackEnds tm.key s1, r.1, [(tm.key, tm.updateFunction)])
  | (_, none) => (s, st, [])

/-- One iteration of the loop of `flushQueue` over an entry of the queue: the timeout is
cleared and the function is called; its promise, with `.catch` attached, is collected. -/
def flushEntry (acc : MessageUpdateService F × List (String × F))
    (e : String × QueueItem F) : MessageUpdateService F × List (String × F) :=
  (clearTimeout e.2.timeout acc.1, acc.2 ++ [(e.1, e.2.updateFunction)])

/-- The method `flushQueue()`: every entry of the queue has its timeout cleared and its
function called, the queue is cleared, and the promises are awaited together with
`Promise.allSettled`. `settle started st` is the effect on the rest of the program state
of the started functions running to their end, resolving or rejecting, in whatever way
they interleave. Returns the invocations made. -/
def flushQueue (settle : List (String × F) → σ → σ) (s : MessageUpdateService F) (st : σ) :
    MessageUpdateService F × σ × List (String × F) :=
  let r := s.updateQueue.foldl flushEntry (s, [])
  ({ r.1 with updateQueue := [] }, settle r.2 st, r.2)

/-- The schedule of started functions in which each one runs to its end before the next
one makes any progress; a rejection is swallowed. -/
def settleInOrder (exec : F → σ → σ × Bool) (started : List (String × F)) (st : σ) : σ :=
  started.foldl (fun acc i => (exec i.2 acc).1) st

/-- The method `clearQueue()`. -/
def clearQueue (s : MessageUpdateService F) : MessageUpdateService F :=
  let s1 := s.updateQueue.foldl (fun acc e => clearTimeout e.2.timeout acc) s
  { s1 with updateQueue := [] }

/-- The method `getQueueSize()`. -/
def getQueueSize (s : MessageUpdateService F) : Nat :=
  s.updateQueue.size

/-- Calling `queueUpdate` once per element of a list of `(key, function)` requests. -/
def queueAll (s : MessageUpdateService F) (reqs : List (String × F)) (delay : Nat) :
    MessageUpdateService F :=
  reqs.foldl (fun acc r => queueUpdate acc r.1 r.2 delay) s

/-- The function most recently requested for a key in a list of requests, if any. -/
def lastEnqueued (reqs : List (String × F)) (key : String) : Option F :=
  ((reqs.filter (fun r => r.1 == key)).getLast?).map (fun r => r.2)

/-- Consistency of the queue with the timers of the runtime: pending handles are distinct
and were handed out already, the queue has one entry per key, and every pending timeout
is the one that the queue entry of its key refers to. It holds of a fresh service and is
kept by `queueUpdate`, by `flushQueue` and by a firing during which nothing else calls
the service (`fireTimer`). It is not kept when `queueUpdate` is called for the key of a
callback between its `timeoutFires` and its `callbackEnds`. -/
structure WellFormed (s : MessageUpdateService F) : Prop where
  ids_nodup : (s.timers.map (fun tm => tm.id)).Nodup
  ids_lt : ∀ tm ∈ s.timers, tm.id < s.nextTimer
  keys_nodup : (s.updateQueue.map (fun e => e.1)).Nodup
  timer_entry : ∀ tm ∈ s.timers,
    (tm.key, { updateFunction := tm.updateFunction, timeout := tm.id }) ∈ s.updateQueue

end MessageUpdateService

/-! ## Program state -/

/-- The closure that `updateExistingNotifications` hands to `queueUpdate`, as the record
of the variables it captures. -/
structure UpdateJob where
  activeNotifications : List NotificationState
  currentUsers : List Member
  userListForStorage : List StoredUser
  guildConfig : GuildConfig
  monitoredChannel : MonitoredChannel
deriving DecidableEq, Repr

/-- The whole state: the tables of the store, the in-process maps of the three services,
the tick of the environment oracle and the Discord calls made so far. Row ids are
assigned by the store from `nextId`. -/
structure World where
  channelSessions : List ChannelSession
  notificationStates : List NotificationState
  userSubscriptions : List UserSubscription
  guilds : List GuildConfig
  monitoredChannels : List MonitoredChannel
  nextId : Nat
  activeSessions : JsMap ChannelSession
  rateLimitMap : JsMap Nat
  messageUpdateService : MessageUpdateService UpdateJob
  tick : Nat
  calls : List DiscordCall

/-- An empty store with freshly constructed services. -/
def World.init : World :=
  { channelSessions := [], notificationStates := [], userSubscriptions := [], guilds := [],
    monitoredChannels := [], nextId := 0, activeSessions := [], rateLimitMap := [],
    messageUpdateService := MessageUpdateService.empty, tick := 0, calls := [] }

/-! ## `SessionService` -/

/-- The cache key built by the session service from guild and channel id. -/
def cacheKey (guildId channelId : String) : String :=
  guildId ++ "-" ++ channelId

/-- Two lower-case hexadecimal digits of a byte, as `Buffer.toString('hex')` prints it. -/
def hexByte (b : Fin 256) : String :=
  String.mk [Nat.digitChar (b.val / 16), Nat.digitChar (b.val % 16)]

/-- The method `generateSessionId()`, as a function of `Date.now()` and the random bytes. -/
def generateSessionId (t : Nat) (r : RandomBytes4) : String :=
  "session_" ++ toString t ++ "_" ++ (hexByte r.b0 ++ hexByte r.b1 ++ hexByte r.b2 ++ hexByte r.b3)

/-- The `where` clause `{ guildId, channelId, isActive: true }` on sessions. -/
def sessionMatches (guildId channelId : String) (s : ChannelSession) : Bool :=
  s.guildId == guildId && s.channelId == channelId && s.isActive

/-- The `where` clause `{ guildId, channelId, isActive: true }` on notifications. -/
def notificationMatches (guildId channelId : String) (n : NotificationState) : Bool :=
  n.guildId == guildId && n.channelId == channelId && n.isActive

/-- The method `getActiveChannelSession`: cache first, then the store, caching a hit. -/
def getActiveChannelSession (guildId channelId : String) (w : World) :
    Option ChannelSession × World :=
  if w.activeSessions.has (cacheKey guildId channelId) then
    (w.activeSessions.get (cacheKey guildId channelId), w)
  else
    match w.channelSessions.find? (sessionMatches guildId channelId) with
    | some session =>
      (some session,
        { w with activeSessions := w.activeSessions.set (cacheKey guildId channelId) session })
    | none => (none, w)

/-- The method `startNewSession`: creates the row and caches it. Its third parameter
`currentUsers` is not used by the source and is left out. -/
def startNewSession (env : Env) (guildId channelId : String) (w : World) :
    ChannelSession × World :=
  let session : ChannelSession :=
    { id := w.nextId, guildId := guildId, channelId := channelId,
      sessionId := generateSessionId (env.clock w.tick) (env.randomBytes w.tick),
      isActive := true, startedAt := env.clock (w.tick + 1), endedAt := none }
  (session,
    { w with
      channelSessions := w.channelSessions ++ [session]
      nextId := w.nextId + 1
      activeSessions := w.activeSessions.set (cacheKey guildId channelId) session
      tick := w.tick + 2 })

/-- The method `endSession`: two `updateMany` calls and the eviction from the cache. -/
def endSession (env : Env) (guildId channelId : String) (w : World) : World :=
  { w with
    channelSessions := w.channelSessions.map (fun s =>
      if sessionMatches guildId channelId s then
        { s with isActive := false, endedAt := some (env.clock w.tick) }
      else s)
    notificationStates := w.notificationStates.map (fun n =>
      if notificationMatches guildId channelId n then { n with isActive := false } else n)
    activeSessions := w.activeSessions.delete (cacheKey guildId channelId)
    tick := w.tick + 1 }

/-- The method `getActiveNotifications`. -/
def getActiveNotifications (guildId channelId sessionId : String) (w : World) :
    List NotificationState :=
  w.notificationStates.filter (fun n =>
    n.guildId == guildId && n.channelId == channelId && n.sessionId == sessionId && n.isActive)

/-- The method `createNotificationState`. -/
def createNotificationState (env : Env) (guildId channelId userId messageId sessionId : String)
    (userList : List StoredUser) (w : World) : NotificationState × World :=
  let row : NotificationState :=
    { id := w.nextId, guildId := guildId, channelId := channelId, userId := userId,
      messageId := messageId, sessionId := sessionId, isActive := true, userList := userList,
      lastUpdated := env.clock w.tick, createdAt := env.clock (w.tick + 1) }
  (row,
    { w with
      notificationStates := w.notificationStates ++ [row]
      nextId := w.nextId + 1
      tick := w.tick + 2 })

/-- The method `updateNotificationState`; `none` when the row does not exist (Prisma
throws). -/
def updateNotificationState (env : Env) (notificationId : Nat) (userList : List StoredUser)
    (w : World) : Option World :=
  if w.notificationStates.any (fun n => n.id == notificationId) then
    some { w with
      notificationStates := w.notificationStates.map (fun n =>
        if n.id == notificationId then
          { n with userList := userList, lastUpdated := env.clock w.tick }
        else n)
      tick := w.tick + 1 }
  else none

/-- The method `deactivateNotification`; `none` when the row does not exist. -/
def deactivateNotification (notificationId : Nat) (w : World) : Option World :=
  if w.notificationStates.any (fun n => n.id == notificationId) then
    some { w with
      notificationStates := w.notificationStates.map (fun n =>
        if n.id == notificationId then { n with isActive := false } else n) }
  else none

/-- Truthiness of an optional string: `undefined` and the empty string are falsy. -/
def truthy (s : Option String) : Bool :=
  match s with
  | some x => x != ""
  | none => false

/-- The method `formatUserListForStorage`. -/
def formatUserListForStorage (users : List Member) : List StoredUser :=
  users.map (fun user =>
    { id := user.id, username := user.username,
      displayName := if truthy user.displayName then user.displayName else user.userDisplayName,
      avatar := user.avatar })

/-- The method `clearCache`. -/
def clearCache (w : World) : World :=
  { w with activeSessions := [] }

/-! ## DM delivery of `MessageUpdateService` -/

/-- The method `updateDMMessage`: whether the existing DM could be fetched and edited. -/
def updateDMMessage (env : Env) (notification : NotificationState) (currentUsers : List Member)
    (guildConfig : GuildConfig) (monitoredChannel : MonitoredChannel) (w : World) :
    Bool × World :=
  (env.editDM w.tick notification.userId notification.messageId,
    { w with
      tick := w.tick + 1
      calls := w.calls ++ [DiscordCall.updateDMMessage notification.userId
        notification.messageId currentUsers guildConfig monitoredChannel] })

/-- The method `sendNewDM`: the id of the sent message, or `none` for `null`. -/
def sendNewDM (env : Env) (userId : String) (currentUsers : List Member)
    (guildConfig : GuildConfig) (monitoredChannel : MonitoredChannel) (w : World) :
    Option String × World :=
  (env.sendDM w.tick userId,
    { w with
      tick := w.tick + 1
      calls := w.calls ++ [DiscordCall.sendNewDM userId currentUsers guildConfig
        monitoredChannel] })

/-- The method `handleFailedMessageUpdate`: send a replacement and pass its id to the
callback; a throwing callback is caught and yields `null`. -/
def handleFailedMessageUpdate (env : Env) (notification : NotificationState)
    (currentUsers : List Member) (guildConfig : GuildConfig)
    (monitoredChannel : MonitoredChannel)
    (updateNotificationCallback : Nat → String → World → Option World) (w : World) :
    Option String × World :=
  let r := sendNewDM env notification.userId currentUsers guildConfig monitoredChannel w
  match r.1 with
  | some messageId =>
    match updateNotificationCallback notification.id messageId r.2 with
    | some w2 => (some messageId, w2)
    | none => (none, r.2)
  | none => (none, r.2)

/-! ## `NotificationService` -/

/-- The key of the rate-limit ledger built from subscriber and guild id. -/
def rateLimitKey (userId guildId : String) : String :=
  userId ++ "-" ++ guildId

/-- The key under which a refresh is queued. -/
def updateKey (guildId channelId sessionId : String) : String :=
  guildId ++ "-" ++ channelId ++ "-" ++ sessionId

/-- The test `lastSent && (now - lastSent) < 5000`; a missing entry and the number `0` are
falsy, the subtraction is that of (signed) numbers. -/
def rateLimited (lastSent : Option Nat) (now : Nat) : Bool :=
  match lastSent with
  | none => false
  | some t => t != 0 && decide ((now : Int) - (t : Int) < 5000)

/-- The test `currentUsers.has(userId)` on the member collection. -/
def hasUser (currentUsers : List Member) (userId : String) : Bool :=
  currentUsers.any (fun m => m.id == userId)

/-- The filter `channel.members.filter(m => !m.user.bot)`. -/
def nonBots (members : List Member) : List Member :=
  members.filter (fun m => !m.bot)

/-- Body of the loop of `startNewNotificationSession` for one subscriber. -/
def fanOutOne (env : Env) (guildId channelId : String) (currentUsers : List Member)
    (guildConfig : GuildConfig) (monitoredChannel : MonitoredChannel)
    (session : ChannelSession) (userListForStorage : List StoredUser)
    (w : World) (subscriber : UserSubscription) : World :=
  if hasUser currentUsers subscriber.userId then w
  else
    let lastSent := w.rateLimitMap.get (rateLimitKey subscriber.userId guildId)
    let now := env.clock w.tick
    let w0 := { w with tick := w.tick + 1 }
    if rateLimited lastSent now then w0
    else
      let r := sendNewDM env subscriber.userId currentUsers guildConfig monitoredChannel w0
      match r.1 with
      | some messageId =>
        let c := createNotificationState env guildId channelId subscriber.userId messageId
          session.sessionId userListForStorage r.2
        { c.2 with
          rateLimitMap := c.2.rateLimitMap.set (rateLimitKey subscriber.userId guildId) now }
      | none => r.2

/-- The query for the subscribers of a channel in `startNewNotificationSession`. -/
def subscribersOf (guildId channelId : String) (w : World) : List UserSubscription :=
  w.userSubscriptions.filter (fun u => u.guildId == guildId && u.channelId == channelId)

/-- The method `startNewNotificationSession`. -/
def startNewNotificationSession (env : Env) (guildId : String) (channel : VoiceChannel)
    (currentUsers : List Member) (guildConfig : GuildConfig)
    (monitoredChannel : MonitoredChannel) (w : World) : World :=
  let r := startNewSession env guildId channel.id w
  let subscribers := subscribersOf guildId channel.id r.2
  if subscribers.length == 0 then r.2
  else
    subscribers.foldl
      (fanOutOne env guildId channel.id currentUsers guildConfig monitoredChannel r.1
        (formatUserListForStorage currentUsers))
      r.2

/-- The callback that `updateExistingNotifications` passes to
`handleFailedMessageUpdate`: rewrite message id, snapshot and timestamp of the row. -/
def resendCallback (env : Env) (userListForStorage : List StoredUser) (notificationId : Nat)
    (messageId : String) (w : World) : Option World :=
  if w.notificationStates.any (fun n => n.id == notificationId) then
    some { w with
      notificationStates := w.notificationStates.map (fun n =>
        if n.id == notificationId then
          { n with messageId := messageId, userList := userListForStorage,
                   lastUpdated := env.clock w.tick }
        else n)
      tick := w.tick + 1 }
  else none

/-- Body of the loop of the queued refresh for one notification. A throwing store call
is caught by the per-notification `try` and leaves the state as it was at the throw. The
counters `updatedCount` and `failedCount` only feed a log line and are left out. -/
def refreshOne (env : Env) (job : UpdateJob) (w : World) (notification : NotificationState) :
    World :=
  if hasUser job.currentUsers notification.userId then w
  else
    let u := updateDMMessage env notification job.currentUsers job.guildConfig
      job.monitoredChannel w
    if u.1 then
      match updateNotificationState env notification.id job.userListForStorage u.2 with
      | some w2 => w2
      | none => u.2
    else
      let h := handleFailedMessageUpdate env notification job.currentUsers job.guildConfig
        job.monitoredChannel (resendCallback env job.userListForStorage) u.2
      if truthy h.1 then h.2
      else
        match deactivateNotification notification.id h.2 with
        | some w3 => w3
        | none => h.2

/-- The queued refresh itself: the loop over the notifications captured at enqueue time.
Every throw is caught inside the loop, so the function always resolves. -/
def runUpdateJob (env : Env) (job : UpdateJob) (w : World) : World × Bool :=
  (job.activeNotifications.foldl (refreshOne env job) w, true)

/-- The method `updateExistingNotifications`. -/
def updateExistingNotifications (guildId channelId sessionId : String)
    (currentUsers : List Member) (guildConfig : GuildConfig)
    (monitoredChannel : MonitoredChannel) (w : World) : World :=
  let activeNotifications := getActiveNotifications guildId channelId sessionId w
  if activeNotifications.length == 0 then w
  else
    { w with
      messageUpdateService := w.messageUpdateService.queueUpdate
        (updateKey guildId channelId sessionId)
        { activeNotifications := activeNotifications, currentUsers := currentUsers,
          userListForStorage := formatUserListForStorage currentUsers,
          guildConfig := guildConfig, monitoredChannel := monitoredChannel }
        500 }

/-- The lookup `prisma.guild.findUnique({ where: { id } })`. -/
def findGuild (guildId : String) (w : World) : Option GuildConfig :=
  w.guilds.find? (fun g => g.id == guildId)

/-- The lookup `prisma.monitoredChannel.findFirst({ where: { guildId, channelId } })`. -/
def findMonitoredChannel (guildId channelId : String) (w : World) : Option MonitoredChannel :=
  w.monitoredChannels.find? (fun m => m.guildId == guildId && m.channelId == channelId)

/-- The method `handleUserJoinedChannel`. A state without channel makes the handler throw
at once, which its `try` catches. -/
def handleUserJoinedChannel (env : Env) (voiceState : VoiceState) (w : World) : World :=
  match voiceState.channel with
  | none => w
  | some channel =>
    match findGuild voiceState.guildId w,
      findMonitoredChannel voiceState.guildId channel.id w with
    | some guildConfig, some monitoredChannel =>
      let currentUsers := nonBots channel.members
      if (currentUsers.length : Int) > guildConfig.maxUsers then w
      else
        let a := getActiveChannelSession voiceState.guildId channel.id w
        match a.1 with
        | none =>
          if currentUsers.length ≥ 1 then
            startNewNotificationSession env voiceState.guildId channel currentUsers
              guildConfig monitoredChannel a.2
          else a.2
        | some activeSession =>
          if currentUsers.length > 1 then
            updateExistingNotifications voiceState.guildId channel.id activeSession.sessionId
              currentUsers guildConfig monitoredChannel a.2
          else a.2
    | _, _ => w

/-- The method `handleUserLeftChannel`. -/
def handleUserLeftChannel (env : Env) (voiceState : VoiceState) (w : World) : World :=
  match voiceState.channel with
  | none => w
  | some channel =>
    let remainingUsers := nonBots channel.members
    if remainingUsers.length == 0 then
      endSession env voiceState.guildId channel.id w
    else
      let a := getActiveChannelSession voiceState.guildId channel.id w
      match a.1 with
      | some activeSession =>
        match findGuild voiceState.guildId a.2,
          findMonitoredChannel voiceState.guildId channel.id a.2 with
        | some guildConfig, some monitoredChannel =>
          updateExistingNotifications voiceState.guildId channel.id activeSession.sessionId
            remainingUsers guildConfig monitoredChannel a.2
        | _, _ => a.2
      | none => a.2

/-- A pending debounce timeout fires while no handler is running, and no handler runs
until the refresh has come to its end. -/
def timerFires (env : Env) (t : Nat) (w : World) : World :=
  let r := MessageUpdateService.fireTimer (runUpdateJob env) t w.messageUpdateService w
  { r.2.1 with messageUpdateService := r.1 }

/-- The method `shutdown`: flush the queue, then clear the session cache. `settle` is the
way the started refreshes run to their end (see `flushQueue`). -/
def shutdown (settle : List (String × UpdateJob) → World → World) (w : World) : World :=
  let r := MessageUpdateService.flushQueue settle w.messageUpdateService w
  clearCache { r.2.1 with messageUpdateService := r.1 }

/-- The runtime fires the pending debounce timeout `t`: the queued refresh is called and
is suspended at its first `await`, before any of its calls to Discord or to the store. -/
def timeoutStarts (t : Nat) (w : World) : World × Option (Timer UpdateJob) :=
  let r := MessageUpdateService.timeoutFires t w.messageUpdateService
  ({ w with messageUpdateService := r.1 }, r.2)

/-- A refresh started by the timeout `tm` runs to its end and the callback of the timeout
deletes its key from the queue. The refresh was suspended before any of its calls, and
all of them are made here, after whatever was handled since the timeout fired. -/
def refreshEnds (env : Env) (tm : Timer UpdateJob) (w : World) : World :=
  let r := runUpdateJob env tm.updateFunction w
  { r.1 with
    messageUpdateService :=
      MessageUpdateService.callbackEnds tm.key r.1.messageUpdateService }

/-- What can happen to the running bot: a join or a leave is handled, or a pending
debounce timeout fires. -/
inductive Action where
  | join (voiceState : VoiceState)
  | leave (voiceState : VoiceState)
  | timer (t : Nat)
deriving DecidableEq, Repr

/-- One action, processed to completion. -/
def step (env : Env) (w : World) : Action → World
  | Action.join voiceState => handleUserJoinedChannel env voiceState w
  | Action.leave voiceState => handleUserLeftChannel env voiceState w
  | Action.timer t => timerFires env t w

/-- A finite sequence of actions processed one after the other. -/
def run (env : Env) (w : World) (actions : List Action) : World :=
  actions.foldl (step env) w

/-- The number of active sessions of a channel in the store. -/
def activeCount (guildId channelId : String) (w : World) : Nat :=
  (w.channelSessions.filter (sessionMatches guildId channelId)).length

/-! ## Relations used to state how the notification table evolves -/

/-- How one notification row may change while the table is rewritten in place: identity
fields stay, the row is not activated, and a row whose id is marked by `kept` does not
change at all. -/
def RowKept (kept : Nat → Bool) (before after : NotificationState) : Prop :=
  after.id = before.id ∧ after.guildId = before.guildId ∧
    after.channelId = before.channelId ∧ after.userId = before.userId ∧
    after.sessionId = before.sessionId ∧
    (after.isActive = true → before.isActive = true) ∧
    (kept before.id = true → after = before)

/-- The id has been handed out by the store and no row with this id is active. -/
def DeadId (i : Nat) (w : World) : Prop :=
  i < w.nextId ∧ ∀ r ∈ w.notificationStates, r.id = i → r.isActive = false

/-- The test "active notification of this user in this session". -/
def activeFor (userId sessionId : String) (r : NotificationState) : Bool :=
  r.userId == userId && r.sessionId == sessionId && r.isActive


/-! ## `MessageFormatter` -/

/-- The method `Array.prototype.join(sep)` on an array of strings. -/
def join (sep : String) : List String → String
  | [] => ""
  | [a] => a
  | a :: b :: rest => a ++ sep ++ join sep (b :: rest)

/-- The call `usernames.slice(0, end)`: a negative `end` counts from the end of the array. -/
def slice0 (xs : List String) (e : Int) : List String :=
  if e < 0 then xs.take ((xs.length : Int) + e).toNat else xs.take e.toNat

/-- The value of `xs.pop()` as it is printed by a template literal: the last element, or
`undefined` for an empty array. -/
def popped (xs : List String) : String :=
  xs.getLast?.getD "undefined"

/-- The value of `xs[0]` as it is printed by a template literal. -/
def first (xs : List String) : String :=
  xs.head?.getD "undefined"

/-- The method `formatUserList(usernames, maxDisplay)`. It returns the formatted text and,
because one branch calls `usernames.pop()`, the contents of the array `usernames` after
the call. The array is an array of strings; a null argument is left out. -/
def formatUserList (usernames : List String) (maxDisplay : Int) : String × List String :=
  if usernames.length == 0 then ("No users", usernames)
  else if (usernames.length : Int) ≤ maxDisplay then
    match usernames with
    | [a] => (a, usernames)
    | [a, b] => (a ++ " and " ++ b, usernames)
    | _ =>
      (join ", " usernames.dropLast ++ ", and " ++ popped usernames, usernames.dropLast)
  else
    let displayUsers := slice0 usernames maxDisplay
    let remainingCount : Int := (usernames.length : Int) - maxDisplay
    if displayUsers.length == 1 then
      (first displayUsers ++ " and " ++ toString remainingCount ++ " other" ++
        (if remainingCount = 1 then "" else "s"), usernames)
    else
      (join ", " displayUsers.dropLast ++ ", " ++ popped displayUsers ++ ", and " ++
        toString remainingCount ++ " other" ++ (if remainingCount = 1 then "" else "s"),
        usernames)

/-- The replacement text of `String.prototype.replace` for one match of a pattern without
capture groups, read from left to right; `pending` says that the character just passed
was a dollar sign that is not yet accounted for. `$$` is a dollar sign, `$&` the match,
the dollar sign followed by a backquote the text before the match, the dollar sign
followed by a quote the text after it; every other character, a dollar sign before a
digit included, stands for itself. -/
def expandGo (matched before after : List Char) : Bool → List Char → List Char
  | false, [] => []
  | true, [] => ['$']
  | false, c :: rest =>
    if c = '$' then expandGo matched before after true rest
    else c :: expandGo matched before after false rest
  | true, d :: rest =>
    if d = '$' then '$' :: expandGo matched before after false rest
    else if d = '&' then matched ++ expandGo matched before after false rest
    else if d = '\x60' then before ++ expandGo matched before after false rest
    else if d = '\x27' then after ++ expandGo matched before after false rest
    else '$' :: d :: expandGo matched before after false rest

/-- The replacement text for one match. -/
def expandReplacement (matched before after repl : List Char) : List Char :=
  expandGo matched before after false repl

/-- The scan of `text.replace(/pat/g, repl)` for a literal, non-empty pattern: `before` is
the text already passed and `skip` the number of characters of the current match still
to pass. Matches are found from left to right and do not overlap. -/
def replaceGo (pat repl : List Char) : List Char → Nat → List Char → List Char
  | _, _, [] => []
  | before, skip + 1, c :: rest => replaceGo pat repl (before ++ [c]) skip rest
  | before, 0, c :: rest =>
    if pat.isPrefixOf (c :: rest) then
      expandReplacement pat before ((c :: rest).drop pat.length) repl ++
        replaceGo pat repl (before ++ [c]) (pat.length - 1) rest
    else c :: replaceGo pat repl (before ++ [c]) 0 rest

/-- The call `text.replace(/pat/g, repl)` for a literal, non-empty pattern. -/
def replaceAll (pat repl text : List Char) : List Char :=
  replaceGo pat repl [] 0 text

/-- The three template variables. -/
inductive Placeholder where
  | channelName
  | userList
  | emoji
deriving DecidableEq, Repr

/-- The text of a template variable in a template. -/
def Placeholder.pattern : Placeholder → List Char
  | Placeholder.channelName => "\x7bchannelName\x7d".data
  | Placeholder.userList => "\x7buserList\x7d".data
  | Placeholder.emoji => "\x7bemoji\x7d".data

/-- The value that `formatNotificationMessage` substitutes for the emoji: the speaker
emoji when the given one is missing or empty. -/
def emojiOrDefault (emoji : Option String) : String :=
  if truthy emoji then emoji.getD "" else "🔊"

/-- The method `formatNotificationMessage(template, { channelName, userList, emoji })` for
strings: four global replacements, one after the other, the last one for the legacy
variable that starts with a hash sign. -/
def formatNotificationMessage (template channelName userList : String)
    (emoji : Option String) : String :=
  let m1 := replaceAll Placeholder.channelName.pattern channelName.data template.data
  let m2 := replaceAll Placeholder.userList.pattern userList.data m1
  let m3 := replaceAll Placeholder.emoji.pattern (emojiOrDefault emoji).data m2
  let m4 := replaceAll ('#' :: Placeholder.channelName.pattern) channelName.data m3
  String.mk m4

/-- The values substituted for the template variables. -/
def templateValues (channelName userList : String) (emoji : Option String) :
    Placeholder → List Char
  | Placeholder.channelName => channelName.data
  | Placeholder.userList => userList.data
  | Placeholder.emoji => (emojiOrDefault emoji).data

/-- The template variable, if any, whose text starts the given text. -/
def placeholderAt (text : List Char) : Option Placeholder :=
  if Placeholder.channelName.pattern.isPrefixOf text then some Placeholder.channelName
  else if Placeholder.userList.pattern.isPrefixOf text then some Placeholder.userList
  else if Placeholder.emoji.pattern.isPrefixOf text then some Placeholder.emoji
  else none

/-- What the description of `formatNotificationMessage` says, in one pass from left to
right: every occurrence of a template variable is replaced by its value and every other
character is kept; `skip` counts the characters of the current occurrence still to
pass. -/
def substituteGo (values : Placeholder → List Char) : Nat → List Char → List Char
  | _, [] => []
  | skip + 1, _ :: rest => substituteGo values skip rest
  | 0, c :: rest =>
    match placeholderAt (c :: rest) with
    | some p => values p ++ substituteGo values (p.pattern.length - 1) rest
    | none => c :: substituteGo values 0 rest

/-- The template with every occurrence of a template variable replaced by its value. -/
def substitutePlaceholders (values : Placeholder → List Char) (template : List Char) :
    List Char :=
  substituteGo values 0 template

/-- A piece of a template: plain text or a template variable. -/
inductive Segment where
  | text (s : List Char)
  | hole (p : Placeholder)
deriving DecidableEq, Repr

/-- The template text made of the given pieces. -/
def renderTemplate : List Segment → List Char
  | [] => []
  | Segment.text s :: rest => s ++ renderTemplate rest
  | Segment.hole p :: rest => p.pattern ++ renderTemplate rest

/-- The pieces with every template variable filled in. -/
def fillTemplate (values : Placeholder → List Char) : List Segment → List Char
  | [] => []
  | Segment.text s :: rest => s ++ fillTemplate values rest
  | Segment.hole p :: rest => values p ++ fillTemplate values rest

/-- The name that `sendNewDM` and `updateDMMessage` show for a member:
`member.displayName || member.user.displayName`. -/
def shownName (m : Member) : Option String :=
  if truthy m.displayName then m.displayName else m.userDisplayName

/-- The list of the values when every one is present. -/
def allPresent : List (Option String) → Option (List String)
  | [] => some []
  | none :: _ => none
  | some a :: rest => (allPresent rest).map (fun names => a :: names)

/-- The array `usernames` built by `sendNewDM` and `updateDMMessage`; `none` when some
member has no name at all, which discord.js rules out. -/
def usernamesOf (currentUsers : List Member) : Option (List String) :=
  allPresent ((nonBots currentUsers).map shownName)

/-- The formatted user list that a call to the Discord client puts into the DM. -/
def DiscordCall.userListText : DiscordCall → Option String
  | DiscordCall.sendNewDM _ currentUsers guildConfig _ =>
    (usernamesOf currentUsers).map (fun names =>
      (formatUserList names guildConfig.maxDisplayUsers).1)
  | DiscordCall.updateDMMessage _ _ currentUsers guildConfig _ =>
    (usernamesOf currentUsers).map (fun names =>
      (formatUserList names guildConfig.maxDisplayUsers).1)

/-- The content of the DM that a call to the Discord client sends or writes. -/
def DiscordCall.content : DiscordCall → Option String
  | DiscordCall.sendNewDM userId currentUsers guildConfig monitoredChannel =>
    (DiscordCall.userListText
      (DiscordCall.sendNewDM userId currentUsers guildConfig monitoredChannel)).map
      (fun userList => formatNotificationMessage guildConfig.customMessage
        monitoredChannel.channelName userList (some monitoredChannel.emoji))
  | DiscordCall.updateDMMessage userId messageId currentUsers guildConfig monitoredChannel =>
    (DiscordCall.userListText
      (DiscordCall.updateDMMessage userId messageId currentUsers guildConfig
        monitoredChannel)).map
      (fun userList => formatNotificationMessage guildConfig.customMessage
        monitoredChannel.channelName userList (some monitoredChannel.emoji))

/-- One piece after the variable `p` has been replaced by the text `v`. -/
def Segment.fill (p : Placeholder) (v : List Char) : Segment → Segment
  | Segment.hole q => if q = p then Segment.text v else Segment.hole q
  | Segment.text s => Segment.text s

/-- No plain-text piece contains an opening brace: every opening brace of the template
starts a template variable. -/
def BraceFree (segs : List Segment) : Prop :=
  ∀ s, Segment.text s ∈ segs → ∀ c ∈ s, c ≠ '\x7b'

/-- Whether a call to the Discord client sends a new DM (rather than edits one). -/
def DiscordCall.isSend : DiscordCall → Bool
  | DiscordCall.sendNewDM _ _ _ _ => true
  | DiscordCall.updateDMMessage _ _ _ _ _ => false


/-! ## Startup cleanup and the operations on the store -/

/-- What the Discord client answers when `cleanupOrphanedSessions` resolves the guild and
the channel of a session: a fetch throws, the channel is null, or the channel is there. -/
inductive ChannelLookup where
  | failed
  | missing
  | found (channel : VoiceChannel)
deriving DecidableEq, Repr

/-- Body of the loop of `cleanupOrphanedSessions` for one session; `client` is the answer
of the Discord client for the session being checked. The `try` branch ends the session
when the channel is null or has no non-bot member, the `catch` branch ends it when a
fetch throws. -/
def cleanupOne (env : Env) (client : ChannelSession → ChannelLookup) (w : World)
    (session : ChannelSession) : World :=
  match client session with
  | ChannelLookup.found channel =>
    if (nonBots channel.members).length == 0 then
      endSession env session.guildId session.channelId w
    else w
  | ChannelLookup.missing => endSession env session.guildId session.channelId w
  | ChannelLookup.failed => endSession env session.guildId session.channelId w

/-- The method `cleanupOrphanedSessions(discordClient)`: the loop over the sessions that
are active when it starts. -/
def cleanupOrphanedSessions (env : Env) (client : ChannelSession → ChannelLookup)
    (w : World) : World :=
  (w.channelSessions.filter (fun s => s.isActive)).foldl (cleanupOne env client) w

/-- The guild and the channel of the session resolve and the channel has a non-bot
member. -/
def resolvesOccupied (client : ChannelSession → ChannelLookup) (session : ChannelSession) :
    Bool :=
  match client session with
  | ChannelLookup.found channel => !((nonBots channel.members).length == 0)
  | ChannelLookup.missing => false
  | ChannelLookup.failed => false

/-- The operations of the system that write to the notification table or end sessions. -/
inductive StoreOp where
  | createNotificationState (guildId channelId userId messageId sessionId : String)
      (userList : List StoredUser)
  | updateNotificationState (notificationId : Nat) (userList : List StoredUser)
  | deactivateNotification (notificationId : Nat)
  | endSession (guildId channelId : String)
  | resendCallback (userList : List StoredUser) (notificationId : Nat) (messageId : String)
  | cleanupOrphanedSessions (client : ChannelSession → ChannelLookup)

/-- The state after an operation, `none` when the operation throws. -/
def applyStoreOp (env : Env) : StoreOp → World → Option World
  | StoreOp.createNotificationState guildId channelId userId messageId sessionId userList, w =>
    some (createNotificationState env guildId channelId userId messageId sessionId userList w).2
  | StoreOp.updateNotificationState notificationId userList, w =>
    updateNotificationState env notificationId userList w
  | StoreOp.deactivateNotification notificationId, w => deactivateNotification notificationId w
  | StoreOp.endSession guildId channelId, w => some (endSession env guildId channelId w)
  | StoreOp.resendCallback userList notificationId messageId, w =>
    resendCallback env userList notificationId messageId w
  | StoreOp.cleanupOrphanedSessions client, w => some (cleanupOrphanedSessions env client w)

/-- The environment in which the `k` consultations from tick `t0` on did not take place:
later consultations get the answers that `env` gives `k` ticks later. -/
def Env.without (env : Env) (t0 k : Nat) : Env :=
  { clock := fun t => env.clock (if t < t0 then t else t + k)
    randomBytes := fun t => env.randomBytes (if t < t0 then t else t + k)
    sendDM := fun t => env.sendDM (if t < t0 then t else t + k)
    editDM := fun t => env.editDM (if t < t0 then t else t + k) }

/-- Some session of the list fails the check and has the guild and channel of `s`: the
loop over the list calls `endSession` for the key of `s`. -/
def endedBy (client : ChannelSession → ChannelLookup) (l : List ChannelSession)
    (s : ChannelSession) : Bool :=
  l.any (fun x => !resolvesOccupied client x && x.guildId == s.guildId &&
    x.channelId == s.channelId)

/-- How one session row relates to itself after the cleanup loop over the list `l`: an
active row whose key is ended by the loop is inactive with `endedAt` set, every other row
is unchanged. -/
def CleanedRow (client : ChannelSession → ChannelLookup) (l : List ChannelSession)
    (before after : ChannelSession) : Prop :=
  after.id = before.id ∧ after.guildId = before.guildId ∧
    after.channelId = before.channelId ∧
    (if before.isActive = true ∧ endedBy client l before = true then
      after.isActive = false ∧ after.endedAt.isSome = true
    else after = before)

/-- What one iteration of the queued refresh does for the notification `m`, as a function
of the answers of the environment (whether the edit succeeds, what the send returns, the
two clock readings) and of whether the table has a row with the id of `m`: how that row
is rewritten, how many consultations take place, and which calls are made. -/
def refreshEffect (job : UpdateJob) (m : NotificationState) (edit : Bool)
    (send : Option String) (clock1 clock2 : Nat) (found : Bool) :
    (NotificationState → NotificationState) × Nat × List DiscordCall :=
  if hasUser job.currentUsers m.userId then (fun r => r, 0, [])
  else if edit then
    if found then
      (fun r => { r with userList := job.userListForStorage, lastUpdated := clock1 }, 2,
        [DiscordCall.updateDMMessage m.userId m.messageId job.currentUsers job.guildConfig
          job.monitoredChannel])
    else
      (fun r => r, 1,
        [DiscordCall.updateDMMessage m.userId m.messageId job.currentUsers job.guildConfig
          job.monitoredChannel])
  else
    match send with
    | some messageId =>
      if found then
        (fun r =>
          { r with
            messageId := messageId, userList := job.userListForStorage,
            lastUpdated := clock2, isActive := r.isActive && truthy (some messageId) }, 3,
          [DiscordCall.updateDMMessage m.userId m.messageId job.currentUsers job.guildConfig
            job.monitoredChannel,
           DiscordCall.sendNewDM m.userId job.currentUsers job.guildConfig
            job.monitoredChannel])
      else
        (fun r => r, 2,
          [DiscordCall.updateDMMessage m.userId m.messageId job.currentUsers job.guildConfig
            job.monitoredChannel,
           DiscordCall.sendNewDM m.userId job.currentUsers job.guildConfig
            job.monitoredChannel])
    | none =>
      (fun r => { r with isActive := false }, 2,
        [DiscordCall.updateDMMessage m.userId m.messageId job.currentUsers job.guildConfig
          job.monitoredChannel,
         DiscordCall.sendNewDM m.userId job.currentUsers job.guildConfig
          job.monitoredChannel])

/-- Two rows have the same id and, unless that id is `i`, are equal. -/
def SameExcept (i : Nat) (a b : NotificationState) : Prop :=
  a.id = b.id ∧ (a.id ≠ i → a = b)

/-- The effect of one iteration at the world `w` under the answers that `env` gives at
the ticks the iteration consults. -/
def refreshEffectAt (env : Env) (job : UpdateJob) (w : World) (m : NotificationState) :
    (NotificationState → NotificationState) × Nat × List DiscordCall :=
  refreshEffect job m (env.editDM w.tick m.userId m.messageId)
    (env.sendDM (w.tick + 1) m.userId) (env.clock (w.tick + 1)) (env.clock (w.tick + 2))
    (w.notificationStates.any (fun r => r.id == m.id))

/-! ## `handleVoiceStateUpdate`, subscriptions, ledger pruning, session operations -/

/-- The method `handleVoiceStateUpdate(newState, oldState)`: three tests on the two
states, one after the other. -/
def handleVoiceStateUpdate (env : Env) (newState oldState : VoiceState) (w : World) : World :=
  let w1 :=
    if oldState.channel.isNone && newState.channel.isSome then
      handleUserJoinedChannel env newState w
    else w
  let w2 :=
    if oldState.channel.isSome && newState.channel.isNone then
      handleUserLeftChannel env oldState w1
    else w1
  match oldState.channel, newState.channel with
  | some oldChannel, some newChannel =>
    if oldChannel.id != newChannel.id then
      handleUserJoinedChannel env newState (handleUserLeftChannel env oldState w2)
    else w2
  | _, _ => w2

/-- The user of a reaction event. -/
structure ReactingUser where
  id : String
  bot : Bool
deriving DecidableEq, Repr

/-- A discord.js `MessageReaction`, as far as `handleReactionAdd` reads it:
`message.guild?.id` and `emoji.toString()`. -/
structure MessageReaction where
  guildId : Option String
  emoji : String
deriving DecidableEq, Repr

/-- The lookup `prisma.monitoredChannel.findFirst({ where: { guildId, emoji } })`. -/
def findMonitoredChannelByEmoji (guildId emoji : String) (w : World) :
    Option MonitoredChannel :=
  w.monitoredChannels.find? (fun m => m.guildId == guildId && m.emoji == emoji)

/-- The method `addSubscription`: an upsert on the unique triple with an empty update. -/
def addSubscription (guildId userId channelId : String) (w : World) : World :=
  if w.userSubscriptions.any (fun u =>
      u.guildId == guildId && u.userId == userId && u.channelId == channelId) then w
  else
    { w with
      userSubscriptions := w.userSubscriptions ++
        [{ guildId := guildId, userId := userId, channelId := channelId }] }

/-- The method `handleReactionAdd(reaction, user)`. The flag says that the promise
resolves; the `catch` of the method swallows every throw, so it always does. -/
def handleReactionAdd (reaction : MessageReaction) (user : ReactingUser) (w : World) :
    World × Bool :=
  if user.bot then (w, true)
  else if !truthy reaction.guildId then (w, true)
  else
    match findMonitoredChannelByEmoji (reaction.guildId.getD "") reaction.emoji w with
    | none => (w, true)
    | some monitoredChannel =>
      (addSubscription (reaction.guildId.getD "") user.id monitoredChannel.channelId w, true)

/-- The method `cleanupRateLimits()`: the loop over the entries of the ledger deletes the
key of every entry older than five minutes. -/
def cleanupRateLimits (env : Env) (w : World) : World :=
  let now := env.clock w.tick
  let cutoff : Int := (now : Int) - 300000
  { w with
    rateLimitMap := w.rateLimitMap.foldl
      (fun m e => if (e.2 : Int) < cutoff then m.delete e.1 else m) w.rateLimitMap
    tick := w.tick + 1 }

/-- The calls to the session service that read or write the session cache. -/
inductive SessionOp where
  | getActiveChannelSession (guildId channelId : String)
  | startNewSession (guildId channelId : String)
  | endSession (guildId channelId : String)
  | cleanupOrphanedSessions (client : ChannelSession → ChannelLookup)
  | clearCache

/-- The state after a call to the session service. -/
def applySessionOp (env : Env) (w : World) : SessionOp → World
  | SessionOp.getActiveChannelSession guildId channelId =>
    (getActiveChannelSession guildId channelId w).2
  | SessionOp.startNewSession guildId channelId => (startNewSession env guildId channelId w).2
  | SessionOp.endSession guildId channelId => endSession env guildId channelId w
  | SessionOp.cleanupOrphanedSessions client => cleanupOrphanedSessions env client w
  | SessionOp.clearCache => clearCache w

/-- A sequence of calls to the session service, one after the other. -/
def runSessionOps (env : Env) (w : World) (ops : List SessionOp) : World :=
  ops.foldl (applySessionOp env) w

/-- The number that a list of decimal digits stands for. -/
def decimalValue (digits : List Char) : Nat :=
  digits.foldl (fun acc c => 10 * acc + (c.toNat - 48)) 0

/-- The eight hexadecimal digits of the random bytes. -/
def hexBytes (r : RandomBytes4) : String :=
  hexByte r.b0 ++ hexByte r.b1 ++ hexByte r.b2 ++ hexByte r.b3

/-- Every entry of the session cache sits under the key of its own guild and channel and
is an active row of the session table. -/
def CacheCoherent (w : World) : Prop :=
  ∀ e ∈ w.activeSessions,
    e.1 = cacheKey e.2.guildId e.2.channelId ∧ e.2 ∈ w.channelSessions ∧ e.2.isActive = true

/-! ## Example data -/

namespace Example

/-- An environment whose clock advances one millisecond per tick, in which every DM can
be sent and every edit succeeds. -/
def env : Env :=
  { clock := fun t => 1000 + t
    randomBytes := fun _ => { b0 := 0, b1 := 1, b2 := 2, b3 := 255 }
    sendDM := fun t u => some ("m" ++ toString t ++ u)
    editDM := fun _ _ _ => true }

/-- A human member with the given id. -/
def human (id : String) : Member :=
  { id := id, bot := false, username := id, displayName := some id, userDisplayName := none,
    avatar := none }

/-- The voice state of guild `g` for channel `c` with the given members. -/
def voice (members : List Member) : VoiceState :=
  { guildId := "g", channel := some { id := "c", name := "C", members := members } }

/-- The configuration row of guild `g`. -/
def guild : GuildConfig :=
  { id := "g", maxUsers := 10, maxDisplayUsers := 5, customMessage := "hello" }

/-- The row that registers channel `c` of guild `g` as monitored. -/
def monitored : MonitoredChannel :=
  { guildId := "g", channelId := "c", channelName := "C", emoji := "e" }

/-- A configured guild with one monitored channel and two subscribers, nothing else. -/
def world : World :=
  { World.init with
    guilds := [guild]
    monitoredChannels := [monitored]
    userSubscriptions :=
      [{ guildId := "g", userId := "U1", channelId := "c" },
       { guildId := "g", userId := "U2", channelId := "c" }] }

/-- A joins, B joins, the debounce timeout fires, A leaves, B leaves. -/
def actions : List Action :=
  [Action.join (voice [human "A"]), Action.join (voice [human "A", human "B"]),
   Action.timer 0, Action.leave (voice [human "B"]), Action.leave (voice [])]

/-- A store in which channel `c` has no session at all but one active notification row. -/
def orphanWorld : World :=
  { world with
    notificationStates :=
      [{ id := 0, guildId := "g", channelId := "c", userId := "U1", messageId := "m1",
         sessionId := "session_1_00000000", isActive := true, userList := [],
         lastUpdated := 1, createdAt := 1 }]
    nextId := 1 }

/-- An environment in which no stored DM can be edited and every send succeeds. -/
def envResend : Env :=
  { env with editDM := fun _ _ _ => false, sendDM := fun _ u => some ("new-" ++ u) }

/-- An environment in which nobody can be reached. -/
def envUnreachable : Env :=
  { env with editDM := fun _ _ _ => false, sendDM := fun _ _ => none }

/-- The active notification of subscriber U1 in session `s` of channel `c`. -/
def rowU1 : NotificationState :=
  { id := 1, guildId := "g", channelId := "c", userId := "U1", messageId := "old",
    sessionId := "s", isActive := true, userList := [], lastUpdated := 1, createdAt := 1 }

/-- A store holding just that notification. -/
def worldU1 : World :=
  { world with notificationStates := [rowU1], nextId := 2 }

/-- The refresh queued when A and B are in the channel. -/
def jobAB : UpdateJob :=
  { activeNotifications := [rowU1], currentUsers := [human "A", human "B"],
    userListForStorage := formatUserListForStorage [human "A", human "B"],
    guildConfig := guild, monitoredChannel := monitored }

/-- The refresh queued when A and the subscriber U1 are in the channel. -/
def jobWithU1 : UpdateJob :=
  { activeNotifications := [rowU1], currentUsers := [human "A", human "U1"],
    userListForStorage := formatUserListForStorage [human "A", human "U1"],
    guildConfig := guild, monitoredChannel := monitored }

/-- The example guild with the limit lowered to one occupant. -/
def crowdedWorld : World :=
  { world with guilds := [{ guild with maxUsers := 1 }] }

/-- Queued functions named by numbers: awaiting one records its number, and function `2`
rejects. -/
def record (f : Nat) (st : List Nat) : List Nat × Bool :=
  (st ++ [f], f != 2)

end Example

namespace Example

/-- The active notification of subscriber U2 in the same session. -/
def rowU2 : NotificationState :=
  { id := 2, guildId := "g", channelId := "c", userId := "U2", messageId := "old2",
    sessionId := "s", isActive := true, userList := [], lastUpdated := 1, createdAt := 1 }

/-- A store holding the notifications of U1 and U2. -/
def worldU1U2 : World :=
  { world with notificationStates := [rowU1, rowU2], nextId := 3 }

/-- An environment in which U1 can be reached neither by an edit nor by a new DM, and
everybody else by both. -/
def envU1Unreachable : Env :=
  { env with
    editDM := fun _ u _ => u != "U1"
    sendDM := fun t u => if u == "U1" then none else some ("m" ++ toString t ++ u) }

/-- The refresh over the notifications of U1 and U2, queued when A and B are in the
channel. -/
def jobU1U2 : UpdateJob :=
  { jobAB with activeNotifications := [rowU1, rowU2] }

/-- A store with two active sessions of guild `g`, for the channels `c` and `d`. -/
def worldTwoSessions : World :=
  { world with
    channelSessions :=
      [{ id := 0, guildId := "g", channelId := "c", sessionId := "s", isActive := true,
         startedAt := 1, endedAt := none },
       { id := 1, guildId := "g", channelId := "d", sessionId := "t", isActive := true,
         startedAt := 2, endedAt := none }]
    nextId := 2 }

/-- A client that finds channel `c` with A in it and fails to fetch anything else. -/
def client (session : ChannelSession) : ChannelLookup :=
  if session.channelId == "c" then
    ChannelLookup.found { id := "c", name := "C", members := [human "A"] }
  else ChannelLookup.failed

end Example

namespace Example

/-- A bot member with the given id. -/
def bot (id : String) : Member :=
  { id := id, bot := true, username := id, displayName := some id, userDisplayName := none,
    avatar := none }

/-- The example store after A joined the empty channel `c`. -/
def worldAfterJoin : World :=
  handleUserJoinedChannel env (voice [human "A"]) world

/-- The voice state of guild `g` for a second channel `d` with the given members. -/
def voiceD (members : List Member) : VoiceState :=
  { guildId := "g", channel := some { id := "d", name := "D", members := members } }

/-- The configured guild without any subscriber. -/
def worldNoSubscribers : World :=
  { world with userSubscriptions := [] }

/-- A member whose own display name is empty, so that the one of the user is shown. -/
def memberGlobalName : Member :=
  { id := "M", bot := false, username := "m", displayName := some "",
    userDisplayName := some "Em", avatar := some "pic" }

/-- A ledger with an entry older than five minutes at time 400000 and a recent one. -/
def worldLedger : World :=
  { world with rateLimitMap := [("U1-g", 50000), ("U2-g", 399000)] }

/-- An environment whose clock reads 400000 at tick 0. -/
def envLate : Env :=
  { env with clock := fun t => 400000 + t }

end Example

namespace Example

/-- The session that the example environment starts for channel `c` at tick 0. -/
def sessionC : ChannelSession :=
  { id := 0, guildId := "g", channelId := "c", sessionId := "session_1000_000102ff",
    isActive := true, startedAt := 1001, endedAt := none }

/-- A store after a restart: the guild has no subscriber, A has started a session of
channel `c`, and the session cache is empty. -/
def worldRestarted : World :=
  clearCache (handleUserJoinedChannel env (voice [human "A"]) worldNoSubscribers)

end Example

namespace Example

/-- A joins, B joins, A leaves, B leaves: the session of channel `c` has ended and the
refresh queued when A left is still pending. -/
def worldEndedPending : World :=
  run env world
    [Action.join (voice [human "A"]), Action.join (voice [human "A", human "B"]),
     Action.leave (voice [human "B"]), Action.leave (voice [])]

end Example

namespace Example

/-- Calls to the session service: a session of channel `c` is started, looked up, ended
and looked up again; then a session of channel `d` is started, the cache is cleared and
the session is looked up. -/
def sessionOps : List SessionOp :=
  [SessionOp.startNewSession "g" "c", SessionOp.getActiveChannelSession "g" "c",
   SessionOp.endSession "g" "c", SessionOp.getActiveChannelSession "g" "c",
   SessionOp.startNewSession "g" "d", SessionOp.clearCache,
   SessionOp.getActiveChannelSession "g" "d"]

end Example

namespace Example

/-- Function 0 was queued for key `k` on a fresh service and its timeout has fired: the
callback awaits function 0. -/
def serviceAwaiting : MessageUpdateService Nat :=
  (MessageUpdateService.timeoutFires 0
    (MessageUpdateService.queueUpdate MessageUpdateService.empty "k" 0 500)).1

/-- While the callback awaited function 0, function 1 was queued for `k`; then the
callback came back from its `await`. -/
def serviceRaced : MessageUpdateService Nat :=
  MessageUpdateService.callbackEnds "k"
    (MessageUpdateService.queueUpdate serviceAwaiting "k" 1 500)

/-- B has joined A in channel `c` and the timeout of the refresh queued for it has fired:
the refresh is started and awaits Discord. -/
def worldRefreshStarted : World × Option (Timer UpdateJob) :=
  timeoutStarts 0
    (handleUserJoinedChannel env (voice [human "A", human "B"]) worldAfterJoin)

/-- While that refresh awaited, C joined A and B and a refresh was queued for it; then
the first refresh came to its end. -/
def worldRaced : World :=
  match worldRefreshStarted.2 with
  | some tm =>
    refreshEnds env tm
      (handleUserJoinedChannel env (voice [human "A", human "B", human "C"])
        worldRefreshStarted.1)
  | none => worldRefreshStarted.1

end Example

/-! ## Frame lemmas: which operations leave the session table alone -/

/-- The uninterrupted firing written out: the timeout is dropped, the function awaited and
the key deleted. -/
theorem MessageUpdateService.fireTimer_eq {F σ : Type} (exec : F → σ → σ × Bool) (t : Nat)
    (s : MessageUpdateService F) (st : σ) :
    MessageUpdateService.fireTimer exec t s st
      = match s.timers.find? (fun x => x.id == t) with
        | none => (s, st, [])
        | some tm =>
          let s1 := { s with timers := s.timers.filter (fun x => !(x.id == t)) }
          let r := exec tm.updateFunction st
          ({ s1 with updateQueue := s1.updateQueue.delete tm.key }, r.1,
            [(tm.key, tm.updateFunction)]) := by
  unfold MessageUpdateService.fireTimer MessageUpdateService.timeoutFires
    MessageUpdateService.callbackEnds
  cases s.timers.find? (fun x => x.id == t) <;> rfl

theorem JsMap.get_isSome_of_has {V : Type} (m : JsMap V) (k : String) (h : m.has k = true) :
    (m.get k).isSome = true := by
  simp only [JsMap.get, Option.isSome_map', List.find?_isSome]
  simpa [JsMap.has] using h

theorem length_filter_map_le {α : Type} (p q : α → Bool) (f : α → α)
    (h : ∀ x, p (f x) = true → q x = true) (l : List α) :
    ((l.map f).filter p).length ≤ (l.filter q).length := by
  induction l with
  | nil => simp
  | cons x l ih =>
    simp only [List.map_cons, List.filter_cons]
    by_cases hp : p (f x) = true
    · simp only [hp, h x hp, if_true, List.length_cons]; omega
    · by_cases hq : q x = true
      · simp only [hp, hq, if_true, List.length_cons]
        exact Nat.le_succ_of_le ih
      · simpa only [hp, hq] using ih

@[simp] theorem getActiveChannelSession_channelSessions (g c : String) (w : World) :
    (getActiveChannelSession g c w).2.channelSessions = w.channelSessions := by
  unfold getActiveChannelSession
  split
  · rfl
  · split <;> rfl

theorem getActiveChannelSession_none (g c : String) (w : World)
    (h : (getActiveChannelSession g c w).1 = none) : activeCount g c w = 0 := by
  unfold getActiveChannelSession at h
  split at h
  · rename_i hh
    have := JsMap.get_isSome_of_has _ _ hh
    simp at h
    simp [h] at this
  · split at h
    · simp at h
    · rename_i hf
      simp only [activeCount, List.length_eq_zero, List.filter_eq_nil_iff]
      intro s hs
      have := List.find?_eq_none.mp hf s hs
      simpa using this

@[simp] theorem sendNewDM_channelSessions (env : Env) (u : String) (cu : List Member)
    (cfg : GuildConfig) (mon : MonitoredChannel) (w : World) :
    (sendNewDM env u cu cfg mon w).2.channelSessions = w.channelSessions := rfl

@[simp] theorem fanOutOne_channelSessions (env : Env) (g c : String) (cu : List Member)
    (cfg : GuildConfig) (mon : MonitoredChannel) (s : ChannelSession) (ul : List StoredUser)
    (w : World) (sub : UserSubscription) :
    (fanOutOne env g c cu cfg mon s ul w sub).channelSessions = w.channelSessions := by
  unfold fanOutOne
  split
  · rfl
  · dsimp only
    split
    · rfl
    · split <;> simp [createNotificationState]

theorem foldl_preserves {α β γ : Type} (f : β → α → β) (proj : β → γ)
    (h : ∀ b a, proj (f b a) = proj b) (l : List α) (b : β) :
    proj (l.foldl f b) = proj b := by
  induction l generalizing b with
  | nil => rfl
  | cons a l ih => simp [List.foldl_cons, ih, h]

@[simp] theorem startNewNotificationSession_channelSessions (env : Env) (g : String)
    (ch : VoiceChannel) (cu : List Member) (cfg : GuildConfig) (mon : MonitoredChannel)
    (w : World) :
    (startNewNotificationSession env g ch cu cfg mon w).channelSessions
      = (startNewSession env g ch.id w).2.channelSessions := by
  unfold startNewNotificationSession
  dsimp only
  split
  · rfl
  · exact foldl_preserves _ World.channelSessions
      (fun b a => fanOutOne_channelSessions env g ch.id cu cfg mon _ _ b a) _ _

@[simp] theorem updateExistingNotifications_channelSessions (g c sid : String)
    (cu : List Member) (cfg : GuildConfig) (mon : MonitoredChannel) (w : World) :
    (updateExistingNotifications g c sid cu cfg mon w).channelSessions = w.channelSessions := by
  unfold updateExistingNotifications
  dsimp only
  split <;> rfl

theorem updateNotificationState_channelSessions (env : Env) (i : Nat) (ul : List StoredUser)
    (w w2 : World) (h : updateNotificationState env i ul w = some w2) :
    w2.channelSessions = w.channelSessions := by
  unfold updateNotificationState at h
  split at h
  · cases h; rfl
  · cases h

theorem resendCallback_channelSessions (env : Env) (ul : List StoredUser) (i : Nat)
    (m : String) (w w2 : World) (h : resendCallback env ul i m w = some w2) :
    w2.channelSessions = w.channelSessions := by
  unfold resendCallback at h
  split at h
  · cases h; rfl
  · cases h

theorem deactivateNotification_channelSessions (i : Nat) (w w2 : World)
    (h : deactivateNotification i w = some w2) : w2.channelSessions = w.channelSessions := by
  unfold deactivateNotification at h
  split at h
  · cases h; rfl
  · cases h

@[simp] theorem handleFailedMessageUpdate_channelSessions (env : Env) (n : NotificationState)
    (cu : List Member) (cfg : GuildConfig) (mon : MonitoredChannel) (ul : List StoredUser)
    (w : World) :
    (handleFailedMessageUpdate env n cu cfg mon (resendCallback env ul) w).2.channelSessions
      = w.channelSessions := by
  unfold handleFailedMessageUpdate
  dsimp only
  split
  · split
    · rename_i h
      simp [resendCallback_channelSessions _ _ _ _ _ _ h]
    · rfl
  · rfl

@[simp] theorem refreshOne_channelSessions (env : Env) (job : UpdateJob) (w : World)
    (n : NotificationState) : (refreshOne env job w n).channelSessions = w.channelSessions := by
  unfold refreshOne
  split
  · rfl
  · dsimp only
    split
    · split
      · rename_i h
        simp [updateNotificationState_channelSessions _ _ _ _ _ h, updateDMMessage]
      · rfl
    · split
      · simp [updateDMMessage]
      · split
        · rename_i h
          simp [deactivateNotification_channelSessions _ _ _ h, updateDMMessage]
        · simp [updateDMMessage]

@[simp] theorem timerFires_channelSessions (env : Env) (t : Nat) (w : World) :
    (timerFires env t w).channelSessions = w.channelSessions := by
  unfold timerFires
  rw [MessageUpdateService.fireTimer_eq]
  dsimp only
  split
  · rfl
  · exact foldl_preserves _ World.channelSessions
      (fun b a => refreshOne_channelSessions env _ b a) _ _

/-! ## At most one active session per channel -/

theorem activeCount_startNewSession (env : Env) (g c g2 c2 : String) (w : World) :
    activeCount g2 c2 (startNewSession env g c w).2
      = activeCount g2 c2 w + (if g = g2 ∧ c = c2 then 1 else 0) := by
  simp only [activeCount, startNewSession, List.filter_append, List.length_append,
    add_right_inj]
  by_cases h : g = g2 ∧ c = c2
  · simp [sessionMatches, h]
  · have : sessionMatches g2 c2
        { id := w.nextId, guildId := g, channelId := c,
          sessionId := generateSessionId (env.clock w.tick) (env.randomBytes w.tick),
          isActive := true, startedAt := env.clock (w.tick + 1), endedAt := none } = false := by
      simp only [sessionMatches, Bool.and_true, Bool.and_eq_false_imp, beq_iff_eq]
      intro hg
      simpa using fun hc => h ⟨hg, hc⟩
    simp [List.filter_cons, this, h]

theorem activeCount_endSession_le (env : Env) (g c g2 c2 : String) (w : World) :
    activeCount g2 c2 (endSession env g c w) ≤ activeCount g2 c2 w := by
  simp only [activeCount, endSession]
  apply length_filter_map_le
  intro s hs
  split at hs
  · simp [sessionMatches] at hs
  · exact hs

theorem activeCount_endSession_self (env : Env) (g c : String) (w : World) :
    activeCount g c (endSession env g c w) = 0 := by
  simp only [activeCount, endSession, List.length_eq_zero, List.filter_eq_nil_iff,
    List.mem_map, forall_exists_index, and_imp]
  intro s x _ hx
  subst hx
  split
  · simp [sessionMatches]
  · assumption

theorem activeCount_congr (g c : String) (w2 w : World)
    (e : w2.channelSessions = w.channelSessions) : activeCount g c w2 = activeCount g c w := by
  simp [activeCount, e]

/-- The invariant: no channel has two active sessions. -/
theorem step_atMostOne (env : Env) (w : World) (a : Action)
    (h : ∀ g c, activeCount g c w ≤ 1) : ∀ g c, activeCount g c (step env w a) ≤ 1 := by
  intro g c
  have hc : ∀ w2 : World, w2.channelSessions = w.channelSessions →
      activeCount g c w2 ≤ 1 := fun w2 e => by
    have := h g c
    simpa [activeCount, e] using this
  cases a with
  | join vs =>
    simp only [step, handleUserJoinedChannel]
    split
    · exact h g c
    · rename_i ch _
      split
      · split
        · exact h g c
        · split
          · rename_i hnone
            split
            · have h0 := getActiveChannelSession_none _ _ _ hnone
              rw [activeCount_congr g c _ _
                (startNewNotificationSession_channelSessions _ _ _ _ _ _ _),
                activeCount_startNewSession,
                activeCount_congr g c _ _ (getActiveChannelSession_channelSessions _ _ _)]
              by_cases hk : vs.guildId = g ∧ ch.id = c
              · obtain ⟨rfl, rfl⟩ := hk
                simp [h0]
              · simpa [hk] using h g c
            · exact hc _ (by simp)
          · split
            · exact hc _ (by simp)
            · exact hc _ (by simp)
      · exact h g c
  | leave vs =>
    simp only [step, handleUserLeftChannel]
    split
    · exact h g c
    · split
      · exact le_trans (activeCount_endSession_le _ _ _ _ _ _) (h g c)
      · split
        · split
          · exact hc _ (by simp)
          · exact hc _ (by simp)
        · exact hc _ (by simp)
  | timer t => exact hc _ (by simp [step])

theorem run_atMostOne (env : Env) (actions : List Action) (w : World)
    (h : ∀ g c, activeCount g c w ≤ 1) : ∀ g c, activeCount g c (run env w actions) ≤ 1 := by
  induction actions generalizing w with
  | nil => exact h
  | cons a l ih => exact ih _ (step_atMostOne env w a h)

/-- C1: starting from a store without active sessions and an empty session cache, after
any finite sequence of joins and leaves processed one after the other (debounce timeouts
may fire in between), every (guildId, channelId) has at most one active ChannelSession. -/
theorem at_most_one_active_session (env : Env) (w0 : World) (actions : List Action)
    (hstore : ∀ s ∈ w0.channelSessions, s.isActive = false)
    (_hcache : w0.activeSessions = []) (guildId channelId : String) :
    activeCount guildId channelId (run env w0 actions) ≤ 1 := by
  apply run_atMostOne
  intro g c
  have : activeCount g c w0 = 0 := by
    simp only [activeCount, List.length_eq_zero, List.filter_eq_nil_iff]
    intro s hs
    simp [sessionMatches, hstore s hs]
  omega

theorem at_most_one_active_session_witness :
    (∀ s ∈ Example.world.channelSessions, s.isActive = false) ∧
      Example.world.activeSessions = [] ∧
      activeCount "g" "c" (run Example.env Example.world Example.actions) ≤ 1 :=
  ⟨by decide, rfl,
    at_most_one_active_session Example.env Example.world Example.actions (by decide) rfl
      "g" "c"⟩

/-! ## `endSession` -/

theorem JsMap.has_delete {V : Type} (m : JsMap V) (k : String) :
    (JsMap.delete m k).has k = false := by
  simp [JsMap.has, JsMap.delete]

theorem JsMap.delete_delete {V : Type} (m : JsMap V) (k : String) :
    JsMap.delete (JsMap.delete m k) k = JsMap.delete m k := by
  simp [JsMap.delete, List.filter_filter]

theorem map_eq_self_of_forall {α : Type} (f : α → α) (l : List α)
    (h : ∀ x ∈ l, f x = x) : l.map f = l := by
  induction l with
  | nil => rfl
  | cons x l ih =>
    simp only [List.map_cons, h x (List.mem_cons_self x l)]
    rw [ih (fun y hy => h y (List.mem_cons_of_mem x hy))]

theorem endSession_sessions_inactive (env : Env) (g c : String) (w : World) :
    ∀ s ∈ (endSession env g c w).channelSessions, sessionMatches g c s = false := by
  intro s hs
  simp only [endSession, List.mem_map] at hs
  obtain ⟨x, _, rfl⟩ := hs
  by_cases hx : sessionMatches g c x = true
  · rw [if_pos hx]; simp [sessionMatches]
  · rw [if_neg hx]; simpa using hx

theorem endSession_notifications_inactive (env : Env) (g c : String) (w : World) :
    ∀ n ∈ (endSession env g c w).notificationStates, notificationMatches g c n = false := by
  intro n hn
  simp only [endSession, List.mem_map] at hn
  obtain ⟨x, _, rfl⟩ := hn
  by_cases hx : notificationMatches g c x = true
  · rw [if_pos hx]; simp [notificationMatches]
  · rw [if_neg hx]; simpa using hx

theorem endSession_noop_tables (env : Env) (g c : String) (w : World)
    (hs : ∀ s ∈ w.channelSessions, sessionMatches g c s = false)
    (hn : ∀ n ∈ w.notificationStates, notificationMatches g c n = false) :
    (endSession env g c w).channelSessions = w.channelSessions ∧
      (endSession env g c w).notificationStates = w.notificationStates := by
  constructor
  · exact map_eq_self_of_forall _ _ (fun s h => by simp [hs s h])
  · exact map_eq_self_of_forall _ _ (fun n h => by simp [hn n h])

/-- C2 (as amended): calling `endSession` a second time changes neither the session rows
(so the `endedAt` written by the first call stays), nor the notification rows, nor the
cache; and on a state with no active session and no active notification for the key a
call leaves every table of the store as it is. -/
theorem endSession_idempotent (env : Env) (guildId channelId : String) (w : World) :
    ((endSession env guildId channelId (endSession env guildId channelId w)).channelSessions
        = (endSession env guildId channelId w).channelSessions ∧
      (endSession env guildId channelId (endSession env guildId channelId w)).notificationStates
        = (endSession env guildId channelId w).notificationStates ∧
      (endSession env guildId channelId (endSession env guildId channelId w)).activeSessions
        = (endSession env guildId channelId w).activeSessions) ∧
    ((activeCount guildId channelId w = 0 ∧
        ∀ n ∈ w.notificationStates, notificationMatches guildId channelId n = false) →
      (endSession env guildId channelId w).channelSessions = w.channelSessions ∧
      (endSession env guildId channelId w).notificationStates = w.notificationStates ∧
      (endSession env guildId channelId w).userSubscriptions = w.userSubscriptions ∧
      (endSession env guildId channelId w).guilds = w.guilds ∧
      (endSession env guildId channelId w).monitoredChannels = w.monitoredChannels ∧
      (endSession env guildId channelId w).nextId = w.nextId) := by
  refine ⟨⟨?_, ?_, ?_⟩, ?_⟩
  · exact (endSession_noop_tables env guildId channelId _
      (endSession_sessions_inactive env guildId channelId w)
      (endSession_notifications_inactive env guildId channelId w)).1
  · exact (endSession_noop_tables env guildId channelId _
      (endSession_sessions_inactive env guildId channelId w)
      (endSession_notifications_inactive env guildId channelId w)).2
  · simp [endSession, JsMap.delete_delete]
  · rintro ⟨h0, hn⟩
    have hs : ∀ s ∈ w.channelSessions, sessionMatches guildId channelId s = false := by
      intro s hs
      simp only [activeCount, List.length_eq_zero, List.filter_eq_nil_iff] at h0
      simpa using h0 s hs
    have := endSession_noop_tables env guildId channelId w hs hn
    exact ⟨this.1, this.2, rfl, rfl, rfl, rfl⟩

/-- The amended no-op clause of C2 applied to the example world, which has no session and
no notification at all. -/
theorem endSession_idempotent_witness :
    (endSession Example.env "g" "c" Example.world).channelSessions
        = Example.world.channelSessions ∧
      (endSession Example.env "g" "c" Example.world).notificationStates
        = Example.world.notificationStates :=
  have h := (endSession_idempotent Example.env "g" "c" Example.world).2
    ⟨by decide, by decide⟩
  ⟨h.1, h.2.1⟩

/-- C2 as stated fails: in `Example.orphanWorld` no session is active for the key, yet
`endSession` rewrites the store, because the active notification row of the channel is
deactivated whether or not a session is active. -/
theorem endSession_not_noop_without_active_session :
    activeCount "g" "c" Example.orphanWorld = 0 ∧
      (endSession Example.env "g" "c" Example.orphanWorld).notificationStates
        ≠ Example.orphanWorld.notificationStates := by
  decide

/-- C3: after `endSession` no session of the key is active; row by row, the session table
keeps its ids and every row that was active for the key now is inactive with `endedAt`
set to the time of the call; no notification of the channel, whatever its session id, is
active (so `getActiveNotifications` is empty for every session of the key); and the cache
has no entry under the key. -/
theorem endSession_postcondition (env : Env) (guildId channelId : String) (w : World) :
    activeCount guildId channelId (endSession env guildId channelId w) = 0 ∧
      List.Forall₂
        (fun before after => after.id = before.id ∧
          (sessionMatches guildId channelId before = true →
            after.isActive = false ∧ after.endedAt = some (env.clock w.tick)))
        w.channelSessions (endSession env guildId channelId w).channelSessions ∧
      (∀ n ∈ (endSession env guildId channelId w).notificationStates,
        n.guildId = guildId → n.channelId = channelId → n.isActive = false) ∧
      (∀ sessionId,
        getActiveNotifications guildId channelId sessionId (endSession env guildId channelId w)
          = []) ∧
      (endSession env guildId channelId w).activeSessions.has (cacheKey guildId channelId)
        = false := by
  have hn := endSession_notifications_inactive env guildId channelId w
  refine ⟨activeCount_endSession_self env guildId channelId w, ?_, ?_, ?_, ?_⟩
  · simp only [endSession, List.forall₂_map_right_iff]
    apply List.forall₂_same.mpr
    intro s _
    by_cases hs : sessionMatches guildId channelId s = true
    · simp [hs]
    · simp [hs]
  · intro n hmem hg hc
    have := hn n hmem
    simpa [notificationMatches, hg, hc] using this
  · intro sid
    simp only [getActiveNotifications, List.filter_eq_nil_iff]
    intro n hmem
    have := hn n hmem
    simp only [notificationMatches, Bool.and_eq_false_imp, beq_iff_eq] at this
    simp only [Bool.and_eq_true, beq_iff_eq, not_and, Bool.not_eq_true]
    intro hg
    exact this (by simp [hg.1.1, hg.1.2])
  · exact JsMap.has_delete _ _

/-- C3 on the example: after A joined, a session is active and two notifications are
tracked; `endSession` leaves none of them active and evicts the cache entry. -/
theorem endSession_postcondition_witness :
    activeCount "g" "c"
        (endSession Example.env "g" "c"
          (run Example.env Example.world [Action.join (Example.voice [Example.human "A"])]))
        = 0 ∧
      (endSession Example.env "g" "c"
          (run Example.env Example.world [Action.join (Example.voice [Example.human "A"])])
        ).activeSessions.has (cacheKey "g" "c") = false :=
  have h := endSession_postcondition Example.env "g" "c"
    (run Example.env Example.world [Action.join (Example.voice [Example.human "A"])])
  ⟨h.1, h.2.2.2.2⟩

/-! ## The debounce queue -/

namespace JsMap

variable {V : Type}

theorem mem_of_get {m : JsMap V} {k : String} {v : V} (h : m.get k = some v) :
    (k, v) ∈ m := by
  simp only [get, Option.map_eq_some'] at h
  obtain ⟨e, he, rfl⟩ := h
  have h1 := List.mem_of_find?_eq_some he
  have h2 := List.find?_some he
  simp only [beq_iff_eq] at h2
  subst h2
  exact h1

theorem get_of_mem {m : JsMap V} {k : String} {v : V}
    (hnd : (m.map (fun e => e.1)).Nodup) (h : (k, v) ∈ m) : m.get k = some v := by
  induction m with
  | nil => simp at h
  | cons e m ih =>
    simp only [List.map_cons, List.nodup_cons, List.mem_map, not_exists, not_and] at hnd
    rcases List.mem_cons.mp h with h | h
    · subst h
      simp [get]
    · have hne : e.1 ≠ k := fun he => hnd.1 (k, v) h he.symm
      have := ih hnd.2 h
      simpa [get, List.find?_cons, hne] using this

theorem has_eq_false_iff {m : JsMap V} {k : String} :
    m.has k = false ↔ ∀ e ∈ m, e.1 ≠ k := by
  simp [has]

theorem get_eq_none_of_has {m : JsMap V} {k : String} (h : m.has k = false) :
    m.get k = none := by
  simp only [get, Option.map_eq_none', List.find?_eq_none]
  intro e he
  simpa using has_eq_false_iff.mp h e he

theorem has_of_get {m : JsMap V} {k : String} {v : V} (h : m.get k = some v) :
    m.has k = true := by
  have := mem_of_get h
  simp only [has, List.any_eq_true, beq_iff_eq]
  exact ⟨_, this, rfl⟩

theorem mem_set {m : JsMap V} {k : String} {v : V} {e : String × V} :
    e ∈ m.set k v ↔ e = (k, v) ∨ (e ∈ m ∧ e.1 ≠ k) := by
  unfold set
  split
  · rename_i hk
    simp only [has, List.any_eq_true, beq_iff_eq] at hk
    obtain ⟨x, hx, hxk⟩ := hk
    simp only [List.mem_map]
    constructor
    · rintro ⟨y, hy, rfl⟩
      by_cases hyk : y.1 = k
      · simp [hyk]
      · right
        simp [hyk, hy]
    · rintro (rfl | ⟨he, hne⟩)
      · exact ⟨x, hx, by simp [hxk]⟩
      · exact ⟨e, he, by simp [hne]⟩
  · rename_i hk
    have hk2 := has_eq_false_iff.mp (by simpa using hk)
    simp only [List.mem_append, List.mem_singleton]
    constructor
    · rintro (h | h)
      · exact Or.inr ⟨h, hk2 e h⟩
      · exact Or.inl h
    · rintro (h | ⟨h, _⟩)
      · exact Or.inr h
      · exact Or.inl h

theorem keys_set {m : JsMap V} {k : String} {v : V} :
    (m.set k v).map (fun e => e.1)
      = if m.has k then m.map (fun e => e.1) else m.map (fun e => e.1) ++ [k] := by
  unfold set
  split
  · simp only [List.map_map]
    apply List.map_congr_left
    intro e _
    by_cases h : e.1 = k <;> simp [h]
  · simp

theorem nodup_keys_set {m : JsMap V} {k : String} {v : V}
    (hnd : (m.map (fun e => e.1)).Nodup) : ((m.set k v).map (fun e => e.1)).Nodup := by
  rw [keys_set]
  split
  · exact hnd
  · rename_i hk
    have hk2 := has_eq_false_iff.mp (by simpa using hk)
    rw [List.nodup_append]
    refine ⟨hnd, List.nodup_singleton k, ?_⟩
    intro x hx hy
    simp only [List.mem_singleton] at hy
    simp only [List.mem_map] at hx
    obtain ⟨e, he, rfl⟩ := hx
    exact hk2 e he hy

theorem get_set_self {m : JsMap V} {k : String} {v : V}
    (hnd : (m.map (fun e => e.1)).Nodup) : (m.set k v).get k = some v :=
  get_of_mem (nodup_keys_set hnd) (mem_set.mpr (Or.inl rfl))

theorem get_cons (e : String × V) (m : JsMap V) (k : String) :
    get (e :: m) k = if e.1 = k then some e.2 else get m k := by
  by_cases h : e.1 = k <;> simp [get, List.find?_cons, h]

theorem get_replace_ne {m : JsMap V} {k k2 : String} {v : V} (hne : k2 ≠ k) :
    get (m.map (fun e => if e.1 == k then (k, v) else e)) k2 = get m k2 := by
  induction m with
  | nil => rfl
  | cons e m ih =>
    rw [List.map_cons, get_cons, get_cons, ih]
    by_cases h1 : e.1 = k
    · have h2 : ¬ e.1 = k2 := fun h => hne (h.symm.trans h1)
      have h3 : ¬ k = k2 := fun h => hne h.symm
      simp [h1, h2, h3]
    · simp [h1]

theorem get_append_singleton (m : JsMap V) (k k2 : String) (v : V) :
    get (m ++ [(k, v)]) k2 = (get m k2).or (if k = k2 then some v else none) := by
  induction m with
  | nil => by_cases h : k = k2 <;> simp [get, h]
  | cons e m ih =>
    rw [List.cons_append, get_cons, get_cons, ih]
    by_cases h1 : e.1 = k2 <;> simp [h1]

theorem get_set_ne {m : JsMap V} {k k2 : String} {v : V} (hne : k2 ≠ k) :
    (m.set k v).get k2 = m.get k2 := by
  unfold set
  split
  · exact get_replace_ne hne
  · have : ¬ k = k2 := fun h => hne h.symm
    simp [get_append_singleton, this]

theorem filter_key_of_mem {m : JsMap V} {k : String} {v : V}
    (hnd : (m.map (fun e => e.1)).Nodup) (h : (k, v) ∈ m) :
    m.filter (fun e => e.1 == k) = [(k, v)] := by
  induction m with
  | nil => simp at h
  | cons e m ih =>
    simp only [List.map_cons, List.nodup_cons, List.mem_map, not_exists, not_and] at hnd
    rcases List.mem_cons.mp h with h | h
    · subst h
      simp only [List.filter_cons, beq_self_eq_true, if_true, List.cons.injEq, true_and,
        List.filter_eq_nil_iff, beq_iff_eq]
      intro x hx hxk
      exact hnd.1 x hx hxk
    · have hne : e.1 ≠ k := fun he => hnd.1 (k, v) h he.symm
      simpa [List.filter_cons, hne] using ih hnd.2 h

end JsMap

namespace MessageUpdateService

variable {F σ : Type}

theorem wellFormed_empty : WellFormed (empty : MessageUpdateService F) :=
  ⟨by simp [empty], by simp [empty], by simp [empty], by simp [empty]⟩

@[simp] theorem cancelPending_updateQueue (s : MessageUpdateService F) (k : String) :
    (cancelPending s k).updateQueue = s.updateQueue := by
  unfold cancelPending
  split <;> rfl

@[simp] theorem cancelPending_nextTimer (s : MessageUpdateService F) (k : String) :
    (cancelPending s k).nextTimer = s.nextTimer := by
  unfold cancelPending
  split <;> rfl

theorem cancelPending_timers_sublist (s : MessageUpdateService F) (k : String) :
    (cancelPending s k).timers.Sublist s.timers := by
  unfold cancelPending
  split
  · exact List.filter_sublist _
  · exact List.Sublist.refl _

theorem cancelPending_key_ne {s : MessageUpdateService F} (hs : WellFormed s) (k : String)
    {tm : Timer F} (h : tm ∈ (cancelPending s k).timers) : tm.key ≠ k := by
  intro hk
  have hmem : tm ∈ s.timers := (cancelPending_timers_sublist s k).subset h
  have hent := hs.timer_entry tm hmem
  rw [hk] at hent
  have hget := JsMap.get_of_mem hs.keys_nodup hent
  unfold cancelPending at h
  rw [hget] at h
  simp [clearTimeout] at h

theorem wellFormed_queueUpdate {s : MessageUpdateService F} (hs : WellFormed s) (k : String)
    (f : F) (d : Nat) : WellFormed (queueUpdate s k f d) := by
  have hsub := cancelPending_timers_sublist s k
  refine ⟨?_, ?_, ?_, ?_⟩
  · simp only [queueUpdate, cancelPending_nextTimer, List.map_append, List.map_cons,
      List.map_nil]
    rw [List.nodup_append]
    refine ⟨(hs.ids_nodup.sublist (hsub.map _)), List.nodup_singleton _, ?_⟩
    intro x hx hy
    simp only [List.mem_singleton] at hy
    simp only [List.mem_map] at hx
    obtain ⟨tm, htm, rfl⟩ := hx
    have := hs.ids_lt tm (hsub.subset htm)
    omega
  · intro tm htm
    simp only [queueUpdate, cancelPending_nextTimer, List.mem_append, List.mem_singleton]
      at htm ⊢
    rcases htm with htm | rfl
    · have := hs.ids_lt tm (hsub.subset htm)
      omega
    · simp
  · simp only [queueUpdate, cancelPending_updateQueue]
    exact JsMap.nodup_keys_set hs.keys_nodup
  · intro tm htm
    simp only [queueUpdate, cancelPending_nextTimer, cancelPending_updateQueue,
      List.mem_append, List.mem_singleton] at htm ⊢
    rcases htm with htm | rfl
    · exact JsMap.mem_set.mpr
        (Or.inr ⟨hs.timer_entry tm (hsub.subset htm), cancelPending_key_ne hs k htm⟩)
    · exact JsMap.mem_set.mpr (Or.inl rfl)

theorem wellFormed_queueAll {s : MessageUpdateService F} (hs : WellFormed s)
    (reqs : List (String × F)) (d : Nat) : WellFormed (queueAll s reqs d) := by
  induction reqs generalizing s with
  | nil => exact hs
  | cons r reqs ih => exact ih (wellFormed_queueUpdate hs r.1 r.2 d)

theorem queueUpdate_entry {s : MessageUpdateService F} (hs : WellFormed s) (k : String)
    (f : F) (d : Nat) :
    (queueUpdate s k f d).updateQueue.filter (fun e => e.1 == k)
      = [(k, { updateFunction := f, timeout := s.nextTimer })] := by
  apply JsMap.filter_key_of_mem (wellFormed_queueUpdate hs k f d).keys_nodup
  simp only [queueUpdate, cancelPending_updateQueue, cancelPending_nextTimer]
  exact JsMap.mem_set.mpr (Or.inl rfl)

theorem queueUpdate_timers {s : MessageUpdateService F} (hs : WellFormed s) (k : String)
    (f : F) (d : Nat) :
    (queueUpdate s k f d).timers.filter (fun tm => tm.key == k)
      = [{ id := s.nextTimer, delay := d, key := k, updateFunction := f }] := by
  have h0 : (cancelPending s k).timers.filter (fun tm => tm.key == k) = [] := by
    simp only [List.filter_eq_nil_iff, beq_iff_eq]
    intro tm htm
    exact cancelPending_key_ne hs k htm
  simp [queueUpdate, List.filter_append, h0]

theorem queueUpdate_find {s : MessageUpdateService F} (hs : WellFormed s) (k : String)
    (f : F) (d : Nat) :
    (queueUpdate s k f d).timers.find? (fun x => x.id == s.nextTimer)
      = some { id := s.nextTimer, delay := d, key := k, updateFunction := f } := by
  have h0 : (cancelPending s k).timers.find? (fun x => x.id == s.nextTimer) = none := by
    simp only [List.find?_eq_none, beq_iff_eq]
    intro tm htm
    have := hs.ids_lt tm ((cancelPending_timers_sublist s k).subset htm)
    omega
  simp [queueUpdate, List.find?_append, h0]

theorem fireTimer_queueUpdate {s : MessageUpdateService F} (hs : WellFormed s) (k : String)
    (f : F) (d : Nat) (exec : F → σ → σ × Bool) (st : σ) :
    fireTimer exec s.nextTimer (queueUpdate s k f d) st
      = ({ updateQueue := (queueUpdate s k f d).updateQueue.delete k
           timers := (cancelPending s k).timers
           nextTimer := s.nextTimer + 1 },
         (exec f st).1, [(k, f)]) := by
  rw [fireTimer_eq]
  rw [queueUpdate_find hs]
  have hf : (queueUpdate s k f d).timers.filter (fun x => !(x.id == s.nextTimer))
      = (cancelPending s k).timers := by
    simp only [queueUpdate, cancelPending_nextTimer, List.filter_append]
    have : List.filter (fun x => !(x.id == s.nextTimer)) (cancelPending s k).timers
        = (cancelPending s k).timers := by
      rw [List.filter_eq_self]
      intro tm htm
      have := hs.ids_lt tm ((cancelPending_timers_sublist s k).subset htm)
      simp only [Bool.not_eq_true', beq_eq_false_iff_ne, ne_eq]
      omega
    simp [this]
  simp only [hf]
  simp [queueUpdate]

theorem wellFormed_fireTimer {s : MessageUpdateService F} (hs : WellFormed s)
    (exec : F → σ → σ × Bool) (t : Nat) (st : σ) : WellFormed (fireTimer exec t s st).1 := by
  rw [fireTimer_eq]
  split
  · exact hs
  · rename_i tm hfind
    have htm : tm ∈ s.timers := List.mem_of_find?_eq_some hfind
    have hid : tm.id = t := by simpa using List.find?_some hfind
    have hsub : (s.timers.filter (fun x => !(x.id == t))).Sublist s.timers :=
      List.filter_sublist _
    refine ⟨hs.ids_nodup.sublist (hsub.map _), fun x hx => hs.ids_lt x (hsub.subset hx), ?_, ?_⟩
    · exact hs.keys_nodup.sublist ((List.filter_sublist _).map _)
    · intro x hx
      have hx1 : x ∈ s.timers := hsub.subset hx
      have hxid : x.id ≠ t := by simpa using (List.mem_filter.mp hx).2
      have hkey : x.key ≠ tm.key := by
        intro hk
        have e1 := JsMap.get_of_mem hs.keys_nodup (hs.timer_entry x hx1)
        have e2 := JsMap.get_of_mem hs.keys_nodup (hs.timer_entry tm htm)
        rw [hk, e2] at e1
        simp only [Option.some.injEq, QueueItem.mk.injEq] at e1
        exact hxid (e1.2.symm.trans hid)
      simp only [JsMap.delete, List.mem_filter, Bool.not_eq_true', beq_eq_false_iff_ne, ne_eq]
      exact ⟨hs.timer_entry x hx1, hkey⟩

end MessageUpdateService

theorem MessageUpdateService.foldl_queueUpdate_wellFormed {F : Type}
    {s : MessageUpdateService F} (hs : MessageUpdateService.WellFormed s) (key : String)
    (fs : List F) (delay : Nat) :
    MessageUpdateService.WellFormed
      (fs.foldl (fun acc g => MessageUpdateService.queueUpdate acc key g delay) s) := by
  induction fs generalizing s with
  | nil => exact hs
  | cons g fs ih => exact ih (MessageUpdateService.wellFormed_queueUpdate hs key g delay)

theorem MessageUpdateService.foldl_flushEntry {F : Type}
    (q : List (String × QueueItem F)) (s : MessageUpdateService F)
    (inv : List (String × F)) :
    q.foldl MessageUpdateService.flushEntry (s, inv)
      = ({ s with
           timers := s.timers.filter (fun tm => !(q.any (fun e => e.2.timeout == tm.id))) },
         inv ++ q.map (fun e => (e.1, e.2.updateFunction))) := by
  induction q generalizing s inv with
  | nil => simp
  | cons e q ih =>
    rw [List.foldl_cons]
    simp only [MessageUpdateService.flushEntry]
    rw [ih]
    simp only [MessageUpdateService.clearTimeout, List.filter_filter, List.map_cons,
      List.append_assoc, List.singleton_append, List.any_cons, Prod.mk.injEq,
      and_true]
    congr 1
    apply List.filter_congr
    intro tm _
    have hb : (tm.id == e.2.timeout) = (e.2.timeout == tm.id) := by
      by_cases h : tm.id = e.2.timeout
      · simp [h]
      · have h2 : ¬ e.2.timeout = tm.id := fun x => h x.symm
        simp [h, h2]
    rw [hb, Bool.and_comm, Bool.not_or]

theorem MessageUpdateService.flushQueue_eq {F σ : Type}
    (settle : List (String × F) → σ → σ) (s : MessageUpdateService F) (st : σ) :
    MessageUpdateService.flushQueue settle s st
      = ({ updateQueue := []
           timers := s.timers.filter
             (fun tm => !(s.updateQueue.any (fun e => e.2.timeout == tm.id)))
           nextTimer := s.nextTimer },
         settle (s.updateQueue.map (fun e => (e.1, e.2.updateFunction))) st,
         s.updateQueue.map (fun e => (e.1, e.2.updateFunction))) := by
  simp only [MessageUpdateService.flushQueue]
  rw [MessageUpdateService.foldl_flushEntry]
  simp

theorem MessageUpdateService.wellFormed_flushQueue {F σ : Type}
    (settle : List (String × F) → σ → σ)
    {s : MessageUpdateService F} (hs : MessageUpdateService.WellFormed s) (st : σ) :
    MessageUpdateService.WellFormed (MessageUpdateService.flushQueue settle s st).1 := by
  rw [MessageUpdateService.flushQueue_eq]
  have hsub : (s.timers.filter
      (fun tm => !(s.updateQueue.any (fun e => e.2.timeout == tm.id)))).Sublist s.timers :=
    List.filter_sublist _
  refine ⟨hs.ids_nodup.sublist (hsub.map _), fun x hx => hs.ids_lt x (hsub.subset hx),
    List.nodup_nil, ?_⟩
  intro tm htm
  have h1 := hs.timer_entry tm (hsub.subset htm)
  have h2 := (List.mem_filter.mp htm).2
  simp only [Bool.not_eq_true', List.any_eq_false, beq_iff_eq] at h2
  exact absurd rfl (h2 _ h1)

theorem MessageUpdateService.lastEnqueued_append {F : Type} (l : List (String × F))
    (r : String × F) (k : String) :
    MessageUpdateService.lastEnqueued (l ++ [r]) k
      = if r.1 = k then some r.2 else MessageUpdateService.lastEnqueued l k := by
  by_cases h : r.1 = k
  · simp [MessageUpdateService.lastEnqueued, List.filter_append, h]
  · simp [MessageUpdateService.lastEnqueued, List.filter_append, h]

theorem MessageUpdateService.queueAll_snoc {F : Type} (s : MessageUpdateService F)
    (l : List (String × F)) (r : String × F) (d : Nat) :
    MessageUpdateService.queueAll s (l ++ [r]) d
      = MessageUpdateService.queueUpdate (MessageUpdateService.queueAll s l d) r.1 r.2 d := by
  simp [MessageUpdateService.queueAll, List.foldl_append]

theorem MessageUpdateService.queueAll_get_last {F : Type} {s : MessageUpdateService F}
    (hs : MessageUpdateService.WellFormed s) (reqs : List (String × F)) (d : Nat)
    (k : String) (f : F) (h : MessageUpdateService.lastEnqueued reqs k = some f) :
    ∃ t, (MessageUpdateService.queueAll s reqs d).updateQueue.get k
      = some { updateFunction := f, timeout := t } := by
  induction reqs using List.reverseRecOn with
  | nil => simp [MessageUpdateService.lastEnqueued] at h
  | append_singleton l r ih =>
    have hwf := MessageUpdateService.wellFormed_queueAll hs l d
    rw [MessageUpdateService.lastEnqueued_append] at h
    rw [MessageUpdateService.queueAll_snoc]
    by_cases hk : r.1 = k
    · rw [if_pos hk] at h
      cases h
      subst hk
      refine ⟨(MessageUpdateService.queueAll s l d).nextTimer, ?_⟩
      simp only [MessageUpdateService.queueUpdate,
        MessageUpdateService.cancelPending_updateQueue,
        MessageUpdateService.cancelPending_nextTimer]
      exact JsMap.get_set_self hwf.keys_nodup
    · rw [if_neg hk] at h
      obtain ⟨t, ht⟩ := ih h
      refine ⟨t, ?_⟩
      simp only [MessageUpdateService.queueUpdate,
        MessageUpdateService.cancelPending_updateQueue]
      rw [JsMap.get_set_ne (fun x => hk x.symm)]
      exact ht

/-- Debounce coalescing while no callback is in flight. From a consistent service, let
`queueUpdate` be called for one key with the functions `fs` and then with `f`, with no
timeout firing in between. Then the queue has exactly one entry for the key, holding `f`;
exactly one timeout is pending for the key, the one of `f`, so the timeouts of the
superseded functions can no longer fire; when that timeout fires and nothing else calls
the service during the firing, exactly one function is invoked, `f`, whatever its
outcome; and afterwards the key is not in the queue and no timeout is pending for it. -/
theorem debounce_coalescing {F σ : Type} (exec : F → σ → σ × Bool)
    (s : MessageUpdateService F) (hs : MessageUpdateService.WellFormed s) (key : String)
    (fs : List F) (f : F) (delay : Nat) (st : σ) :
    let s1 := (fs ++ [f]).foldl
      (fun acc g => MessageUpdateService.queueUpdate acc key g delay) s
    let t := s1.nextTimer - 1
    let r := MessageUpdateService.fireTimer exec t s1 st
    s1.updateQueue.filter (fun e => e.1 == key)
        = [(key, { updateFunction := f, timeout := t })] ∧
      s1.timers.filter (fun tm => tm.key == key)
        = [{ id := t, delay := delay, key := key, updateFunction := f }] ∧
      r.2.2 = [(key, f)] ∧
      r.2.1 = (exec f st).1 ∧
      r.1.updateQueue.has key = false ∧
      r.1.timers.filter (fun tm => tm.key == key) = [] := by
  intro s1 t r
  have hwf := MessageUpdateService.foldl_queueUpdate_wellFormed hs key fs delay
  have hs1 : s1 = MessageUpdateService.queueUpdate
      (fs.foldl (fun acc g => MessageUpdateService.queueUpdate acc key g delay) s)
      key f delay := by
    simp [s1, List.foldl_append]
  have ht : t = (fs.foldl
      (fun acc g => MessageUpdateService.queueUpdate acc key g delay) s).nextTimer := by
    simp [t, hs1, MessageUpdateService.queueUpdate]
  have hr : r = _ := (congrArg (fun x => MessageUpdateService.fireTimer exec x s1 st) ht).trans
    (hs1 ▸ MessageUpdateService.fireTimer_queueUpdate hwf key f delay exec st)
  refine ⟨?_, ?_, ?_, ?_, ?_, ?_⟩
  · rw [ht, hs1]; exact MessageUpdateService.queueUpdate_entry hwf key f delay
  · rw [ht, hs1]; exact MessageUpdateService.queueUpdate_timers hwf key f delay
  · rw [hr]
  · rw [hr]
  · rw [hr]; exact JsMap.has_delete _ _
  · rw [hr]
    simp only [List.filter_eq_nil_iff, beq_iff_eq]
    intro tm htm
    exact MessageUpdateService.cancelPending_key_ne hwf key htm

/-- Debounce coalescing on a fresh service: three requests for one key, the second of
which would reject; only the third function runs. -/
theorem debounce_coalescing_witness :
    MessageUpdateService.WellFormed (MessageUpdateService.empty : MessageUpdateService Nat) ∧
      (MessageUpdateService.fireTimer Example.record 2
        (MessageUpdateService.queueAll MessageUpdateService.empty
          [("k", 1), ("k", 2), ("k", 3)] 500) []).2.2 = [("k", 3)] :=
  ⟨MessageUpdateService.wellFormed_empty,
    (debounce_coalescing Example.record MessageUpdateService.empty
      MessageUpdateService.wellFormed_empty "k" [1, 2] 3 500 []).2.2.1⟩

/-- The method `flushQueue` on a consistent service on which `queueUpdate` was then called
for the requests `reqs`: the invocations are exactly the entries of the queue, one per
pending key; for every key requested, the function invoked for it is the one most
recently requested, so no superseded function is invoked; afterwards the queue is empty
and no timeout is pending. The rest of the state is what the started functions make of
it, and none of this depends on whether a function resolves or rejects. -/
theorem flushQueue_drains {F σ : Type} (settle : List (String × F) → σ → σ)
    (s0 : MessageUpdateService F) (hs : MessageUpdateService.WellFormed s0)
    (reqs : List (String × F)) (delay : Nat) (st : σ) :
    let s := MessageUpdateService.queueAll s0 reqs delay
    let r := MessageUpdateService.flushQueue settle s st
    r.2.2 = s.updateQueue.map (fun e => (e.1, e.2.updateFunction)) ∧
      (r.2.2.map (fun i => i.1)).Nodup ∧
      (∀ key f, MessageUpdateService.lastEnqueued reqs key = some f → (key, f) ∈ r.2.2) ∧
      MessageUpdateService.getQueueSize r.1 = 0 ∧
      r.1.timers = [] ∧
      r.2.1 = settle r.2.2 st := by
  intro s r
  have hwf : MessageUpdateService.WellFormed s :=
    MessageUpdateService.wellFormed_queueAll hs reqs delay
  have hr : r = _ := MessageUpdateService.flushQueue_eq settle s st
  have hinv : r.2.2 = s.updateQueue.map (fun e => (e.1, e.2.updateFunction)) := by
    rw [hr]
  refine ⟨hinv, ?_, ?_, ?_, ?_, ?_⟩
  · rw [hinv, List.map_map]
    exact hwf.keys_nodup
  · intro key f hlast
    obtain ⟨t, ht⟩ := MessageUpdateService.queueAll_get_last hs reqs delay key f hlast
    rw [hinv, List.mem_map]
    exact ⟨_, JsMap.mem_of_get ht, rfl⟩
  · rw [hr]; rfl
  · rw [hr]
    simp only [List.filter_eq_nil_iff, Bool.not_eq_true', Bool.not_eq_false,
      List.any_eq_true, beq_iff_eq]
    intro tm htm
    exact ⟨_, hwf.timer_entry tm htm, rfl⟩
  · rw [hr]

/-- The method `flushQueue` on a fresh service: two keys, one of them requested twice, and
a function that rejects; both pending functions run once and the queue is empty. -/
theorem flushQueue_drains_witness :
    (MessageUpdateService.flushQueue (MessageUpdateService.settleInOrder Example.record)
        (MessageUpdateService.queueAll MessageUpdateService.empty
          [("k", 1), ("j", 2), ("k", 3)] 500) []).2.2 = [("k", 3), ("j", 2)] ∧
      MessageUpdateService.getQueueSize
        (MessageUpdateService.flushQueue (MessageUpdateService.settleInOrder Example.record)
          (MessageUpdateService.queueAll MessageUpdateService.empty
            [("k", 1), ("j", 2), ("k", 3)] 500) []).1 = 0 :=
  have h := flushQueue_drains (MessageUpdateService.settleInOrder Example.record)
    MessageUpdateService.empty
    MessageUpdateService.wellFormed_empty [("k", 1), ("j", 2), ("k", 3)] 500 []
  ⟨h.1.trans (by decide), h.2.2.2.1⟩

/-! ## Fan-out of initial DMs -/

theorem rateLimited_iff (lastSent : Option Nat) (now : Nat) (hpos : ∀ t, lastSent = some t → 0 < t) :
    rateLimited lastSent now = true
      ↔ ∃ t, lastSent = some t ∧ (now : Int) - (t : Int) < 5000 := by
  cases lastSent with
  | none => simp [rateLimited]
  | some t =>
    have := hpos t rfl
    have ht : t ≠ 0 := by omega
    simp [rateLimited, ht]

theorem fanOutOne_present (env : Env) (g c : String) (cu : List Member) (cfg : GuildConfig)
    (mon : MonitoredChannel) (s : ChannelSession) (ul : List StoredUser) (w : World)
    (sub : UserSubscription) (h : hasUser cu sub.userId = true) :
    fanOutOne env g c cu cfg mon s ul w sub = w := by
  simp [fanOutOne, h]

theorem fanOutOne_calls (env : Env) (g c : String) (cu : List Member) (cfg : GuildConfig)
    (mon : MonitoredChannel) (s : ChannelSession) (ul : List StoredUser) (w : World)
    (sub : UserSubscription) :
    (fanOutOne env g c cu cfg mon s ul w sub).calls
      = w.calls ++
        (if hasUser cu sub.userId = false ∧
            rateLimited (w.rateLimitMap.get (rateLimitKey sub.userId g)) (env.clock w.tick)
              = false
          then [DiscordCall.sendNewDM sub.userId cu cfg mon] else []) := by
  unfold fanOutOne
  by_cases h1 : hasUser cu sub.userId = true
  · simp [h1]
  · simp only [h1, if_false]
    by_cases h2 : rateLimited (w.rateLimitMap.get (rateLimitKey sub.userId g))
        (env.clock w.tick) = true
    · simp [h2]
    · simp only [h2, if_false]
      have h1f : hasUser cu sub.userId = false := by simpa using h1
      have h2f : rateLimited (w.rateLimitMap.get (rateLimitKey sub.userId g))
          (env.clock w.tick) = false := by simpa using h2
      simp only [sendNewDM, h1f, h2f, and_self, if_true]
      cases env.sendDM (w.tick + 1) sub.userId <;> simp [createNotificationState]

theorem fanOutOne_ledger_pos (env : Env) (hclock : ∀ t, 0 < env.clock t) (g c : String)
    (cu : List Member) (cfg : GuildConfig) (mon : MonitoredChannel) (s : ChannelSession)
    (ul : List StoredUser) (w : World) (sub : UserSubscription)
    (h : ∀ e ∈ w.rateLimitMap, 0 < e.2) :
    ∀ e ∈ (fanOutOne env g c cu cfg mon s ul w sub).rateLimitMap, 0 < e.2 := by
  unfold fanOutOne
  split
  · exact h
  · dsimp only
    split
    · exact h
    · split
      · intro e he
        simp only [createNotificationState, sendNewDM] at he
        rcases JsMap.mem_set.mp he with rfl | ⟨he, _⟩
        · exact hclock _
        · exact h e he
      · exact h

theorem foldl_invariant {α β : Type} (f : β → α → β) (P : β → Prop)
    (h : ∀ b a, P b → P (f b a)) (l : List α) (b : β) (hb : P b) : P (l.foldl f b) := by
  induction l generalizing b with
  | nil => exact hb
  | cons a l ih => exact ih _ (h b a hb)

theorem fanOutOne_present_frame (env : Env) (g c : String) (cu : List Member)
    (cfg : GuildConfig) (mon : MonitoredChannel) (s : ChannelSession) (ul : List StoredUser)
    (w : World) (sub : UserSubscription) (u : String) (hu : hasUser cu u = true) :
    (fanOutOne env g c cu cfg mon s ul w sub).calls.filter (fun x => x.userId == u)
        = w.calls.filter (fun x => x.userId == u) ∧
      (fanOutOne env g c cu cfg mon s ul w sub).notificationStates.filter
          (fun n => n.userId == u)
        = w.notificationStates.filter (fun n => n.userId == u) := by
  by_cases h1 : hasUser cu sub.userId = true
  · rw [fanOutOne_present _ _ _ _ _ _ _ _ _ _ h1]
    exact ⟨rfl, rfl⟩
  · have hne : ¬ sub.userId = u := fun e => h1 (e ▸ hu)
    constructor
    · rw [fanOutOne_calls]
      split <;> simp [List.filter_append, DiscordCall.userId, hne]
    · unfold fanOutOne
      simp only [h1, if_false]
      by_cases h2 : rateLimited (w.rateLimitMap.get (rateLimitKey sub.userId g))
          (env.clock w.tick) = true
      · simp [h2]
      · simp only [h2, if_false, sendNewDM]
        cases env.sendDM (w.tick + 1) sub.userId <;>
          simp [createNotificationState, List.filter_append, hne]

theorem startNewNotificationSession_eq_foldl (env : Env) (g : String) (ch : VoiceChannel)
    (cu : List Member) (cfg : GuildConfig) (mon : MonitoredChannel) (w : World) :
    startNewNotificationSession env g ch cu cfg mon w
      = (subscribersOf g ch.id w).foldl
          (fanOutOne env g ch.id cu cfg mon (startNewSession env g ch.id w).1
            (formatUserListForStorage cu))
          (startNewSession env g ch.id w).2 := by
  have e : subscribersOf g ch.id (startNewSession env g ch.id w).2 = subscribersOf g ch.id w :=
    rfl
  unfold startNewNotificationSession
  simp only [e]
  split
  · rename_i h
    have : subscribersOf g ch.id w = [] := by simpa using h
    simp [this]
  · rfl

/-- C6: in `startNewNotificationSession`, when the loop reaches a subscriber (after the
subscribers `pre` before it), the iteration makes either exactly one `sendNewDM` call,
addressed to that subscriber, or no call; and it makes the call if and only if the
subscriber is not among the current occupants and the ledger has no entry for
(subscriber, guild) younger than 5000 ms at that moment. Hence for a user among the
current occupants the whole fan-out adds no call addressed to that user and no
NotificationState of that user. Ledger times come from the clock, which is positive. -/
theorem fanOut_attempt_iff (env : Env) (guildId : String) (channel : VoiceChannel)
    (currentUsers : List Member) (guildConfig : GuildConfig)
    (monitoredChannel : MonitoredChannel) (w : World)
    (pre post : List UserSubscription) (subscriber : UserSubscription)
    (hsubs : subscribersOf guildId channel.id w = pre ++ subscriber :: post)
    (hclock : ∀ t, 0 < env.clock t)
    (hledger : ∀ e ∈ w.rateLimitMap, 0 < e.2) :
    let r := startNewSession env guildId channel.id w
    let body := fanOutOne env guildId channel.id currentUsers guildConfig monitoredChannel
      r.1 (formatUserListForStorage currentUsers)
    let w1 := pre.foldl body r.2
    let w2 := body w1 subscriber
    let final := startNewNotificationSession env guildId channel currentUsers guildConfig
      monitoredChannel w
    final = post.foldl body w2 ∧
      (w2.calls = w1.calls ++
          [DiscordCall.sendNewDM subscriber.userId currentUsers guildConfig monitoredChannel] ∨
        w2.calls = w1.calls) ∧
      (w2.calls = w1.calls ++
          [DiscordCall.sendNewDM subscriber.userId currentUsers guildConfig monitoredChannel]
        ↔ hasUser currentUsers subscriber.userId = false ∧
          ¬ ∃ t, w1.rateLimitMap.get (rateLimitKey subscriber.userId guildId) = some t ∧
            (env.clock w1.tick : Int) - (t : Int) < 5000) ∧
      (∀ userId, hasUser currentUsers userId = true →
        final.calls.filter (fun x => x.userId == userId)
            = w.calls.filter (fun x => x.userId == userId) ∧
          final.notificationStates.filter (fun n => n.userId == userId)
            = w.notificationStates.filter (fun n => n.userId == userId)) := by
  intro r body w1 w2 final
  have hfinal : final = (pre ++ subscriber :: post).foldl body r.2 := by
    rw [← hsubs]
    exact startNewNotificationSession_eq_foldl env guildId channel currentUsers guildConfig
      monitoredChannel w
  have hpos1 : ∀ e ∈ w1.rateLimitMap, 0 < e.2 :=
    foldl_invariant body (fun x => ∀ e ∈ x.rateLimitMap, 0 < e.2)
      (fun b a hb => fanOutOne_ledger_pos env hclock _ _ _ _ _ _ _ b a hb) pre r.2 hledger
  have hlim := rateLimited_iff (w1.rateLimitMap.get (rateLimitKey subscriber.userId guildId))
    (env.clock w1.tick) (fun t ht => hpos1 _ (JsMap.mem_of_get ht))
  have hcalls : w2.calls = w1.calls ++ _ := fanOutOne_calls env guildId channel.id
    currentUsers guildConfig monitoredChannel r.1 (formatUserListForStorage currentUsers) w1
    subscriber
  refine ⟨?_, ?_, ?_, ?_⟩
  · rw [hfinal, List.foldl_append, List.foldl_cons]
  · rw [hcalls]
    split
    · exact Or.inl rfl
    · exact Or.inr (by simp)
  · rw [hcalls, ← hlim]
    constructor
    · intro h
      have h2 := List.append_cancel_left h
      split at h2
      · rename_i hc
        exact ⟨hc.1, by simp [hc.2]⟩
      · simp at h2
    · rintro ⟨h1, h2⟩
      have h2f : rateLimited (w1.rateLimitMap.get (rateLimitKey subscriber.userId guildId))
          (env.clock w1.tick) = false := by simpa using h2
      simp [h1, h2f]
  · intro u hu
    rw [hfinal]
    have := foldl_invariant body
      (fun x => x.calls.filter (fun y => y.userId == u) = w.calls.filter (fun y => y.userId == u) ∧
        x.notificationStates.filter (fun n => n.userId == u)
          = w.notificationStates.filter (fun n => n.userId == u))
      (fun b a hb => by
        have hf := fanOutOne_present_frame env guildId channel.id currentUsers guildConfig
          monitoredChannel r.1 (formatUserListForStorage currentUsers) b a u hu
        exact ⟨hf.1.trans hb.1, hf.2.trans hb.2⟩)
      (pre ++ subscriber :: post) r.2
      ⟨by simp [r, startNewSession], by simp [r, startNewSession]⟩
    exact this

/-- C6 on the example: subscriber U1 sits in the channel when the session starts; the
fan-out addresses no call to U1 and creates no NotificationState of U1. -/
theorem fanOut_attempt_iff_witness :
    (startNewNotificationSession Example.env "g" { id := "c", name := "C", members := [] }
        [Example.human "A", Example.human "U1"] Example.guild Example.monitored
        Example.world).calls.filter (fun x => x.userId == "U1") = [] ∧
      (startNewNotificationSession Example.env "g" { id := "c", name := "C", members := [] }
        [Example.human "A", Example.human "U1"] Example.guild Example.monitored
        Example.world).notificationStates.filter (fun n => n.userId == "U1") = [] :=
  (fanOut_attempt_iff Example.env "g" { id := "c", name := "C", members := [] }
    [Example.human "A", Example.human "U1"] Example.guild Example.monitored Example.world
    [] [{ guildId := "g", userId := "U2", channelId := "c" }]
    { guildId := "g", userId := "U1", channelId := "c" } (by decide)
    (fun t => Nat.lt_of_lt_of_le (by decide : 0 < 1000) (Nat.le_add_right 1000 t))
    (by decide)).2.2.2 "U1" (by decide)

/-! ## The queued refresh -/

theorem rowKept_refl (kept : Nat → Bool) (r : NotificationState) : RowKept kept r r :=
  ⟨rfl, rfl, rfl, rfl, rfl, id, fun _ => rfl⟩

theorem rowKept_trans {kept : Nat → Bool} {a b c : NotificationState}
    (h1 : RowKept kept a b) (h2 : RowKept kept b c) : RowKept kept a c := by
  obtain ⟨a1, a2, a3, a4, a5, a6, a7⟩ := h1
  obtain ⟨b1, b2, b3, b4, b5, b6, b7⟩ := h2
  refine ⟨b1.trans a1, b2.trans a2, b3.trans a3, b4.trans a4, b5.trans a5,
    fun h => a6 (b6 h), fun h => ?_⟩
  have e1 := a7 h
  rw [← a1] at h
  rw [b7 h, e1]

theorem forall₂_rowKept_refl (kept : Nat → Bool) (l : List NotificationState) :
    List.Forall₂ (RowKept kept) l l :=
  List.forall₂_same.mpr (fun r _ => rowKept_refl kept r)

theorem forall₂_rowKept_trans {kept : Nat → Bool} {l1 l2 l3 : List NotificationState}
    (h1 : List.Forall₂ (RowKept kept) l1 l2) (h2 : List.Forall₂ (RowKept kept) l2 l3) :
    List.Forall₂ (RowKept kept) l1 l3 := by
  induction h1 generalizing l3 with
  | nil => cases h2; exact List.Forall₂.nil
  | cons hab _ ih =>
    cases h2 with
    | cons hbc htl => exact List.Forall₂.cons (rowKept_trans hab hbc) (ih htl)

theorem forall₂_rowKept_map (kept : Nat → Bool) (i : Nat) (hi : kept i = false)
    (h : NotificationState → NotificationState)
    (hh : ∀ r, (h r).id = r.id ∧ (h r).guildId = r.guildId ∧ (h r).channelId = r.channelId ∧
      (h r).userId = r.userId ∧ (h r).sessionId = r.sessionId ∧
      ((h r).isActive = true → r.isActive = true))
    (l : List NotificationState) :
    List.Forall₂ (RowKept kept) l (l.map (fun r => if r.id == i then h r else r)) := by
  rw [List.forall₂_map_right_iff]
  apply List.forall₂_same.mpr
  intro r _
  by_cases hr : r.id = i
  · obtain ⟨h1, h2, h3, h4, h5, h6⟩ := hh r
    simp only [hr, beq_self_eq_true, if_true]
    subst hr
    exact ⟨h1, h2, h3, h4, h5, h6, fun hk => by simp [hi] at hk⟩
  · simp only [beq_iff_eq, hr, if_false]
    exact rowKept_refl kept r

theorem forall₂_rowKept_ids {kept : Nat → Bool} {l1 l2 : List NotificationState}
    (h : List.Forall₂ (RowKept kept) l1 l2) :
    l2.map (fun r => r.id) = l1.map (fun r => r.id) := by
  induction h with
  | nil => rfl
  | cons hab _ ih => simp [hab.1, ih]

theorem forall₂_rowKept_filter {kept : Nat → Bool} {l1 l2 : List NotificationState}
    (h : List.Forall₂ (RowKept kept) l1 l2) :
    l2.filter (fun r => kept r.id) = l1.filter (fun r => kept r.id) := by
  induction h with
  | nil => rfl
  | @cons a b _ _ hab _ ih =>
    by_cases hk : kept a.id = true
    · have e := hab.2.2.2.2.2.2 hk
      subst e
      simp [List.filter_cons, hk, ih]
    · have hk2 : kept b.id = false := by rw [hab.1]; simpa using hk
      have hk1 : kept a.id = false := by simpa using hk
      simp [List.filter_cons, hk1, hk2, ih]

theorem forall₂_rowKept_weaken {kept : Nat → Bool} {l1 l2 : List NotificationState}
    (h : List.Forall₂ (RowKept kept) l1 l2) :
    List.Forall₂ (RowKept (fun _ => false)) l1 l2 :=
  h.imp (fun _ _ hab => ⟨hab.1, hab.2.1, hab.2.2.1, hab.2.2.2.1, hab.2.2.2.2.1,
    hab.2.2.2.2.2.1, fun hk => by simp at hk⟩)

/-- The three in-place updates of a notification row by id. -/
theorem updateNotificationState_rows (env : Env) (i : Nat) (ul : List StoredUser)
    (w w2 : World) (h : updateNotificationState env i ul w = some w2) :
    w2.notificationStates = w.notificationStates.map (fun r =>
        if r.id == i then { r with userList := ul, lastUpdated := env.clock w.tick } else r) ∧
      w2.nextId = w.nextId := by
  unfold updateNotificationState at h
  split at h
  · cases h; exact ⟨rfl, rfl⟩
  · cases h

theorem resendCallback_rows (env : Env) (ul : List StoredUser) (i : Nat) (m : String)
    (w w2 : World) (h : resendCallback env ul i m w = some w2) :
    w2.notificationStates = w.notificationStates.map (fun r =>
        if r.id == i then
          { r with messageId := m, userList := ul, lastUpdated := env.clock w.tick }
        else r) ∧
      w2.nextId = w.nextId := by
  unfold resendCallback at h
  split at h
  · cases h; exact ⟨rfl, rfl⟩
  · cases h

theorem deactivateNotification_rows (i : Nat) (w w2 : World)
    (h : deactivateNotification i w = some w2) :
    w2.notificationStates = w.notificationStates.map (fun r =>
        if r.id == i then { r with isActive := false } else r) ∧
      w2.nextId = w.nextId := by
  unfold deactivateNotification at h
  split at h
  · cases h; exact ⟨rfl, rfl⟩
  · cases h

theorem refreshOne_rowKept (env : Env) (job : UpdateJob) (w : World) (n : NotificationState)
    (kept : Nat → Bool) (hk : kept n.id = false) :
    List.Forall₂ (RowKept kept) w.notificationStates
        (refreshOne env job w n).notificationStates ∧
      (refreshOne env job w n).nextId = w.nextId := by
  unfold refreshOne
  split
  · exact ⟨forall₂_rowKept_refl _ _, rfl⟩
  · dsimp only
    split
    · split
      · rename_i hupd
        obtain ⟨e1, e2⟩ := updateNotificationState_rows _ _ _ _ _ hupd
        rw [e1, e2]
        exact ⟨forall₂_rowKept_map kept n.id hk _ (fun r => by simp) _, rfl⟩
      · exact ⟨forall₂_rowKept_refl _ _, rfl⟩
    · have hh : List.Forall₂ (RowKept kept) w.notificationStates
          (handleFailedMessageUpdate env n job.currentUsers job.guildConfig
            job.monitoredChannel (resendCallback env job.userListForStorage)
            (updateDMMessage env n job.currentUsers job.guildConfig job.monitoredChannel
              w).2).2.notificationStates ∧
          (handleFailedMessageUpdate env n job.currentUsers job.guildConfig
            job.monitoredChannel (resendCallback env job.userListForStorage)
            (updateDMMessage env n job.currentUsers job.guildConfig job.monitoredChannel
              w).2).2.nextId = w.nextId := by
        unfold handleFailedMessageUpdate
        dsimp only
        split
        · split
          · rename_i hcb
            obtain ⟨e1, e2⟩ := resendCallback_rows _ _ _ _ _ _ hcb
            rw [e1, e2]
            exact ⟨forall₂_rowKept_map kept n.id hk _ (fun r => by simp) _, rfl⟩
          · exact ⟨forall₂_rowKept_refl _ _, rfl⟩
        · exact ⟨forall₂_rowKept_refl _ _, rfl⟩
      split
      · exact hh
      · split
        · rename_i hde
          obtain ⟨e1, e2⟩ := deactivateNotification_rows _ _ _ hde
          rw [e1, e2]
          exact ⟨forall₂_rowKept_trans hh.1
            (forall₂_rowKept_map kept n.id hk _ (fun r => by simp) _), hh.2⟩
        · exact hh

theorem foldl_refreshOne_rowKept (env : Env) (job : UpdateJob) (kept : Nat → Bool)
    (l : List NotificationState) (hl : ∀ m ∈ l, kept m.id = false) (w : World) :
    List.Forall₂ (RowKept kept) w.notificationStates
        (l.foldl (refreshOne env job) w).notificationStates ∧
      (l.foldl (refreshOne env job) w).nextId = w.nextId := by
  induction l generalizing w with
  | nil => exact ⟨forall₂_rowKept_refl _ _, rfl⟩
  | cons m l ih =>
    have h1 := refreshOne_rowKept env job w m kept (hl m (List.mem_cons_self m l))
    have h2 := ih (fun x hx => hl x (List.mem_cons_of_mem m hx)) (refreshOne env job w m)
    exact ⟨forall₂_rowKept_trans h1.1 h2.1, h2.2.trans h1.2⟩

/-! ## A deactivated notification stays deactivated -/

theorem deadId_congr {i : Nat} {w w2 : World}
    (e1 : w2.notificationStates = w.notificationStates) (e2 : w2.nextId = w.nextId)
    (h : DeadId i w) : DeadId i w2 := by
  unfold DeadId at *
  rw [e1, e2]
  exact h

theorem forall₂_rowKept_dead {kept : Nat → Bool} {l1 l2 : List NotificationState} (i : Nat)
    (h : List.Forall₂ (RowKept kept) l1 l2)
    (hd : ∀ r ∈ l1, r.id = i → r.isActive = false) :
    ∀ r ∈ l2, r.id = i → r.isActive = false := by
  induction h with
  | nil => intro r hr; cases hr
  | @cons a b _ _ hab _ ih =>
    intro r hr hid
    rcases List.mem_cons.mp hr with rfl | hr
    · have ha := hd a (List.mem_cons_self _ _) (hab.1.symm.trans hid)
      cases hact : r.isActive with
      | false => rfl
      | true => rw [hab.2.2.2.2.2.1 hact] at ha; cases ha
    · exact ih (fun x hx => hd x (List.mem_cons_of_mem _ hx)) r hr hid

theorem deadId_of_rowKept {kept : Nat → Bool} {i : Nat} {w w2 : World}
    (h : List.Forall₂ (RowKept kept) w.notificationStates w2.notificationStates)
    (hn : w.nextId ≤ w2.nextId) (hd : DeadId i w) : DeadId i w2 :=
  ⟨Nat.lt_of_lt_of_le hd.1 hn, forall₂_rowKept_dead i h hd.2⟩

theorem deadId_refreshOne (env : Env) (job : UpdateJob) (i : Nat) (w : World)
    (n : NotificationState) (hd : DeadId i w) : DeadId i (refreshOne env job w n) := by
  have h := refreshOne_rowKept env job w n (fun _ => false) rfl
  exact deadId_of_rowKept h.1 (Nat.le_of_eq h.2.symm) hd

theorem deadId_endSession (env : Env) (g c : String) (i : Nat) (w : World)
    (hd : DeadId i w) : DeadId i (endSession env g c w) := by
  refine ⟨hd.1, ?_⟩
  intro r hr hid
  simp only [endSession, List.mem_map] at hr
  obtain ⟨x, hx, rfl⟩ := hr
  split
  · rfl
  · rename_i hm
    rw [if_neg hm] at hid
    exact hd.2 x hx hid

theorem deadId_fanOutOne (env : Env) (g c : String) (cu : List Member) (cfg : GuildConfig)
    (mon : MonitoredChannel) (s : ChannelSession) (ul : List StoredUser) (i : Nat)
    (w : World) (sub : UserSubscription) (hd : DeadId i w) :
    DeadId i (fanOutOne env g c cu cfg mon s ul w sub) := by
  unfold fanOutOne
  split
  · exact hd
  · dsimp only
    split
    · exact hd
    · simp only [sendNewDM]
      cases env.sendDM (w.tick + 1) sub.userId with
      | none => exact hd
      | some mid =>
        refine ⟨Nat.lt_succ_of_lt hd.1, ?_⟩
        intro r hr hid
        simp only [createNotificationState, List.mem_append, List.mem_singleton] at hr
        rcases hr with hr | rfl
        · exact hd.2 r hr hid
        · have := hd.1
          simp only at hid
          omega

theorem deadId_startNewNotificationSession (env : Env) (g : String) (ch : VoiceChannel)
    (cu : List Member) (cfg : GuildConfig) (mon : MonitoredChannel) (i : Nat) (w : World)
    (hd : DeadId i w) : DeadId i (startNewNotificationSession env g ch cu cfg mon w) := by
  rw [startNewNotificationSession_eq_foldl]
  apply foldl_invariant _ (DeadId i)
    (fun b a hb => deadId_fanOutOne env g ch.id cu cfg mon _ _ i b a hb)
  exact ⟨Nat.lt_succ_of_lt hd.1, hd.2⟩

theorem getActiveChannelSession_rows (g c : String) (w : World) :
    (getActiveChannelSession g c w).2.notificationStates = w.notificationStates ∧
      (getActiveChannelSession g c w).2.nextId = w.nextId := by
  unfold getActiveChannelSession
  split
  · exact ⟨rfl, rfl⟩
  · split <;> exact ⟨rfl, rfl⟩

theorem updateExistingNotifications_rows (g c sid : String) (cu : List Member)
    (cfg : GuildConfig) (mon : MonitoredChannel) (w : World) :
    (updateExistingNotifications g c sid cu cfg mon w).notificationStates
        = w.notificationStates ∧
      (updateExistingNotifications g c sid cu cfg mon w).nextId = w.nextId := by
  unfold updateExistingNotifications
  dsimp only
  split <;> exact ⟨rfl, rfl⟩

theorem deadId_getActiveChannelSession (g c : String) (i : Nat) (w : World)
    (hd : DeadId i w) : DeadId i (getActiveChannelSession g c w).2 :=
  deadId_congr (getActiveChannelSession_rows g c w).1 (getActiveChannelSession_rows g c w).2 hd

theorem deadId_updateExistingNotifications (g c sid : String) (cu : List Member)
    (cfg : GuildConfig) (mon : MonitoredChannel) (i : Nat) (w : World) (hd : DeadId i w) :
    DeadId i (updateExistingNotifications g c sid cu cfg mon w) :=
  deadId_congr (updateExistingNotifications_rows g c sid cu cfg mon w).1
    (updateExistingNotifications_rows g c sid cu cfg mon w).2 hd

theorem deadId_timerFires (env : Env) (t : Nat) (i : Nat) (w : World) (hd : DeadId i w) :
    DeadId i (timerFires env t w) := by
  unfold timerFires
  rw [MessageUpdateService.fireTimer_eq]
  dsimp only
  split
  · exact hd
  · rename_i tm _
    exact foldl_invariant (refreshOne env tm.updateFunction) (DeadId i)
      (fun b a hb => deadId_refreshOne env tm.updateFunction i b a hb)
      tm.updateFunction.activeNotifications w hd

theorem deadId_step (env : Env) (i : Nat) (w : World) (a : Action) (hd : DeadId i w) :
    DeadId i (step env w a) := by
  cases a with
  | join vs =>
    simp only [step, handleUserJoinedChannel]
    split
    · exact hd
    · rename_i ch _
      split
      · split
        · exact hd
        · have hd1 := deadId_getActiveChannelSession vs.guildId ch.id i w hd
          split
          · split
            · exact deadId_startNewNotificationSession _ _ _ _ _ _ _ _ hd1
            · exact hd1
          · split
            · exact deadId_updateExistingNotifications _ _ _ _ _ _ _ _ hd1
            · exact hd1
      · exact hd
  | leave vs =>
    simp only [step, handleUserLeftChannel]
    split
    · exact hd
    · rename_i ch _
      split
      · exact deadId_endSession _ _ _ _ _ hd
      · have hd1 := deadId_getActiveChannelSession vs.guildId ch.id i w hd
        split
        · split
          · exact deadId_updateExistingNotifications _ _ _ _ _ _ _ _ hd1
          · exact hd1
        · exact hd1
  | timer t => exact deadId_timerFires env t i w hd

theorem deadId_run (env : Env) (i : Nat) (actions : List Action) (w : World)
    (hd : DeadId i w) : DeadId i (run env w actions) :=
  foldl_invariant (step env) (DeadId i) (fun b a hb => deadId_step env i b a hb) actions w hd

theorem forall₂_rowKept_activeFor {kept : Nat → Bool} {l1 l2 : List NotificationState}
    (u sid : String) (q : Nat → Prop) (h : List.Forall₂ (RowKept kept) l1 l2)
    (hd : ∀ r ∈ l1, q r.id → activeFor u sid r = false) :
    ∀ r ∈ l2, q r.id → activeFor u sid r = false := by
  induction h with
  | nil => intro r hr; cases hr
  | @cons a b _ _ hab _ ih =>
    intro r hr hq
    rcases List.mem_cons.mp hr with rfl | hr
    · have ha := hd a (List.mem_cons_self _ _) (hab.1 ▸ hq)
      obtain ⟨_, _, _, h4, h5, h6, _⟩ := hab
      cases hact : activeFor u sid r with
      | false => rfl
      | true =>
        simp only [activeFor, Bool.and_eq_true, beq_iff_eq] at hact
        have : activeFor u sid a = true := by
          simp only [activeFor, Bool.and_eq_true, beq_iff_eq]
          exact ⟨⟨h4 ▸ hact.1.1, h5 ▸ hact.1.2⟩, h6 hact.2⟩
        rw [this] at ha
        cases ha
    · exact ih (fun x hx => hd x (List.mem_cons_of_mem _ hx)) r hr hq

theorem forall₂_rowKept_filter_activeFor {kept : Nat → Bool} {l1 l2 : List NotificationState}
    (u sid : String) (h : List.Forall₂ (RowKept kept) l1 l2)
    (hd : ∀ r ∈ l1, kept r.id = false → activeFor u sid r = false) :
    l2.filter (activeFor u sid) = l1.filter (activeFor u sid) := by
  induction h with
  | nil => rfl
  | @cons a b l1 l2 hab htl ih =>
    have ih2 := ih (fun x hx => hd x (List.mem_cons_of_mem _ hx))
    by_cases hk : kept a.id = true
    · have e := hab.2.2.2.2.2.2 hk
      subst e
      simp [List.filter_cons, ih2]
    · have hk1 : kept a.id = false := by simpa using hk
      have ha := hd a (List.mem_cons_self _ _) hk1
      have hb := forall₂_rowKept_activeFor u sid (fun _ => True)
        (List.Forall₂.cons hab List.Forall₂.nil)
        (fun r hr _ => by
          rcases List.mem_singleton.mp hr with rfl
          exact ha)
        b (List.mem_singleton.mpr rfl) trivial
      simp [List.filter_cons, ha, hb, ih2]

theorem filter_map_single (p : NotificationState → Bool) (i : Nat)
    (h : NotificationState → NotificationState) (l : List NotificationState)
    (r0 : NotificationState) (hnd : (l.map (fun r => r.id)).Nodup) (h0 : r0 ∈ l)
    (hid : r0.id = i) (hp : p (h r0) = true) (hother : ∀ r ∈ l, r.id ≠ i → p r = false) :
    (l.map (fun r => if r.id == i then h r else r)).filter p = [h r0] := by
  induction l with
  | nil => cases h0
  | cons a l ih =>
    simp only [List.map_cons, List.nodup_cons, List.mem_map, not_exists, not_and] at hnd
    rcases List.mem_cons.mp h0 with rfl | h0
    · have hrest : (l.map (fun r => if r.id == i then h r else r)).filter p = [] := by
        rw [List.filter_eq_nil_iff]
        intro y hy
        rw [List.mem_map] at hy
        obtain ⟨x, hx, rfl⟩ := hy
        have hne : x.id ≠ i := fun e => hnd.1 x hx (e.trans hid.symm)
        have e : (if x.id == i then h x else x) = x := by simp [hne]
        rw [e, hother x (List.mem_cons_of_mem _ hx) hne]
        simp
      have e : (if r0.id == i then h r0 else r0) = h r0 := by simp [hid]
      rw [List.map_cons, List.filter_cons, e, hp, hrest]
      rfl
    · have hne : a.id ≠ i := fun e => hnd.1 r0 h0 (hid.trans e.symm)
      have hpa := hother a (List.mem_cons_self _ _) hne
      have := ih hnd.2 h0 (fun x hx => hother x (List.mem_cons_of_mem _ hx))
      have e : (if a.id == i then h a else a) = a := by simp [hne]
      rw [List.map_cons, List.filter_cons, e, hpa, this]
      rfl

theorem refreshOne_resend (env : Env) (job : UpdateJob) (w : World) (n : NotificationState)
    (mid : String) (hout : hasUser job.currentUsers n.userId = false)
    (hedit : env.editDM w.tick n.userId n.messageId = false)
    (hsend : env.sendDM (w.tick + 1) n.userId = some mid) (hmid : mid ≠ "")
    (hrow : w.notificationStates.any (fun r => r.id == n.id) = true) :
    (refreshOne env job w n).notificationStates
      = w.notificationStates.map (fun r =>
          if r.id == n.id then
            { r with messageId := mid, userList := job.userListForStorage,
                     lastUpdated := env.clock (w.tick + 2) }
          else r) := by
  simp [refreshOne, hout, updateDMMessage, hedit, handleFailedMessageUpdate, sendNewDM, hsend,
    resendCallback, hrow, truthy, hmid]

theorem refreshOne_unreachable (env : Env) (job : UpdateJob) (w : World)
    (n : NotificationState) (hout : hasUser job.currentUsers n.userId = false)
    (hedit : env.editDM w.tick n.userId n.messageId = false)
    (hsend : env.sendDM (w.tick + 1) n.userId = none) :
    ∀ r ∈ (refreshOne env job w n).notificationStates, r.id = n.id → r.isActive = false := by
  intro r hr hid
  simp only [refreshOne, hout, updateDMMessage, hedit, handleFailedMessageUpdate, sendNewDM,
    hsend, truthy, deactivateNotification] at hr
  by_cases hany : w.notificationStates.any (fun x => x.id == n.id) = true
  · simp only [hany, if_true, Bool.false_eq_true, if_false, List.mem_map] at hr
    obtain ⟨x, _, rfl⟩ := hr
    by_cases hx : x.id = n.id
    · simp [hx]
    · simp [hx] at hid
  · simp only [hany, if_false, Bool.false_eq_true] at hr
    simp only [List.any_eq_true, beq_iff_eq, not_exists, not_and] at hany
    exact absurd hid (hany r hr)

theorem refreshOne_skip (env : Env) (job : UpdateJob) (w : World) (n : NotificationState)
    (hin : hasUser job.currentUsers n.userId = true) : refreshOne env job w n = w := by
  simp [refreshOne, hin]

theorem updateNotificationState_calls (env : Env) (i : Nat) (ul : List StoredUser)
    (w w2 : World) (h : updateNotificationState env i ul w = some w2) : w2.calls = w.calls := by
  unfold updateNotificationState at h
  split at h
  · cases h; rfl
  · cases h

theorem resendCallback_calls (env : Env) (ul : List StoredUser) (i : Nat) (m : String)
    (w w2 : World) (h : resendCallback env ul i m w = some w2) : w2.calls = w.calls := by
  unfold resendCallback at h
  split at h
  · cases h; rfl
  · cases h

theorem deactivateNotification_calls (i : Nat) (w w2 : World)
    (h : deactivateNotification i w = some w2) : w2.calls = w.calls := by
  unfold deactivateNotification at h
  split at h
  · cases h; rfl
  · cases h

theorem refreshOne_calls_frame (env : Env) (job : UpdateJob) (w : World)
    (m : NotificationState) (u : String) (hu : hasUser job.currentUsers u = true) :
    (refreshOne env job w m).calls.filter (fun x => x.userId == u)
      = w.calls.filter (fun x => x.userId == u) := by
  by_cases hm : hasUser job.currentUsers m.userId = true
  · rw [refreshOne_skip env job w m hm]
  · have hne : ¬ m.userId = u := fun e => hm (e ▸ hu)
    have hupd : (updateDMMessage env m job.currentUsers job.guildConfig
        job.monitoredChannel w).2.calls.filter (fun x => x.userId == u)
        = w.calls.filter (fun x => x.userId == u) := by
      simp [updateDMMessage, List.filter_append, DiscordCall.userId, hne]
    have hh : (handleFailedMessageUpdate env m job.currentUsers job.guildConfig
          job.monitoredChannel (resendCallback env job.userListForStorage)
          (updateDMMessage env m job.currentUsers job.guildConfig job.monitoredChannel
            w).2).2.calls.filter (fun x => x.userId == u)
        = w.calls.filter (fun x => x.userId == u) := by
      have hsend : (sendNewDM env m.userId job.currentUsers job.guildConfig
          job.monitoredChannel (updateDMMessage env m job.currentUsers job.guildConfig
            job.monitoredChannel w).2).2.calls.filter (fun x => x.userId == u)
          = w.calls.filter (fun x => x.userId == u) := by
        rw [← hupd]
        simp [sendNewDM, List.filter_append, DiscordCall.userId, hne]
      unfold handleFailedMessageUpdate
      dsimp only
      split
      · split
        · rename_i hcb
          rw [resendCallback_calls _ _ _ _ _ _ hcb]
          exact hsend
        · exact hsend
      · exact hsend
    unfold refreshOne
    rw [if_neg hm]
    dsimp only
    split
    · split
      · rename_i hu2
        rw [updateNotificationState_calls _ _ _ _ _ hu2]
        exact hupd
      · exact hupd
    · split
      · exact hh
      · split
        · rename_i hde
          rw [deactivateNotification_calls _ _ _ hde]
          exact hh
        · exact hh

theorem runUpdateJob_split (env : Env) (job : UpdateJob) (w : World)
    (pre post : List NotificationState) (n : NotificationState)
    (hjob : job.activeNotifications = pre ++ n :: post) :
    (runUpdateJob env job w).1
      = post.foldl (refreshOne env job)
          (refreshOne env job (pre.foldl (refreshOne env job) w) n) := by
  simp [runUpdateJob, hjob, List.foldl_append]

/-- C7 (as amended): a refresh reaches a notification whose recipient is not in the
channel, the edit of the stored DM fails and the replacement send succeeds with a
(non-empty) message id. If the stored record with the notification's id is still active
when the refresh runs and is the one active record of (recipient, session), then after
the refresh the active records of (recipient, session) are exactly that record, with the
same id, now carrying the new message id and the new occupant snapshot; and the table has
the same ids as before, so no record was created. The ids in the store and in the job are
distinct. -/
theorem resend_keeps_single_active_record (env : Env) (job : UpdateJob) (w : World)
    (pre post : List NotificationState) (n r0 : NotificationState) (messageId : String)
    (hjob : job.activeNotifications = pre ++ n :: post)
    (hjobids : ∀ m ∈ pre ++ post, m.id ≠ n.id)
    (hout : hasUser job.currentUsers n.userId = false)
    (hedit : env.editDM (pre.foldl (refreshOne env job) w).tick n.userId n.messageId = false)
    (hsend : env.sendDM ((pre.foldl (refreshOne env job) w).tick + 1) n.userId
      = some messageId)
    (hmid : messageId ≠ "")
    (hnodup : (w.notificationStates.map (fun r => r.id)).Nodup)
    (hrow : r0 ∈ w.notificationStates) (hid : r0.id = n.id) (hact : r0.isActive = true)
    (huser : r0.userId = n.userId) (hsess : r0.sessionId = n.sessionId)
    (hunique : ∀ r ∈ w.notificationStates, r.id ≠ n.id →
      activeFor n.userId n.sessionId r = false) :
    (runUpdateJob env job w).1.notificationStates.filter (activeFor n.userId n.sessionId)
        = [{ r0 with
             messageId := messageId, userList := job.userListForStorage,
             lastUpdated := env.clock ((pre.foldl (refreshOne env job) w).tick + 2) }] ∧
      (runUpdateJob env job w).1.notificationStates.map (fun r => r.id)
        = w.notificationStates.map (fun r => r.id) := by
  have hkpre : ∀ m ∈ pre, (fun i => i == n.id) m.id = false := fun m hm => by
    simpa using hjobids m (List.mem_append_left _ hm)
  have hkpost : ∀ m ∈ post, (fun i => i == n.id) m.id = false := fun m hm => by
    simpa using hjobids m (List.mem_append_right _ hm)
  have hpre := (foldl_refreshOne_rowKept env job (fun i => i == n.id) pre hkpre w).1
  have hrow1 : r0 ∈ (pre.foldl (refreshOne env job) w).notificationStates := by
    have : r0 ∈ w.notificationStates.filter (fun r => r.id == n.id) :=
      List.mem_filter.mpr ⟨hrow, by simp [hid]⟩
    rw [← forall₂_rowKept_filter hpre] at this
    exact (List.mem_filter.mp this).1
  have hnodup1 : ((pre.foldl (refreshOne env job) w).notificationStates.map
      (fun r => r.id)).Nodup := by
    rw [forall₂_rowKept_ids hpre]; exact hnodup
  have hunique1 := forall₂_rowKept_activeFor n.userId n.sessionId (fun i => i ≠ n.id) hpre
    hunique
  have hany : (pre.foldl (refreshOne env job) w).notificationStates.any
      (fun r => r.id == n.id) = true := by
    simp only [List.any_eq_true, beq_iff_eq]
    exact ⟨r0, hrow1, hid⟩
  have hw2 := refreshOne_resend env job (pre.foldl (refreshOne env job) w) n messageId hout
    hedit hsend hmid hany
  have hpost := (foldl_refreshOne_rowKept env job (fun i => i == n.id) post hkpost
    (refreshOne env job (pre.foldl (refreshOne env job) w) n)).1
  constructor
  · rw [runUpdateJob_split env job w pre post n hjob,
      forall₂_rowKept_filter_activeFor n.userId n.sessionId hpost, hw2]
    · exact filter_map_single _ n.id _ _ r0 hnodup1 hrow1 hid
        (by simp [activeFor, huser, hsess, hact]) hunique1
    · intro r hr hk
      rw [hw2, List.mem_map] at hr
      obtain ⟨x, hx, rfl⟩ := hr
      by_cases hxid : x.id = n.id
      · simp [hxid] at hk
      · have e : (if x.id == n.id then
            { x with messageId := messageId, userList := job.userListForStorage,
                     lastUpdated := env.clock ((pre.foldl (refreshOne env job) w).tick + 2) }
            else x) = x := by simp [hxid]
        rw [e]
        exact hunique1 x hx hxid
  · have hall := (foldl_refreshOne_rowKept env job (fun _ => false) job.activeNotifications
      (fun _ _ => rfl) w).1
    exact forall₂_rowKept_ids hall

/-- C7 (as amended) on the example: the active record of U1 is rewritten in place with
the new message id. -/
theorem resend_keeps_single_active_record_witness :
    (runUpdateJob Example.envResend Example.jobAB Example.worldU1).1.notificationStates.filter
        (activeFor "U1" "s")
      = [{ Example.rowU1 with
           messageId := "new-U1", userList := Example.jobAB.userListForStorage,
           lastUpdated := 1002 }] :=
  (resend_keeps_single_active_record Example.envResend Example.jobAB Example.worldU1 [] []
    Example.rowU1 Example.rowU1 "new-U1" rfl (by decide) (by decide) rfl rfl (by decide)
    (by decide) (by decide) rfl rfl rfl rfl (by decide)).1

/-- C8: a refresh reaches a notification whose recipient is not in the channel, and both
the edit and the replacement send fail. Then after the refresh every stored record with
the notification's id is inactive, the table has the same ids as before, and after any
further joins, leaves and timer firings, in any environment, `getActiveNotifications`
never returns a record with that id, so no refresh enqueued later processes it. The id
has been handed out by the store. -/
theorem unreachable_recipient_deactivated (env : Env) (job : UpdateJob) (w : World)
    (pre post : List NotificationState) (n : NotificationState)
    (hjob : job.activeNotifications = pre ++ n :: post)
    (hout : hasUser job.currentUsers n.userId = false)
    (hedit : env.editDM (pre.foldl (refreshOne env job) w).tick n.userId n.messageId = false)
    (hsend : env.sendDM ((pre.foldl (refreshOne env job) w).tick + 1) n.userId = none)
    (hid : n.id < w.nextId) :
    (∀ r ∈ (runUpdateJob env job w).1.notificationStates, r.id = n.id → r.isActive = false) ∧
      (runUpdateJob env job w).1.notificationStates.map (fun r => r.id)
        = w.notificationStates.map (fun r => r.id) ∧
      (∀ (env2 : Env) (actions : List Action) (guildId channelId sessionId : String),
        ∀ r ∈ getActiveNotifications guildId channelId sessionId
            (run env2 (runUpdateJob env job w).1 actions),
          r.id ≠ n.id) := by
  have hpre := foldl_refreshOne_rowKept env job (fun _ => false) pre (fun _ _ => rfl) w
  have hone := refreshOne_rowKept env job (pre.foldl (refreshOne env job) w) n
    (fun _ => false) rfl
  have hdead2 : DeadId n.id (refreshOne env job (pre.foldl (refreshOne env job) w) n) :=
    ⟨by rw [hone.2, hpre.2]; exact hid,
      refreshOne_unreachable env job _ n hout hedit hsend⟩
  have hdead : DeadId n.id (runUpdateJob env job w).1 := by
    rw [runUpdateJob_split env job w pre post n hjob]
    exact foldl_invariant (refreshOne env job) (DeadId n.id)
      (fun b a hb => deadId_refreshOne env job n.id b a hb) post _ hdead2
  refine ⟨hdead.2, ?_, ?_⟩
  · have hall := (foldl_refreshOne_rowKept env job (fun _ => false) job.activeNotifications
      (fun _ _ => rfl) w).1
    exact forall₂_rowKept_ids hall
  · intro env2 actions g c sid r hr hrid
    have hd := deadId_run env2 n.id actions _ hdead
    simp only [getActiveNotifications, List.mem_filter, Bool.and_eq_true] at hr
    have := hd.2 r hr.1 hrid
    rw [this] at hr
    exact absurd hr.2.2 (by simp)

/-- C8 on the example: U1 cannot be reached, the record is deactivated and a later join
finds no active notification to refresh. -/
theorem unreachable_recipient_deactivated_witness :
    (∀ r ∈ (runUpdateJob Example.envUnreachable Example.jobAB
        Example.worldU1).1.notificationStates, r.id = 1 → r.isActive = false) ∧
      ∀ r ∈ getActiveNotifications "g" "c" "s"
          (run Example.env (runUpdateJob Example.envUnreachable Example.jobAB
            Example.worldU1).1 Example.actions),
        r.id ≠ 1 :=
  have h := unreachable_recipient_deactivated Example.envUnreachable Example.jobAB
    Example.worldU1 [] [] Example.rowU1 rfl (by decide) rfl rfl (by decide)
  ⟨h.1, h.2.2 Example.env Example.actions "g" "c" "s"⟩

/-- C9 (as amended): when a refresh reaches a notification whose recipient is among the
current occupants, the iteration is skipped: it changes nothing at all. Over the whole
refresh no call is addressed to that recipient and, the ids in the job being distinct,
the stored record with the notification's id is exactly as before, so an active record
stays active. -/
theorem present_recipient_skipped (env : Env) (job : UpdateJob) (w : World)
    (pre post : List NotificationState) (n : NotificationState)
    (hjob : job.activeNotifications = pre ++ n :: post)
    (hjobids : ∀ m ∈ pre ++ post, m.id ≠ n.id)
    (hin : hasUser job.currentUsers n.userId = true) :
    refreshOne env job (pre.foldl (refreshOne env job) w) n
        = pre.foldl (refreshOne env job) w ∧
      (runUpdateJob env job w).1.notificationStates.filter (fun r => r.id == n.id)
        = w.notificationStates.filter (fun r => r.id == n.id) ∧
      (runUpdateJob env job w).1.calls.filter (fun x => x.userId == n.userId)
        = w.calls.filter (fun x => x.userId == n.userId) := by
  have hskip := refreshOne_skip env job (pre.foldl (refreshOne env job) w) n hin
  refine ⟨hskip, ?_, ?_⟩
  · rw [runUpdateJob_split env job w pre post n hjob, hskip, ← List.foldl_append]
    have hk : ∀ m ∈ pre ++ post, (fun i => i == n.id) m.id = false := fun m hm => by
      simpa using hjobids m hm
    exact forall₂_rowKept_filter
      (foldl_refreshOne_rowKept env job (fun i => i == n.id) (pre ++ post) hk w).1
  · exact foldl_invariant (refreshOne env job)
      (fun x => x.calls.filter (fun y => y.userId == n.userId)
        = w.calls.filter (fun y => y.userId == n.userId))
      (fun b a hb => (refreshOne_calls_frame env job b a n.userId hin).trans hb)
      job.activeNotifications w rfl

/-- C9 (as amended) on the example: U1 sits in the channel and the record is untouched. -/
theorem present_recipient_skipped_witness :
    (runUpdateJob Example.env Example.jobWithU1 Example.worldU1).1.notificationStates.filter
        (fun r => r.id == 1)
      = [Example.rowU1] :=
  (present_recipient_skipped Example.env Example.jobWithU1 Example.worldU1 [] []
    Example.rowU1 rfl (by decide) (by decide)).2.1.trans (by decide)

/-- C9 as stated fails. A joins, U1 and U2 are notified; then U1 joins the channel, the
refresh is queued with the record of U1 among its notifications and the timeout fires:
the record of U1 is still active afterwards. -/
theorem present_recipient_not_deactivated :
    ((run Example.env Example.world
        [Action.join (Example.voice [Example.human "A"]),
         Action.join (Example.voice [Example.human "A", Example.human "U1"])]
      ).messageUpdateService.updateQueue.map
        (fun e => (e.2.updateFunction.activeNotifications.map (fun r => r.userId),
          e.2.updateFunction.currentUsers.map (fun m => m.id))))
        = [(["U1", "U2"], ["A", "U1"])] ∧
      (run Example.env Example.world
        [Action.join (Example.voice [Example.human "A"]),
         Action.join (Example.voice [Example.human "A", Example.human "U1"]),
         Action.timer 0]).notificationStates.map (fun r => (r.userId, r.isActive))
        = [("U1", true), ("U2", true)] := by
  decide

/-- C7 as stated fails: A joins, B joins, A leaves (a refresh is queued over the
notifications of U1 and U2), B leaves and `endSession` deactivates both notifications.
The timeout fires in an environment in which every edit fails and every send succeeds:
the DM of U1 is sent anew and the record of U1 gets the new message id and the new
snapshot, but it stays inactive, so U1 ends the refresh with no active record of the
session. -/
theorem resend_on_deactivated_record :
    Example.worldEndedPending.notificationStates.map
        (fun n => (n.id, n.userId, n.messageId, n.isActive))
      = [(1, "U1", "m3U1", false), (2, "U2", "m7U2", false)] ∧
      ((timerFires Example.envResend 1 Example.worldEndedPending).calls.drop 2).map
          (fun c => (c.isSend, c.userId))
        = [(false, "U1"), (true, "U1"), (false, "U2"), (true, "U2")] ∧
      (timerFires Example.envResend 1 Example.worldEndedPending).notificationStates.map
          (fun n => (n.id, n.userId, n.messageId, n.isActive, n.userList.map (fun u => u.id)))
        = [(1, "U1", "new-U1", false, ["B"]), (2, "U2", "new-U2", false, ["B"])] ∧
      (timerFires Example.envResend 1 Example.worldEndedPending).notificationStates.filter
          (activeFor "U1" "session_1000_000102ff") = [] := by
  decide

/-! ## The eligibility gate -/

/-- The gate of `handleUserJoinedChannel`: a join on a channel that is not monitored, in
a guild that is not configured, or with more non-bot occupants than `maxUsers`, leaves
the whole state as it is. -/
theorem handleUserJoinedChannel_gate (env : Env) (voiceState : VoiceState)
    (channel : VoiceChannel) (w : World) (hch : voiceState.channel = some channel)
    (h : findMonitoredChannel voiceState.guildId channel.id w = none ∨
      findGuild voiceState.guildId w = none ∨
      ∃ guildConfig, findGuild voiceState.guildId w = some guildConfig ∧
        guildConfig.maxUsers < ((nonBots channel.members).length : Int)) :
    handleUserJoinedChannel env voiceState w = w := by
  unfold handleUserJoinedChannel
  rw [hch]
  dsimp only
  rcases h with h | h | ⟨cfg, h1, h2⟩
  · rw [h]
    split
    · rename_i hm
      cases hm
    · rfl
  · rw [h]
  · rw [h1]
    cases hm : findMonitoredChannel voiceState.guildId channel.id w with
    | none => rfl
    | some mon =>
      dsimp only
      rw [if_pos h2]

/-- A leave on a channel that is not monitored, or in a guild that is not configured,
queues no refresh, makes no Discord call and creates no row. -/
theorem handleUserLeftChannel_unmonitored (env : Env) (voiceState : VoiceState)
    (channel : VoiceChannel) (w : World) (hch : voiceState.channel = some channel)
    (h : findMonitoredChannel voiceState.guildId channel.id w = none ∨
      findGuild voiceState.guildId w = none) :
    (handleUserLeftChannel env voiceState w).messageUpdateService = w.messageUpdateService ∧
      (handleUserLeftChannel env voiceState w).calls = w.calls ∧
      (handleUserLeftChannel env voiceState w).nextId = w.nextId := by
  have hg : ∀ w2 : World, w2 = (getActiveChannelSession voiceState.guildId channel.id w).2 →
      findGuild voiceState.guildId w2 = findGuild voiceState.guildId w ∧
      findMonitoredChannel voiceState.guildId channel.id w2
        = findMonitoredChannel voiceState.guildId channel.id w ∧
      w2.messageUpdateService = w.messageUpdateService ∧ w2.calls = w.calls ∧
      w2.nextId = w.nextId := by
    intro w2 e
    subst e
    unfold getActiveChannelSession
    split
    · exact ⟨rfl, rfl, rfl, rfl, rfl⟩
    · split <;> exact ⟨rfl, rfl, rfl, rfl, rfl⟩
  obtain ⟨e1, e2, e3, e4, e5⟩ := hg _ rfl
  unfold handleUserLeftChannel
  rw [hch]
  dsimp only
  split
  · exact ⟨rfl, rfl, rfl⟩
  · split
    · rw [e1, e2]
      rcases h with h | h
      · rw [h]
        split
        · rename_i hm
          cases hm
        · exact ⟨e3, e4, e5⟩
      · rw [h]
        exact ⟨e3, e4, e5⟩
    · exact ⟨e3, e4, e5⟩

/-- C10 fails on the leave path. With `maxUsers = 1`, A joins and the session starts; the
joins of B and C are ignored by the gate. When C leaves, two non-bot occupants remain,
more than `maxUsers`, yet `handleUserLeftChannel` queues a refresh, and when its timeout
fires the DMs of both subscribers are edited. -/
theorem leave_above_maxUsers_enqueues_refresh :
    (run Example.env Example.crowdedWorld
        [Action.join (Example.voice [Example.human "A"]),
         Action.join (Example.voice [Example.human "A", Example.human "B"]),
         Action.join (Example.voice [Example.human "A", Example.human "B",
           Example.human "C"])]).messageUpdateService.getQueueSize = 0 ∧
      (run Example.env Example.crowdedWorld
        [Action.join (Example.voice [Example.human "A"]),
         Action.join (Example.voice [Example.human "A", Example.human "B"]),
         Action.join (Example.voice [Example.human "A", Example.human "B",
           Example.human "C"]),
         Action.leave (Example.voice [Example.human "A", Example.human "B"])]
        ).messageUpdateService.getQueueSize = 1 ∧
      ((run Example.env Example.crowdedWorld
        [Action.join (Example.voice [Example.human "A"]),
         Action.join (Example.voice [Example.human "A", Example.human "B"]),
         Action.join (Example.voice [Example.human "A", Example.human "B",
           Example.human "C"]),
         Action.leave (Example.voice [Example.human "A", Example.human "B"]),
         Action.timer 0]).calls.drop 2).map (fun x => x.userId) = ["U1", "U2"] := by
  decide


/-! ## `formatUserList` -/

theorem popped_concat (xs : List String) (y : String) : popped (xs ++ [y]) = y := by
  simp [popped]

theorem join_concat (sep : String) (xs : List String) (y : String) (h : xs ≠ []) :
    join sep (xs ++ [y]) = join sep xs ++ sep ++ y := by
  induction xs with
  | nil => exact absurd rfl h
  | cons a xs ih =>
    match xs, ih with
    | [], _ => simp [join]
    | b :: rest, ih =>
      have h2 := ih (by simp)
      simp only [List.cons_append] at h2 ⊢
      rw [join, h2, join]
      simp [String.append_assoc]

theorem join_dropLast (sep : String) (xs : List String) (h : 2 ≤ xs.length) :
    join sep xs = join sep xs.dropLast ++ sep ++ popped xs := by
  have hne : xs ≠ [] := by
    intro e
    simp [e] at h
  have hx : xs = xs.dropLast ++ [xs.getLast hne] := (List.dropLast_append_getLast hne).symm
  have hd : xs.dropLast ≠ [] := by
    intro e
    have := congrArg List.length e
    simp only [List.length_dropLast, List.length_nil] at this
    omega
  rw [hx, popped_concat, List.dropLast_concat]
  exact join_concat sep _ _ hd

theorem toString_natCast_sub (n m : Nat) (h : m ≤ n) :
    toString ((n : Int) - (m : Int)) = toString (n - m) := by
  rw [← Int.ofNat_sub h]
  rfl

/-- C11: for a list of n names with 1 <= n <= maxDisplay, `formatUserList` returns the
name itself when n = 1, the two names around `and` when n = 2, and otherwise the first
n - 1 names joined by a comma and a blank, then a comma, `and`, and the last name. -/
theorem formatUserList_within (maxDisplay : Int) :
    (∀ a : String, 1 ≤ maxDisplay → (formatUserList [a] maxDisplay).1 = a) ∧
      (∀ a b : String, 2 ≤ maxDisplay →
        (formatUserList [a, b] maxDisplay).1 = a ++ " and " ++ b) ∧
      (∀ (init : List String) (last : String), 2 ≤ init.length →
        ((init.length + 1 : Nat) : Int) ≤ maxDisplay →
        (formatUserList (init ++ [last]) maxDisplay).1 = join ", " init ++ ", and " ++ last) := by
  refine ⟨?_, ?_, ?_⟩
  · intro a h
    simp [formatUserList, h]
  · intro a b h
    simp [formatUserList, h]
  · intro init last h2 hm
    match init, h2, hm with
    | a :: b :: tl, _, hm =>
      have hlen : ((a :: b :: tl ++ [last]).length : Int) ≤ maxDisplay := by
        simpa using hm
      have hd : (a :: b :: (tl ++ [last])).dropLast = a :: b :: tl := by
        have := @List.dropLast_concat String (a :: b :: tl) last
        simpa using this
      have hp : popped (a :: b :: (tl ++ [last])) = last :=
        popped_concat (a :: b :: tl) last
      simp only [formatUserList, List.cons_append] at hlen ⊢
      simp only [hlen, if_true, hd, hp]
      simp

/-- C11 on the example of the specification. -/
theorem formatUserList_within_witness :
    (formatUserList ["A"] 5).1 = "A" ∧ (formatUserList ["A", "B"] 5).1 = "A and B" ∧
      (formatUserList ["A", "B", "C"] 5).1 = "A, B, and C" :=
  ⟨(formatUserList_within 5).1 "A" (by decide),
    ((formatUserList_within 5).2.1 "A" "B" (by decide)).trans (by decide),
    ((formatUserList_within 5).2.2 ["A", "B"] "C" (by decide) (by decide)).trans (by decide)⟩

/-- C12 (as amended): six names with `maxDisplay` 3 give the first three names and the
count of the three names left out. -/
theorem formatUserList_six_three :
    (formatUserList ["A", "B", "C", "D", "E", "F"] 3).1 = "A, B, C, and 3 others" := by
  decide

/-- C12 as stated fails: the text for six names with `maxDisplay` 3 is not the one with
two names and four others. -/
theorem formatUserList_six_three_not_four :
    (formatUserList ["A", "B", "C", "D", "E", "F"] 3).1 ≠ "A, B, and 4 others" := by
  decide

/-- C13: for a list of n names and 1 <= m < n, `formatUserList` returns the first m names
joined by a comma and a blank (the one name when m = 1), then `and` (after a comma unless
m = 1), the number k = n - m of names left out, and `other` when k = 1, `others`
otherwise. The array is left as it was. -/
theorem formatUserList_truncates (names : List String) (m : Nat) (h1 : 1 ≤ m)
    (h2 : m < names.length) :
    formatUserList names m
      = (join ", " (names.take m) ++ (if m = 1 then " and " else ", and ") ++
          toString (names.length - m) ++
          (if names.length - m = 1 then " other" else " others"), names) := by
  have hlen0 : ¬ names.length = 0 := by omega
  have hgt : ¬ ((names.length : Int) ≤ (m : Int)) := by omega
  have hslice : slice0 names (m : Int) = names.take m := by
    simp [slice0]
  have htl : (names.take m).length = m := by
    rw [List.length_take]; omega
  have hk : toString ((names.length : Int) - (m : Int)) = toString (names.length - m) :=
    toString_natCast_sub _ _ (by omega)
  have hone : ((names.length : Int) - (m : Int) = 1) ↔ (names.length - m = 1) := by omega
  unfold formatUserList
  simp only [beq_iff_eq, hlen0, if_false, hgt, hslice, htl, hk, hone]
  by_cases hm : m = 1
  · subst hm
    have : ∃ a, names.take 1 = [a] := by
      match names, h2 with
      | a :: _, _ => exact ⟨a, by simp⟩
    obtain ⟨a, ha⟩ := this
    simp only [if_true, ha, first, join, List.head?_cons, Option.getD_some]
    by_cases hk1 : names.length - 1 = 1
    · simp [hk1, String.append_assoc]
    · simp [hk1, String.append_assoc]
  · simp only [hm, if_false]
    rw [join_dropLast ", " (names.take m) (by omega)]
    by_cases hk1 : names.length - m = 1
    · simp [hk1, String.append_assoc]
    · simp [hk1, String.append_assoc]

/-- C13 on the case of the repository's test: six names with `maxDisplay` 3. -/
theorem formatUserList_truncates_witness :
    (formatUserList ["Alice", "Bob", "Charlie", "David", "Eve", "Frank"] 3).1
      = "Alice, Bob, Charlie, and 3 others" :=
  (congrArg Prod.fst (formatUserList_truncates
    ["Alice", "Bob", "Charlie", "David", "Eve", "Frank"] 3 (by decide) (by decide))).trans
    (by decide)

/-- C14 fails on the code: for three names within `maxDisplay` the call removes the last
name from the array it was given, and a second call on that array returns another text.
In every other case the array is left as it was. -/
theorem formatUserList_pops_argument :
    formatUserList ["A", "B", "C"] 5 = ("A, B, and C", ["A", "B"]) ∧
      (formatUserList (formatUserList ["A", "B", "C"] 5).2 5).1 = "A and B" := by
  decide

/-- The array after `formatUserList`: the last name is gone exactly when there are at
least three names and no truncation. -/
theorem formatUserList_array (names : List String) (maxDisplay : Int) :
    (formatUserList names maxDisplay).2
      = if 3 ≤ names.length ∧ (names.length : Int) ≤ maxDisplay then names.dropLast
        else names := by
  unfold formatUserList
  by_cases h0 : names.length = 0
  · simp [h0]
  · by_cases hle : (names.length : Int) ≤ maxDisplay
    · simp only [beq_iff_eq, h0, if_false, hle, if_true, and_true]
      match names with
      | [] => simp at h0
      | [a] => simp
      | [a, b] => simp
      | a :: b :: c :: rest => simp
    · simp only [beq_iff_eq, h0, if_false, hle, and_false]
      split <;> rfl

/-! ## `formatNotificationMessage` -/

theorem expandGo_plain (matched before after : List Char) (repl : List Char)
    (h : ∀ c ∈ repl, c ≠ '$') : expandGo matched before after false repl = repl := by
  induction repl with
  | nil => rfl
  | cons c rest ih =>
    have hc : c ≠ '$' := h c (List.mem_cons_self _ _)
    simp only [expandGo, hc, if_false]
    rw [ih (fun x hx => h x (List.mem_cons_of_mem _ hx))]

theorem replaceGo_succ (pat repl before : List Char) (k : Nat) (c : Char)
    (rest : List Char) :
    replaceGo pat repl before (k + 1) (c :: rest) = replaceGo pat repl (before ++ [c]) k rest :=
  rfl

theorem replaceGo_zero (pat repl before : List Char) (c : Char) (rest : List Char) :
    replaceGo pat repl before 0 (c :: rest)
      = if pat.isPrefixOf (c :: rest) then
          expandReplacement pat before ((c :: rest).drop pat.length) repl ++
            replaceGo pat repl (before ++ [c]) (pat.length - 1) rest
        else c :: replaceGo pat repl (before ++ [c]) 0 rest :=
  rfl

theorem replaceGo_skip (pat repl : List Char) (xs rest before : List Char) :
    replaceGo pat repl before xs.length (xs ++ rest)
      = replaceGo pat repl (before ++ xs) 0 rest := by
  induction xs generalizing before with
  | nil => simp
  | cons x xs ih =>
    rw [List.length_cons, List.cons_append, replaceGo_succ, ih]
    simp

theorem isPrefixOf_cons_ne (c0 c : Char) (pat rest : List Char) (h : c ≠ c0) :
    (c0 :: pat).isPrefixOf (c :: rest) = false := by
  have : ¬ c0 = c := fun e => h e.symm
  simp [List.isPrefixOf, this]

theorem replaceGo_text (c0 : Char) (pat repl : List Char) (s rest before : List Char)
    (h : ∀ c ∈ s, c ≠ c0) :
    replaceGo (c0 :: pat) repl before 0 (s ++ rest)
      = s ++ replaceGo (c0 :: pat) repl (before ++ s) 0 rest := by
  induction s generalizing before with
  | nil => simp
  | cons c s ih =>
    have hc := h c (List.mem_cons_self _ _)
    rw [List.cons_append, replaceGo_zero, isPrefixOf_cons_ne c0 c pat _ hc, if_neg (by simp),
      ih _ (fun x hx => h x (List.mem_cons_of_mem _ hx))]
    simp

theorem isPrefixOf_append_self (pat rest : List Char) : pat.isPrefixOf (pat ++ rest) = true := by
  induction pat with
  | nil => simp [List.isPrefixOf]
  | cons c pat ih => simp [List.isPrefixOf, ih]

theorem replaceGo_hit (c0 : Char) (pat repl : List Char) (rest before : List Char)
    (h : ∀ c ∈ repl, c ≠ '$') :
    replaceGo (c0 :: pat) repl before 0 ((c0 :: pat) ++ rest)
      = repl ++ replaceGo (c0 :: pat) repl (before ++ (c0 :: pat)) 0 rest := by
  have hp := isPrefixOf_append_self (c0 :: pat) rest
  rw [List.cons_append] at hp ⊢
  rw [replaceGo_zero, hp, if_pos rfl, expandReplacement, expandGo_plain _ _ _ repl h,
    List.length_cons, Nat.add_sub_cancel, replaceGo_skip]
  simp

theorem replaceGo_none (pat repl : List Char) (c0 : Char) (hc0 : c0 ∈ pat)
    (text before : List Char) (h : ∀ c ∈ text, c ≠ c0) :
    replaceGo pat repl before 0 text = text := by
  induction text generalizing before with
  | nil => simp [replaceGo]
  | cons c text ih =>
    have hnot : pat.isPrefixOf (c :: text) = false := by
      cases hp : pat.isPrefixOf (c :: text) with
      | false => rfl
      | true =>
        have := (List.isPrefixOf_iff_prefix.mp hp).subset hc0
        exact absurd rfl (h c0 this)
    simp only [replaceGo, hnot, Bool.false_eq_true, if_false]
    rw [ih _ (fun x hx => h x (List.mem_cons_of_mem _ hx))]

theorem pattern_shape (p : Placeholder) :
    ∃ tl, p.pattern = '\x7b' :: tl ∧ ∀ c ∈ tl, c ≠ '\x7b' := by
  cases p
  · exact ⟨"channelName\x7d".data, rfl, by decide⟩
  · exact ⟨"userList\x7d".data, rfl, by decide⟩
  · exact ⟨"emoji\x7d".data, rfl, by decide⟩

theorem pattern_not_prefix (p q : Placeholder) (h : q ≠ p) (rest : List Char) :
    p.pattern.isPrefixOf (q.pattern ++ rest) = false := by
  cases p <;> cases q <;> first | exact absurd rfl h | rfl

theorem braceFree_tail {s : Segment} {segs : List Segment} (h : BraceFree (s :: segs)) :
    BraceFree segs :=
  fun t ht => h t (List.mem_cons_of_mem _ ht)

theorem replaceGo_segments (p : Placeholder) (v : List Char) (hv : ∀ c ∈ v, c ≠ '$')
    (segs : List Segment) (hs : BraceFree segs) (before : List Char) :
    replaceGo p.pattern v before 0 (renderTemplate segs)
      = renderTemplate (segs.map (Segment.fill p v)) := by
  obtain ⟨tl, hp, _⟩ := pattern_shape p
  induction segs generalizing before with
  | nil => rfl
  | cons s segs ih =>
    have ih2 := ih (braceFree_tail hs)
    cases s with
    | text t =>
      have ht := hs t (List.mem_cons_self _ _)
      simp only [renderTemplate, List.map_cons, Segment.fill]
      rw [hp, replaceGo_text _ _ _ _ _ _ ht, ← hp, ih2]
    | hole q =>
      by_cases hq : q = p
      · subst hq
        simp only [renderTemplate, List.map_cons, Segment.fill, if_true]
        rw [hp, replaceGo_hit _ _ _ _ _ hv, ← hp, ih2]
      · obtain ⟨tq, hq1, hq2⟩ := pattern_shape q
        have hmiss := pattern_not_prefix p q hq (renderTemplate segs)
        simp only [renderTemplate, List.map_cons, Segment.fill, hq, if_false]
        rw [hq1, List.cons_append] at hmiss ⊢
        rw [replaceGo_zero, hmiss, if_neg (by simp), hp, replaceGo_text _ _ _ _ _ _ hq2,
          ← hp, ih2]
        simp

theorem braceFree_fill (p : Placeholder) (v : List Char) (hv : ∀ c ∈ v, c ≠ '\x7b')
    (segs : List Segment) (hs : BraceFree segs) : BraceFree (segs.map (Segment.fill p v)) := by
  intro t ht
  rw [List.mem_map] at ht
  obtain ⟨s, hs1, hs2⟩ := ht
  cases s with
  | text u =>
    simp only [Segment.fill, Segment.text.injEq] at hs2
    subst hs2
    exact hs _ hs1
  | hole q =>
    by_cases hq : q = p
    · simp only [Segment.fill, hq, if_true, Segment.text.injEq] at hs2
      subst hs2
      exact hv
    · simp [Segment.fill, hq] at hs2

theorem render_filled (values : Placeholder → List Char) (segs : List Segment) :
    renderTemplate
        (((segs.map (Segment.fill Placeholder.channelName (values Placeholder.channelName))).map
          (Segment.fill Placeholder.userList (values Placeholder.userList))).map
          (Segment.fill Placeholder.emoji (values Placeholder.emoji)))
      = fillTemplate values segs := by
  induction segs with
  | nil => rfl
  | cons s segs ih =>
    cases s with
    | text t => simp only [List.map_cons, Segment.fill, renderTemplate, fillTemplate, ih]
    | hole q =>
      cases q <;>
        simp only [List.map_cons, Segment.fill, renderTemplate, fillTemplate, ih, ↓reduceIte,
          reduceCtorEq]

theorem fillTemplate_braceFree (values : Placeholder → List Char)
    (hv : ∀ p, ∀ c ∈ values p, c ≠ '\x7b') (segs : List Segment) (hs : BraceFree segs) :
    ∀ c ∈ fillTemplate values segs, c ≠ '\x7b' := by
  induction segs with
  | nil => intro c hc; cases hc
  | cons s segs ih =>
    have ih2 := ih (braceFree_tail hs)
    intro c hc
    cases s with
    | text t =>
      simp only [fillTemplate, List.mem_append] at hc
      rcases hc with hc | hc
      · exact hs t (List.mem_cons_self _ _) c hc
      · exact ih2 c hc
    | hole q =>
      simp only [fillTemplate, List.mem_append] at hc
      rcases hc with hc | hc
      · exact hv q c hc
      · exact ih2 c hc

theorem substituteGo_skip (values : Placeholder → List Char) (xs rest : List Char) :
    substituteGo values xs.length (xs ++ rest) = substituteGo values 0 rest := by
  induction xs with
  | nil => simp
  | cons x xs ih =>
    rw [List.length_cons, List.cons_append]
    show substituteGo values xs.length (xs ++ rest) = _
    exact ih

theorem placeholderAt_ne (c : Char) (rest : List Char) (h : c ≠ '\x7b') :
    placeholderAt (c :: rest) = none := by
  have h1 : Placeholder.channelName.pattern.isPrefixOf (c :: rest) = false :=
    isPrefixOf_cons_ne '\x7b' c "channelName\x7d".data rest h
  have h2 : Placeholder.userList.pattern.isPrefixOf (c :: rest) = false :=
    isPrefixOf_cons_ne '\x7b' c "userList\x7d".data rest h
  have h3 : Placeholder.emoji.pattern.isPrefixOf (c :: rest) = false :=
    isPrefixOf_cons_ne '\x7b' c "emoji\x7d".data rest h
  simp [placeholderAt, h1, h2, h3]

theorem placeholderAt_pattern (p : Placeholder) (rest : List Char) :
    placeholderAt (p.pattern ++ rest) = some p := by
  have hself := isPrefixOf_append_self p.pattern rest
  cases p
  · simp [placeholderAt, hself]
  · have h1 := pattern_not_prefix Placeholder.channelName Placeholder.userList (by decide) rest
    simp [placeholderAt, hself, h1]
  · have h1 := pattern_not_prefix Placeholder.channelName Placeholder.emoji (by decide) rest
    have h2 := pattern_not_prefix Placeholder.userList Placeholder.emoji (by decide) rest
    simp [placeholderAt, hself, h1, h2]

theorem substituteGo_text (values : Placeholder → List Char) (s rest : List Char)
    (h : ∀ c ∈ s, c ≠ '\x7b') :
    substituteGo values 0 (s ++ rest) = s ++ substituteGo values 0 rest := by
  induction s with
  | nil => simp
  | cons c s ih =>
    have hc := placeholderAt_ne c (s ++ rest) (h c (List.mem_cons_self _ _))
    rw [List.cons_append]
    show (match placeholderAt (c :: (s ++ rest)) with
      | some p => values p ++ substituteGo values (p.pattern.length - 1) (s ++ rest)
      | none => c :: substituteGo values 0 (s ++ rest)) = _
    rw [hc]
    simp only [List.cons_append, List.cons.injEq, true_and]
    exact ih (fun x hx => h x (List.mem_cons_of_mem _ hx))

theorem substituteGo_hole (values : Placeholder → List Char) (p : Placeholder)
    (rest : List Char) :
    substituteGo values 0 (p.pattern ++ rest) = values p ++ substituteGo values 0 rest := by
  obtain ⟨tl, hp, _⟩ := pattern_shape p
  have hat := placeholderAt_pattern p rest
  rw [hp, List.cons_append] at hat ⊢
  show (match placeholderAt ('\x7b' :: (tl ++ rest)) with
    | some q => values q ++ substituteGo values (q.pattern.length - 1) (tl ++ rest)
    | none => '\x7b' :: substituteGo values 0 (tl ++ rest)) = _
  rw [hat]
  simp only [hp, List.length_cons, Nat.add_sub_cancel]
  rw [substituteGo_skip]

theorem substitutePlaceholders_segments (values : Placeholder → List Char)
    (segs : List Segment) (hs : BraceFree segs) :
    substitutePlaceholders values (renderTemplate segs) = fillTemplate values segs := by
  unfold substitutePlaceholders
  induction segs with
  | nil => rfl
  | cons s segs ih =>
    have ih2 := ih (braceFree_tail hs)
    cases s with
    | text t =>
      simp only [renderTemplate, fillTemplate]
      rw [substituteGo_text _ _ _ (hs t (List.mem_cons_self _ _)), ih2]
    | hole q =>
      simp only [renderTemplate, fillTemplate]
      rw [substituteGo_hole, ih2]

theorem emojiOrDefault_chars (emoji : Option String) (c0 : Char) (h0 : c0 ≠ '🔊')
    (he : ∀ c ∈ (emoji.getD "").data, c ≠ c0) : ∀ c ∈ (emojiOrDefault emoji).data, c ≠ c0 := by
  unfold emojiOrDefault
  split
  · exact he
  · intro c hc
    have : c = '🔊' := by simpa using hc
    rw [this]
    exact fun e => h0 e.symm

/-- C15 (as amended): for every template in which each opening brace starts one of the
three template variables, and every channelName, userList and emoji value containing
neither an opening brace nor a dollar sign, `formatNotificationMessage` returns the
template with every occurrence of the three variables replaced by its value (the speaker
emoji when the emoji is empty or missing) and every other character unchanged. -/
theorem formatNotificationMessage_substitutes (segs : List Segment)
    (channelName userList : String) (emoji : Option String)
    (htemplate : BraceFree segs)
    (hc : ∀ c ∈ channelName.data, c ≠ '\x7b' ∧ c ≠ '$')
    (hu : ∀ c ∈ userList.data, c ≠ '\x7b' ∧ c ≠ '$')
    (he : ∀ c ∈ (emoji.getD "").data, c ≠ '\x7b' ∧ c ≠ '$') :
    formatNotificationMessage (String.mk (renderTemplate segs)) channelName userList emoji
      = String.mk (substitutePlaceholders (templateValues channelName userList emoji)
          (renderTemplate segs)) := by
  have he1 := emojiOrDefault_chars emoji '\x7b' (by decide) (fun c h => (he c h).1)
  have he2 := emojiOrDefault_chars emoji '$' (by decide) (fun c h => (he c h).2)
  have hb1 := braceFree_fill Placeholder.channelName channelName.data (fun c h => (hc c h).1)
    segs htemplate
  have hb2 := braceFree_fill Placeholder.userList userList.data (fun c h => (hu c h).1) _ hb1
  have hvals : ∀ p, ∀ c ∈ templateValues channelName userList emoji p, c ≠ '\x7b' := by
    intro p
    cases p
    · exact fun c h => (hc c h).1
    · exact fun c h => (hu c h).1
    · exact he1
  rw [substitutePlaceholders_segments _ _ htemplate]
  unfold formatNotificationMessage replaceAll
  simp only []
  rw [replaceGo_segments Placeholder.channelName channelName.data (fun c h => (hc c h).2) segs
      htemplate,
    replaceGo_segments Placeholder.userList userList.data (fun c h => (hu c h).2) _ hb1,
    replaceGo_segments Placeholder.emoji (emojiOrDefault emoji).data he2 _ hb2]
  have hr := render_filled (templateValues channelName userList emoji) segs
  simp only [templateValues] at hr
  rw [hr]
  rw [replaceGo_none ('#' :: Placeholder.channelName.pattern) channelName.data '\x7b'
    (by decide) _ [] (fillTemplate_braceFree _ hvals segs htemplate)]

/-- C15 (as amended) on the template of the repository's test. -/
theorem formatNotificationMessage_substitutes_witness :
    formatNotificationMessage
        "🔊 Users in \x7bchannelName\x7d: \x7buserList\x7d \x7bemoji\x7d"
        "General Voice" "Alice, Bob, and 2 others" (some "🎮")
      = "🔊 Users in General Voice: Alice, Bob, and 2 others 🎮" :=
  (formatNotificationMessage_substitutes
    [Segment.text "🔊 Users in ".data, Segment.hole Placeholder.channelName,
     Segment.text ": ".data, Segment.hole Placeholder.userList, Segment.text " ".data,
     Segment.hole Placeholder.emoji]
    "General Voice" "Alice, Bob, and 2 others" (some "🎮")
    (by
      intro s hs
      simp only [List.mem_cons, Segment.text.injEq, reduceCtorEq, List.mem_nil_iff,
        or_false, false_or] at hs
      rcases hs with rfl | rfl | rfl <;> decide)
    (by decide) (by decide) (by decide)).trans (by decide)

/-- C15 as stated fails: the values contain neither an opening brace nor a dollar sign,
the template contains the variable for the channel name once and no other variable, yet
the result is not the template with that occurrence replaced: the text produced by the
first replacement is scanned again by the second one. -/
theorem formatNotificationMessage_rescans :
    (∀ c ∈ "List".data ++ "Alice".data ++ "x".data, c ≠ '\x7b' ∧ c ≠ '$') ∧
      String.mk (substitutePlaceholders (templateValues "List" "Alice" (some "x"))
        "\x7buser\x7bchannelName\x7d\x7d".data) = "\x7buserList\x7d" ∧
      formatNotificationMessage "\x7buser\x7bchannelName\x7d\x7d" "List" "Alice" (some "x")
        = "Alice" ∧
      formatNotificationMessage "\x7buser\x7bchannelName\x7d\x7d" "List" "Alice" (some "x")
        ≠ String.mk (substitutePlaceholders (templateValues "List" "Alice" (some "x"))
          "\x7buser\x7bchannelName\x7d\x7d".data) := by
  decide

/-! ## The scenario of the specification -/

set_option maxHeartbeats 1000000 in
/-- C16: the scenario with `maxUsers = 10`, monitored channel `c`, subscribers U1 and U2
whose DMs can always be sent and edited, and non-subscribers A and B, from the empty
state. After A joins there is one active session, one active NotificationState for each
of U1 and U2, and each got one DM listing `A`. After B joins and the timeout fires both
DMs were edited to list `A and B`; after A leaves and the timeout fires, to list `B`;
after B leaves no session of the channel is active and both NotificationStates are
inactive. -/
theorem scenario_two_subscribers (env : Env)
    (hsend : ∀ t u, (env.sendDM t u).isSome = true)
    (hedit : ∀ t u m, env.editDM t u m = true) :
    let w1 := handleUserJoinedChannel env (Example.voice [Example.human "A"]) Example.world
    let w2 := timerFires env 0
      (handleUserJoinedChannel env (Example.voice [Example.human "A", Example.human "B"]) w1)
    let w3 := timerFires env 1
      (handleUserLeftChannel env (Example.voice [Example.human "B"]) w2)
    let w4 := handleUserLeftChannel env (Example.voice []) w3
    (activeCount "g" "c" w1 = 1 ∧
      w1.notificationStates.map (fun r => (r.userId, r.isActive))
        = [("U1", true), ("U2", true)] ∧
      w1.calls.map (fun c => (c.isSend, c.userId, c.userListText))
        = [(true, "U1", some "A"), (true, "U2", some "A")]) ∧
    ((w2.calls.drop 2).map (fun c => (c.isSend, c.userId, c.userListText))
        = [(false, "U1", some "A and B"), (false, "U2", some "A and B")] ∧
      w2.notificationStates.map (fun r => (r.userId, r.isActive))
        = [("U1", true), ("U2", true)]) ∧
    ((w3.calls.drop 4).map (fun c => (c.isSend, c.userId, c.userListText))
        = [(false, "U1", some "B"), (false, "U2", some "B")] ∧
      w3.notificationStates.map (fun r => (r.userId, r.isActive))
        = [("U1", true), ("U2", true)] ∧
      activeCount "g" "c" w3 = 1) ∧
    (activeCount "g" "c" w4 = 0 ∧
      w4.notificationStates.map (fun r => (r.userId, r.isActive))
        = [("U1", false), ("U2", false)] ∧
      w4.calls.length = 6) := by
  intro w1 w2 w3 w4
  obtain ⟨m1, h1⟩ := Option.isSome_iff_exists.mp (hsend 3 "U1")
  obtain ⟨m2, h2⟩ := Option.isSome_iff_exists.mp (hsend 7 "U2")
  refine ⟨⟨?_, ?_, ?_⟩, ⟨?_, ?_⟩, ⟨?_, ?_, ?_⟩, ?_, ?_, ?_⟩ <;>
  simp [w1, w2, w3, w4, handleUserJoinedChannel, handleUserLeftChannel, Example.voice,
    Example.world, World.init, Example.guild, Example.monitored, Example.human, findGuild,
    findMonitoredChannel, nonBots, getActiveChannelSession, JsMap.has, JsMap.get, JsMap.set,
    JsMap.delete, cacheKey, startNewNotificationSession, startNewSession, subscribersOf,
    fanOutOne, hasUser, rateLimited, rateLimitKey, sendNewDM, createNotificationState, h1, h2,
    hedit, formatUserListForStorage, truthy, timerFires, MessageUpdateService.fireTimer_eq,
    MessageUpdateService.queueUpdate, MessageUpdateService.cancelPending,
    MessageUpdateService.clearTimeout, MessageUpdateService.empty, runUpdateJob, refreshOne,
    updateDMMessage, updateNotificationState, updateExistingNotifications,
    getActiveNotifications, updateKey, endSession, sessionMatches, notificationMatches,
    activeCount, DiscordCall.isSend, DiscordCall.userId, DiscordCall.userListText, usernamesOf,
    allPresent, shownName, formatUserList, join]

/-- C16 in the example environment. -/
theorem scenario_two_subscribers_witness :
    activeCount "g" "c"
        (handleUserJoinedChannel Example.env (Example.voice [Example.human "A"])
          Example.world) = 1 ∧
      (handleUserJoinedChannel Example.env (Example.voice [Example.human "A"])
          Example.world).calls.map (fun c => (c.isSend, c.userId, c.userListText))
        = [(true, "U1", some "A"), (true, "U2", some "A")] :=
  have h := (scenario_two_subscribers Example.env (fun _ _ => rfl) (fun _ _ _ => rfl)).1
  ⟨h.1, h.2.2⟩

/-! ## Fan-out: ledger and records -/

theorem fanOutOne_success (env : Env) (g c : String) (cu : List Member) (cfg : GuildConfig)
    (mon : MonitoredChannel) (s : ChannelSession) (ul : List StoredUser) (w : World)
    (sub : UserSubscription) (mid : String)
    (h1 : hasUser cu sub.userId = false)
    (h2 : rateLimited (w.rateLimitMap.get (rateLimitKey sub.userId g)) (env.clock w.tick)
      = false)
    (h3 : env.sendDM (w.tick + 1) sub.userId = some mid) :
    (fanOutOne env g c cu cfg mon s ul w sub).rateLimitMap
        = w.rateLimitMap.set (rateLimitKey sub.userId g) (env.clock w.tick) ∧
      (fanOutOne env g c cu cfg mon s ul w sub).notificationStates
        = w.notificationStates ++
          [{ id := w.nextId, guildId := g, channelId := c, userId := sub.userId,
             messageId := mid, sessionId := s.sessionId, isActive := true, userList := ul,
             lastUpdated := env.clock (w.tick + 2), createdAt := env.clock (w.tick + 3) }] := by
  simp [fanOutOne, h1, h2, sendNewDM, h3, createNotificationState]

theorem fanOutOne_no_success (env : Env) (g c : String) (cu : List Member)
    (cfg : GuildConfig) (mon : MonitoredChannel) (s : ChannelSession) (ul : List StoredUser)
    (w : World) (sub : UserSubscription)
    (h : hasUser cu sub.userId = true ∨
      rateLimited (w.rateLimitMap.get (rateLimitKey sub.userId g)) (env.clock w.tick) = true ∨
      env.sendDM (w.tick + 1) sub.userId = none) :
    (fanOutOne env g c cu cfg mon s ul w sub).rateLimitMap = w.rateLimitMap ∧
      (fanOutOne env g c cu cfg mon s ul w sub).notificationStates = w.notificationStates := by
  unfold fanOutOne
  by_cases h1 : hasUser cu sub.userId = true
  · simp [h1]
  · by_cases h2 : rateLimited (w.rateLimitMap.get (rateLimitKey sub.userId g))
        (env.clock w.tick) = true
    · simp [h1, h2]
    · rcases h with h | h | h
      · exact absurd h h1
      · exact absurd h h2
      · simp [h1, h2, sendNewDM, h]

/-- C17: in `startNewNotificationSession`, when the loop reaches a subscriber (after the
subscribers `pre` before it): if the subscriber is not skipped and the send succeeds, the
iteration sets the ledger entry of (subscriber, guild) to the time read in that iteration
and appends exactly one NotificationState, active, with the id of the sent message and
the id of the new session; if the subscriber is skipped (already present or rate-limited)
or the send fails, the iteration changes neither the ledger nor the notification table. -/
theorem fanOut_ledger_and_records (env : Env) (guildId : String) (channel : VoiceChannel)
    (currentUsers : List Member) (guildConfig : GuildConfig)
    (monitoredChannel : MonitoredChannel) (w : World)
    (pre post : List UserSubscription) (subscriber : UserSubscription)
    (hsubs : subscribersOf guildId channel.id w = pre ++ subscriber :: post) :
    let r := startNewSession env guildId channel.id w
    let body := fanOutOne env guildId channel.id currentUsers guildConfig monitoredChannel
      r.1 (formatUserListForStorage currentUsers)
    let w1 := pre.foldl body r.2
    let w2 := body w1 subscriber
    let skipped := hasUser currentUsers subscriber.userId = true ∨
      rateLimited (w1.rateLimitMap.get (rateLimitKey subscriber.userId guildId))
        (env.clock w1.tick) = true
    startNewNotificationSession env guildId channel currentUsers guildConfig
        monitoredChannel w = post.foldl body w2 ∧
      r.1 ∈ r.2.channelSessions ∧
      (∀ messageId, ¬ skipped → env.sendDM (w1.tick + 1) subscriber.userId = some messageId →
        w2.rateLimitMap
            = w1.rateLimitMap.set (rateLimitKey subscriber.userId guildId) (env.clock w1.tick) ∧
          w2.notificationStates = w1.notificationStates ++
            [{ id := w1.nextId, guildId := guildId, channelId := channel.id,
               userId := subscriber.userId, messageId := messageId,
               sessionId := r.1.sessionId, isActive := true,
               userList := formatUserListForStorage currentUsers,
               lastUpdated := env.clock (w1.tick + 2),
               createdAt := env.clock (w1.tick + 3) }]) ∧
      ((skipped ∨ env.sendDM (w1.tick + 1) subscriber.userId = none) →
        w2.rateLimitMap = w1.rateLimitMap ∧
          w2.notificationStates = w1.notificationStates) := by
  intro r body w1 w2 skipped
  refine ⟨?_, ?_, ?_, ?_⟩
  · rw [startNewNotificationSession_eq_foldl, hsubs, List.foldl_append, List.foldl_cons]
  · simp [r, startNewSession]
  · intro mid hns hsend
    have h1 : hasUser currentUsers subscriber.userId = false := by
      cases h : hasUser currentUsers subscriber.userId with
      | false => rfl
      | true => exact absurd (Or.inl h) hns
    have h2 : rateLimited (w1.rateLimitMap.get (rateLimitKey subscriber.userId guildId))
        (env.clock w1.tick) = false := by
      cases h : rateLimited (w1.rateLimitMap.get (rateLimitKey subscriber.userId guildId))
          (env.clock w1.tick) with
      | false => rfl
      | true => exact absurd (Or.inr h) hns
    exact fanOutOne_success env guildId channel.id currentUsers guildConfig monitoredChannel
      r.1 _ w1 subscriber mid h1 h2 hsend
  · intro h
    apply fanOutOne_no_success
    rcases h with (h | h) | h
    · exact Or.inl h
    · exact Or.inr (Or.inl h)
    · exact Or.inr (Or.inr h)

/-- C17 on the example: U2 is reached after U1; the send succeeds, so the ledger entry of
U2 is written and one record is appended. -/
theorem fanOut_ledger_and_records_witness :
    (startNewNotificationSession Example.env "g" { id := "c", name := "C", members := [] }
        [Example.human "A"] Example.guild Example.monitored Example.world).rateLimitMap
        = [("U1-g", 1002), ("U2-g", 1006)] ∧
      (startNewNotificationSession Example.env "g" { id := "c", name := "C", members := [] }
        [Example.human "A"] Example.guild Example.monitored
        Example.world).notificationStates.map (fun r => (r.userId, r.messageId, r.isActive))
        = [("U1", "m3U1", true), ("U2", "m7U2", true)] :=
  have h := fanOut_ledger_and_records Example.env "g" { id := "c", name := "C", members := [] }
    [Example.human "A"] Example.guild Example.monitored Example.world
    [{ guildId := "g", userId := "U1", channelId := "c" }] []
    { guildId := "g", userId := "U2", channelId := "c" } (by decide)
  have h2 := h.2.2.1 "m7U2" (by decide) (by decide)
  ⟨(congrArg World.rateLimitMap h.1).trans (h2.1.trans (by decide)),
    (congrArg (fun x => x.notificationStates.map (fun r => (r.userId, r.messageId, r.isActive)))
      h.1).trans ((congrArg (List.map (fun r => (r.userId, r.messageId, r.isActive))) h2.2).trans
        (by decide))⟩

/-! ## An inactive notification is terminal -/

theorem endSession_rowKept (env : Env) (g c : String) (w : World) :
    List.Forall₂ (RowKept (fun _ => false)) w.notificationStates
      (endSession env g c w).notificationStates := by
  simp only [endSession, List.forall₂_map_right_iff]
  apply List.forall₂_same.mpr
  intro r _
  by_cases h : notificationMatches g c r = true
  · rw [if_pos h]
    exact ⟨rfl, rfl, rfl, rfl, rfl, fun x => by simp at x, fun x => by simp at x⟩
  · rw [if_neg h]
    exact rowKept_refl _ r

theorem cleanupOne_rowKept (env : Env) (client : ChannelSession → ChannelLookup) (w : World)
    (s : ChannelSession) :
    List.Forall₂ (RowKept (fun _ => false)) w.notificationStates
      (cleanupOne env client w s).notificationStates := by
  unfold cleanupOne
  split
  · split
    · exact endSession_rowKept _ _ _ _
    · exact forall₂_rowKept_refl _ _
  · exact endSession_rowKept _ _ _ _
  · exact endSession_rowKept _ _ _ _

theorem cleanup_foldl_rowKept (env : Env) (client : ChannelSession → ChannelLookup)
    (l : List ChannelSession) (w : World) :
    List.Forall₂ (RowKept (fun _ => false)) w.notificationStates
      (l.foldl (cleanupOne env client) w).notificationStates := by
  induction l generalizing w with
  | nil => exact forall₂_rowKept_refl _ _
  | cons s l ih => exact forall₂_rowKept_trans (cleanupOne_rowKept env client w s) (ih _)

theorem forall₂_rowKept_terminal {l1 l2 : List NotificationState}
    (h : List.Forall₂ (RowKept (fun _ => false)) l1 l2) :
    List.Forall₂ (fun before after => after.id = before.id ∧
      (before.isActive = false → after.isActive = false)) l1 l2 :=
  h.imp (fun a b hab => ⟨hab.1, fun hb => by
    cases hact : b.isActive with
    | false => rfl
    | true => rw [hab.2.2.2.2.2.1 hact] at hb; cases hb⟩)

/-- C18: an inactive NotificationState is terminal. For each operation on the store
(`createNotificationState`, `updateNotificationState`, `deactivateNotification`,
`endSession`, the resend callback, the startup cleanup) that completes, the rows that
were in the table before are still there in the same order with the same ids, followed
by the rows created, and every row that was inactive before is inactive after. -/
theorem inactive_is_terminal (env : Env) (op : StoreOp) (w w2 : World)
    (h : applyStoreOp env op w = some w2) :
    List.Forall₂
      (fun before after => after.id = before.id ∧
        (before.isActive = false → after.isActive = false))
      w.notificationStates (w2.notificationStates.take w.notificationStates.length) := by
  apply forall₂_rowKept_terminal
  cases op with
  | createNotificationState g c u m s ul =>
    simp only [applyStoreOp, Option.some.injEq] at h
    subst h
    simp only [createNotificationState, List.take_left']
    exact forall₂_rowKept_refl _ _
  | updateNotificationState i ul =>
    obtain ⟨e, _⟩ := updateNotificationState_rows env i ul w w2 h
    rw [e, List.take_of_length_le (by simp)]
    exact forall₂_rowKept_map _ i rfl _ (fun r => by simp) _
  | deactivateNotification i =>
    obtain ⟨e, _⟩ := deactivateNotification_rows i w w2 h
    rw [e, List.take_of_length_le (by simp)]
    exact forall₂_rowKept_map _ i rfl _ (fun r => by simp) _
  | endSession g c =>
    simp only [applyStoreOp, Option.some.injEq] at h
    subst h
    have hk := endSession_rowKept env g c w
    rw [List.take_of_length_le (by rw [hk.length_eq])]
    exact hk
  | resendCallback ul i m =>
    obtain ⟨e, _⟩ := resendCallback_rows env ul i m w w2 h
    rw [e, List.take_of_length_le (by simp)]
    exact forall₂_rowKept_map _ i rfl _ (fun r => by simp) _
  | cleanupOrphanedSessions client =>
    simp only [applyStoreOp, Option.some.injEq] at h
    subst h
    have hk := cleanup_foldl_rowKept env client
      (w.channelSessions.filter (fun s => s.isActive)) w
    rw [List.take_of_length_le (by
      show (cleanupOrphanedSessions env client w).notificationStates.length ≤ _
      unfold cleanupOrphanedSessions
      rw [hk.length_eq])]
    exact hk

/-- C18 on the example: the record of U1 has been deactivated by `endSession`; the resend
callback then rewrites its message id and leaves it inactive. -/
theorem inactive_is_terminal_witness :
    List.Forall₂
      (fun before after => after.id = before.id ∧
        (before.isActive = false → after.isActive = false))
      (endSession Example.env "g" "c" Example.worldU1).notificationStates
      ((((resendCallback Example.env [] 1 "new"
        (endSession Example.env "g" "c" Example.worldU1)).getD Example.worldU1
        ).notificationStates).take
        (endSession Example.env "g" "c" Example.worldU1).notificationStates.length) :=
  inactive_is_terminal Example.env (StoreOp.resendCallback [] 1 "new")
    (endSession Example.env "g" "c" Example.worldU1)
    ((resendCallback Example.env [] 1 "new"
      (endSession Example.env "g" "c" Example.worldU1)).getD Example.worldU1) rfl

/-! ## Startup reconciliation -/

theorem cleanupOne_eq (env : Env) (client : ChannelSession → ChannelLookup) (w : World)
    (s : ChannelSession) :
    cleanupOne env client w s
      = if resolvesOccupied client s = true then w
        else endSession env s.guildId s.channelId w := by
  unfold cleanupOne resolvesOccupied
  cases client s with
  | failed => simp
  | missing => simp
  | found ch =>
    by_cases h : (nonBots ch.members).length = 0
    · simp [h]
    · simp [h]

theorem cleanedRow_nil (client : ChannelSession → ChannelLookup) (s : ChannelSession) :
    CleanedRow client [] s s := by
  refine ⟨rfl, rfl, rfl, ?_⟩
  simp [endedBy]

theorem cleanup_foldl_rows (env : Env) (client : ChannelSession → ChannelLookup)
    (l : List ChannelSession) (w : World) :
    List.Forall₂ (CleanedRow client l) w.channelSessions
      (l.foldl (cleanupOne env client) w).channelSessions := by
  induction l generalizing w with
  | nil => exact List.forall₂_same.mpr (fun s _ => cleanedRow_nil client s)
  | cons x l ih =>
    rw [List.foldl_cons, cleanupOne_eq]
    by_cases hx : resolvesOccupied client x = true
    · rw [if_pos hx]
      refine (ih w).imp ?_
      intro b a hab
      refine ⟨hab.1, hab.2.1, hab.2.2.1, ?_⟩
      have : endedBy client (x :: l) b = endedBy client l b := by
        simp [endedBy, hx]
      rw [this]
      exact hab.2.2.2
    · rw [if_neg hx]
      have hfalse : resolvesOccupied client x = false := by simpa using hx
      have h2 := ih (endSession env x.guildId x.channelId w)
      simp only [endSession, List.forall₂_map_left_iff] at h2
      refine h2.imp ?_
      intro b a hab
      by_cases hm : sessionMatches x.guildId x.channelId b = true
      · rw [if_pos hm] at hab
        obtain ⟨h1, h2, h3, h4⟩ := hab
        simp only [Bool.false_eq_true, false_and, if_false] at h4
        simp only [sessionMatches, Bool.and_eq_true, beq_iff_eq] at hm
        refine ⟨h1, h2, h3, ?_⟩
        have hend : endedBy client (x :: l) b = true := by
          simp [endedBy, hfalse, hm.1.1, hm.1.2]
        rw [if_pos ⟨hm.2, hend⟩, h4]
        exact ⟨rfl, rfl⟩
      · rw [if_neg hm] at hab
        refine ⟨hab.1, hab.2.1, hab.2.2.1, ?_⟩
        by_cases hact : b.isActive = true
        · have : endedBy client (x :: l) b = endedBy client l b := by
            have hk : ¬ (x.guildId = b.guildId ∧ x.channelId = b.channelId) := by
              intro hk
              apply hm
              simp [sessionMatches, hk.1, hk.2, hact]
            simp only [endedBy, List.any_cons, Bool.or_eq_true]
            have : (!resolvesOccupied client x && x.guildId == b.guildId &&
                x.channelId == b.channelId) = false := by
              simp only [Bool.and_eq_false_imp, Bool.and_eq_true, Bool.not_eq_true',
                beq_iff_eq, beq_eq_false_iff_ne, ne_eq, and_imp]
              intro _ hg hc
              exact hk ⟨hg, hc⟩
            rw [this]
            simp
          rw [this]
          exact hab.2.2.2
        · have h4 := hab.2.2.2
          simp only [hact, false_and, if_false] at h4 ⊢
          exact h4

/-- C20: startup reconciliation, on a store with at most one active session per channel.
Row by row, `cleanupOrphanedSessions` keeps the ids; a session that was active stays
active if and only if its guild and channel resolve and the channel has a non-bot member,
and then it is unchanged; every other session that was active is inactive afterwards with
`endedAt` set, also when the lookup threw, whatever happened to the sessions checked
before it; a session that was inactive is unchanged. -/
theorem cleanup_reconciles (env : Env) (client : ChannelSession → ChannelLookup) (w : World)
    (hunique : ∀ g c, activeCount g c w ≤ 1) :
    List.Forall₂
      (fun before after => after.id = before.id ∧
        (before.isActive = true →
          (after.isActive = true ↔ resolvesOccupied client before = true)) ∧
        (before.isActive = true → resolvesOccupied client before = true → after = before) ∧
        (before.isActive = true → resolvesOccupied client before = false →
          after.isActive = false ∧ after.endedAt.isSome = true) ∧
        (before.isActive = false → after = before))
      w.channelSessions (cleanupOrphanedSessions env client w).channelSessions := by
  have h := cleanup_foldl_rows env client (w.channelSessions.filter (fun s => s.isActive)) w
  have key : ∀ b ∈ w.channelSessions, b.isActive = true →
      (endedBy client (w.channelSessions.filter (fun s => s.isActive)) b = true
        ↔ resolvesOccupied client b = false) := by
    intro b hb hact
    constructor
    · intro he
      simp only [endedBy, List.any_eq_true, List.mem_filter, Bool.and_eq_true,
        Bool.not_eq_true', beq_iff_eq] at he
      obtain ⟨x, ⟨hx, hxa⟩, ⟨hxr, hg⟩, hc⟩ := he
      have hxm : x ∈ w.channelSessions.filter (sessionMatches b.guildId b.channelId) :=
        List.mem_filter.mpr ⟨hx, by simp [sessionMatches, hg, hc, hxa]⟩
      have hbm : b ∈ w.channelSessions.filter (sessionMatches b.guildId b.channelId) :=
        List.mem_filter.mpr ⟨hb, by simp [sessionMatches, hact]⟩
      have hlen := hunique b.guildId b.channelId
      unfold activeCount at hlen
      have hxb : x = b := by
        match hl : w.channelSessions.filter (sessionMatches b.guildId b.channelId), hlen with
        | [], _ => rw [hl] at hxm; cases hxm
        | [y], _ =>
          rw [hl] at hxm hbm
          rw [List.mem_singleton.mp hxm, List.mem_singleton.mp hbm]
        | _ :: _ :: _, hlen => simp at hlen
      rw [← hxb]
      exact hxr
    · intro hr
      simp only [endedBy, List.any_eq_true, List.mem_filter, Bool.and_eq_true,
        Bool.not_eq_true', beq_iff_eq]
      exact ⟨b, ⟨hb, hact⟩, ⟨hr, rfl⟩, rfl⟩
  unfold cleanupOrphanedSessions
  refine List.forall₂_iff_get.mpr ⟨h.length_eq, ?_⟩
  intro i h1 h2
  have hab := (List.forall₂_iff_get.mp h).2 i h1 h2
  have hmem : w.channelSessions.get ⟨i, h1⟩ ∈ w.channelSessions := List.get_mem _ _ _
  generalize w.channelSessions.get ⟨i, h1⟩ = b at hab hmem
  generalize (List.foldl (cleanupOne env client) w
    (w.channelSessions.filter (fun s => s.isActive))).channelSessions.get ⟨i, h2⟩ = a at hab
  obtain ⟨e1, _, _, e4⟩ := hab
  refine ⟨e1, ?_, ?_, ?_, ?_⟩
  · intro hact
    have hk := key b hmem hact
    by_cases hr : resolvesOccupied client b = true
    · have hne : ¬ endedBy client (w.channelSessions.filter (fun s => s.isActive)) b = true := by
        rw [hk, hr]; simp
      rw [if_neg (fun h => hne h.2)] at e4
      rw [e4]
      exact ⟨fun _ => hr, fun _ => hact⟩
    · have hrf : resolvesOccupied client b = false := by simpa using hr
      rw [if_pos ⟨hact, hk.mpr hrf⟩] at e4
      rw [e4.1, hrf]
  · intro hact hr
    have hk := key b hmem hact
    have hne : ¬ endedBy client (w.channelSessions.filter (fun s => s.isActive)) b = true := by
      rw [hk, hr]; simp
    rw [if_neg (fun h => hne h.2)] at e4
    exact e4
  · intro hact hrf
    have hk := key b hmem hact
    rw [if_pos ⟨hact, hk.mpr hrf⟩] at e4
    exact e4
  · intro hina
    rw [if_neg (fun h => by rw [hina] at h; exact absurd h.1 (by simp))] at e4
    exact e4

theorem cleanup_reconciles_witness :
    (∀ g c, activeCount g c Example.worldTwoSessions ≤ 1) ∧
      (cleanupOrphanedSessions Example.env Example.client
        Example.worldTwoSessions).channelSessions.map
          (fun s => (s.channelId, s.isActive, s.endedAt)) =
        [("c", true, none), ("d", false, some 1000)] ∧
      List.Forall₂
        (fun before after =>
          after.id = before.id ∧
          (before.isActive = true →
            (after.isActive = true ↔ resolvesOccupied Example.client before = true)))
        Example.worldTwoSessions.channelSessions
        (cleanupOrphanedSessions Example.env Example.client
          Example.worldTwoSessions).channelSessions :=
  have hunique : ∀ g c, activeCount g c Example.worldTwoSessions ≤ 1 := by
    intro g c
    by_cases hc : c = "c"
    · subst hc
      simp [activeCount, Example.worldTwoSessions, sessionMatches, List.filter_cons]
      split <;> simp
    · have : ("c" == c) = false := by simpa using fun h => hc h.symm
      simp [activeCount, Example.worldTwoSessions, sessionMatches, List.filter_cons, this]
      split <;> simp
  ⟨hunique, by decide,
    List.Forall₂.imp (fun _ _ h => ⟨h.1, h.2.1⟩)
      (cleanup_reconciles Example.env Example.client Example.worldTwoSessions hunique)⟩

/-! ## Isolation of the recipients of a refresh -/

theorem map_if_id (l : List NotificationState) (i : Nat) :
    l.map (fun r => if r.id == i then r else r) = l := by
  simp

theorem map_not_found (l : List NotificationState) (i : Nat)
    (h : NotificationState → NotificationState)
    (hf : l.any (fun r => r.id == i) = false) :
    l.map (fun r => if r.id == i then h r else r) = l := by
  apply map_eq_self_of_forall
  intro r hr
  have := (List.any_eq_false.mp hf) r hr
  simp only [this, Bool.false_eq_true, if_false]

theorem any_resend_rows (l : List NotificationState) (i : Nat) (mid : String)
    (ul : List StoredUser) (c : Nat) :
    (l.map (fun n =>
        if n.id == i then { n with messageId := mid, userList := ul, lastUpdated := c }
        else n)).any (fun n => n.id == i) = l.any (fun n => n.id == i) := by
  induction l with
  | nil => rfl
  | cons a tl ih =>
    simp only [List.map_cons, List.any_cons, ih]
    by_cases h : (a.id == i) = true
    · simp [h]
    · simp [h]

/-- One iteration of the refresh, written with `refreshEffect`. -/
theorem refreshOne_form (env : Env) (job : UpdateJob) (w : World) (m : NotificationState) :
    refreshOne env job w m
      = { w with
          notificationStates := w.notificationStates.map (fun r =>
            if r.id == m.id then
              (refreshEffect job m (env.editDM w.tick m.userId m.messageId)
                (env.sendDM (w.tick + 1) m.userId) (env.clock (w.tick + 1))
                (env.clock (w.tick + 2))
                (w.notificationStates.any (fun r => r.id == m.id))).1 r
            else r)
          tick := w.tick +
            (refreshEffect job m (env.editDM w.tick m.userId m.messageId)
              (env.sendDM (w.tick + 1) m.userId) (env.clock (w.tick + 1))
              (env.clock (w.tick + 2))
              (w.notificationStates.any (fun r => r.id == m.id))).2.1
          calls := w.calls ++
            (refreshEffect job m (env.editDM w.tick m.userId m.messageId)
              (env.sendDM (w.tick + 1) m.userId) (env.clock (w.tick + 1))
              (env.clock (w.tick + 2))
              (w.notificationStates.any (fun r => r.id == m.id))).2.2 } := by
  by_cases hu : hasUser job.currentUsers m.userId = true
  · simp [refreshOne, refreshEffect, hu]
  · cases hed : env.editDM w.tick m.userId m.messageId with
    | true =>
      cases hf : w.notificationStates.any (fun r => r.id == m.id) with
      | true =>
        simp [refreshOne, refreshEffect, hu, updateDMMessage, hed, updateNotificationState, hf]
      | false =>
        simp only [refreshOne, refreshEffect, hu, updateDMMessage, hed,
          updateNotificationState, hf, if_false, if_true, Bool.false_eq_true]
        simp
    | false =>
      cases hsd : env.sendDM (w.tick + 1) m.userId with
      | none =>
        cases hf : w.notificationStates.any (fun r => r.id == m.id) with
        | true =>
          simp [refreshOne, refreshEffect, hu, updateDMMessage, hed, handleFailedMessageUpdate,
            sendNewDM, hsd, truthy, deactivateNotification, hf]
        | false =>
          simp only [refreshOne, refreshEffect, hu, updateDMMessage, hed,
            handleFailedMessageUpdate, sendNewDM, hsd, truthy, deactivateNotification, hf,
            if_false, Bool.false_eq_true, map_not_found _ _ _ hf]
          simp
      | some mid =>
        cases hf : w.notificationStates.any (fun r => r.id == m.id) with
        | true =>
          by_cases hmid : mid = ""
          · subst hmid
            simp only [refreshOne, refreshEffect, hu, updateDMMessage, hed,
              handleFailedMessageUpdate, sendNewDM, hsd, truthy, deactivateNotification, hf,
              resendCallback, any_resend_rows, if_true, if_false, Bool.false_eq_true,
              bne_self_eq_false, Bool.and_false, List.map_map, Nat.add_assoc]
            congr 1
            · apply List.map_congr_left
              intro a _
              by_cases ha : a.id = m.id
              · simp [ha]
              · simp [ha]
            · simp
          · have hne : (mid != "") = true := by simpa using hmid
            simp only [refreshOne, refreshEffect, hu, updateDMMessage, hed,
              handleFailedMessageUpdate, sendNewDM, hsd, truthy, deactivateNotification, hf,
              resendCallback, any_resend_rows, if_true, if_false, Bool.false_eq_true,
              hne, Bool.and_true, Nat.add_assoc]
            simp
        | false =>
          simp only [refreshOne, refreshEffect, hu, updateDMMessage, hed,
            handleFailedMessageUpdate, sendNewDM, hsd, truthy, deactivateNotification, hf,
            resendCallback, if_false, Bool.false_eq_true]
          simp

theorem refreshOne_eq (env : Env) (job : UpdateJob) (w : World) (m : NotificationState) :
    refreshOne env job w m
      = { w with
          notificationStates := w.notificationStates.map (fun r =>
            if r.id == m.id then (refreshEffectAt env job w m).1 r else r)
          tick := w.tick + (refreshEffectAt env job w m).2.1
          calls := w.calls ++ (refreshEffectAt env job w m).2.2 } :=
  refreshOne_form env job w m

theorem refreshOne_tick (env : Env) (job : UpdateJob) (w : World) (m : NotificationState) :
    (refreshOne env job w m).tick = w.tick + (refreshEffectAt env job w m).2.1 := by
  rw [refreshOne_eq]

theorem refreshOne_tick_le (env : Env) (job : UpdateJob) (w : World)
    (m : NotificationState) : w.tick ≤ (refreshOne env job w m).tick := by
  rw [refreshOne_tick]; omega

theorem foldl_refreshOne_tick_le (env : Env) (job : UpdateJob) (l : List NotificationState) :
    ∀ w : World, w.tick ≤ (l.foldl (refreshOne env job) w).tick := by
  induction l with
  | nil => intro w; exact Nat.le_refl _
  | cons m tl ih =>
    intro w
    exact Nat.le_trans (refreshOne_tick_le env job w m) (ih _)

/-- The effect does not depend on the answers that the iteration never asks for. -/
theorem refreshEffect_congr (job : UpdateJob) (m : NotificationState) (edit edit2 : Bool)
    (send send2 : Option String) (c1 d1 c2 d2 : Nat) (found : Bool)
    (he : hasUser job.currentUsers m.userId = false → edit2 = edit)
    (hs : hasUser job.currentUsers m.userId = false → edit = false → send2 = send)
    (hc1 : hasUser job.currentUsers m.userId = false → edit = true → found = true → d1 = c1)
    (hc2 : hasUser job.currentUsers m.userId = false → edit = false → send.isSome = true →
      found = true → d2 = c2) :
    refreshEffect job m edit2 send2 d1 d2 found = refreshEffect job m edit send c1 c2 found := by
  cases hu : hasUser job.currentUsers m.userId with
  | true => simp [refreshEffect, hu]
  | false =>
    have he2 := he hu
    subst he2
    cases edit2 with
    | true =>
      cases found with
      | true => simp [refreshEffect, hu, hc1 hu rfl rfl]
      | false => simp [refreshEffect, hu]
    | false =>
      have hs2 := hs hu rfl
      subst hs2
      cases send2 with
      | none => simp [refreshEffect, hu]
      | some mid =>
        cases found with
        | true => simp [refreshEffect, hu, hc2 hu rfl rfl rfl]
        | false => simp [refreshEffect, hu]

/-- How many consultations an iteration makes at least, by the branch it takes. -/
theorem refreshEffect_used (job : UpdateJob) (m : NotificationState) (edit : Bool)
    (send : Option String) (c1 c2 : Nat) (found : Bool)
    (hu : hasUser job.currentUsers m.userId = false) :
    1 ≤ (refreshEffect job m edit send c1 c2 found).2.1 ∧
    (edit = false → 2 ≤ (refreshEffect job m edit send c1 c2 found).2.1) ∧
    (edit = true → found = true → 2 ≤ (refreshEffect job m edit send c1 c2 found).2.1) ∧
    (edit = false → send.isSome = true → found = true →
      3 ≤ (refreshEffect job m edit send c1 c2 found).2.1) := by
  cases edit <;> cases send <;> cases found <;> simp [refreshEffect, hu]

/-- An iteration that ends by tick `T` is the same in every environment that answers
alike before `T`. -/
theorem refreshOne_env_below (env env2 : Env) (job : UpdateJob) (w : World)
    (m : NotificationState) (T : Nat)
    (hagree : ∀ t, t < T →
      env2.editDM t = env.editDM t ∧ env2.sendDM t = env.sendDM t ∧ env2.clock t = env.clock t)
    (hT : (refreshOne env job w m).tick ≤ T) :
    refreshOne env2 job w m = refreshOne env job w m := by
  have heff : refreshEffectAt env2 job w m = refreshEffectAt env job w m := by
    rw [refreshOne_tick] at hT
    unfold refreshEffectAt at hT ⊢
    apply refreshEffect_congr
    · intro hu
      have hb := (refreshEffect_used job m (env.editDM w.tick m.userId m.messageId)
        (env.sendDM (w.tick + 1) m.userId) (env.clock (w.tick + 1)) (env.clock (w.tick + 2))
        (w.notificationStates.any (fun r => r.id == m.id)) hu).1
      rw [(hagree w.tick (by omega)).1]
    · intro hu hed
      have hb := (refreshEffect_used job m (env.editDM w.tick m.userId m.messageId)
        (env.sendDM (w.tick + 1) m.userId) (env.clock (w.tick + 1)) (env.clock (w.tick + 2))
        (w.notificationStates.any (fun r => r.id == m.id)) hu).2.1 hed
      rw [(hagree (w.tick + 1) (by omega)).2.1]
    · intro hu hed hf
      have hb := (refreshEffect_used job m (env.editDM w.tick m.userId m.messageId)
        (env.sendDM (w.tick + 1) m.userId) (env.clock (w.tick + 1)) (env.clock (w.tick + 2))
        (w.notificationStates.any (fun r => r.id == m.id)) hu).2.2.1 hed hf
      rw [(hagree (w.tick + 1) (by omega)).2.2]
    · intro hu hed hsd hf
      have hb := (refreshEffect_used job m (env.editDM w.tick m.userId m.messageId)
        (env.sendDM (w.tick + 1) m.userId) (env.clock (w.tick + 1)) (env.clock (w.tick + 2))
        (w.notificationStates.any (fun r => r.id == m.id)) hu).2.2.2 hed hsd hf
      rw [(hagree (w.tick + 2) (by omega)).2.2]
  rw [refreshOne_eq env2, refreshOne_eq env, heff]

theorem foldl_refreshOne_env_below (env env2 : Env) (job : UpdateJob) (T : Nat)
    (hagree : ∀ t, t < T →
      env2.editDM t = env.editDM t ∧ env2.sendDM t = env.sendDM t ∧ env2.clock t = env.clock t)
    (l : List NotificationState) :
    ∀ w : World, (l.foldl (refreshOne env job) w).tick ≤ T →
      l.foldl (refreshOne env2 job) w = l.foldl (refreshOne env job) w := by
  induction l with
  | nil => intro w _; rfl
  | cons m tl ih =>
    intro w hT
    simp only [List.foldl_cons] at hT ⊢
    have h1 : (refreshOne env job w m).tick ≤ T :=
      Nat.le_trans (foldl_refreshOne_tick_le env job tl _) hT
    rw [refreshOne_env_below env env2 job w m T hagree h1]
    exact ih _ hT

theorem without_below (env : Env) (T k t : Nat) (h : t < T) :
    (env.without T k).editDM t = env.editDM t ∧ (env.without T k).sendDM t = env.sendDM t ∧
      (env.without T k).clock t = env.clock t := by
  simp [Env.without, h]

theorem without_above (env : Env) (T k t : Nat) (h : T ≤ t) :
    (env.without T k).editDM t = env.editDM (t + k) ∧
      (env.without T k).sendDM t = env.sendDM (t + k) ∧
      (env.without T k).clock t = env.clock (t + k) := by
  have : ¬ t < T := by omega
  simp [Env.without, this]

theorem sameExcept_any (i j : Nat) (l l2 : List NotificationState)
    (h : List.Forall₂ (SameExcept i) l l2) :
    l2.any (fun r => r.id == j) = l.any (fun r => r.id == j) := by
  induction h with
  | nil => rfl
  | cons hab _ ih => simp only [List.any_cons, ih, hab.1]

theorem sameExcept_map (i j : Nat) (f : NotificationState → NotificationState) (hj : j ≠ i)
    (l l2 : List NotificationState) (h : List.Forall₂ (SameExcept i) l l2) :
    List.Forall₂ (SameExcept i) (l.map (fun r => if r.id == j then f r else r))
      (l2.map (fun r => if r.id == j then f r else r)) := by
  induction h with
  | nil => exact List.Forall₂.nil
  | @cons a b _ _ hab _ ih =>
    simp only [List.map_cons]
    refine List.Forall₂.cons ?_ ih
    by_cases ha : a.id = j
    · have hab2 : a = b := hab.2 (by rw [ha]; exact hj)
      subst hab2
      exact ⟨rfl, fun _ => rfl⟩
    · have hb : ¬ b.id = j := by rw [← hab.1]; exact ha
      simp only [beq_iff_eq, ha, hb, if_false]
      exact hab

/-- One iteration for a notification other than `i`, run in two worlds that agree on the
rows other than `i`, under environments that answer alike at the ticks it consults. -/
theorem refreshOne_sim (env : Env) (job : UpdateJob) (i k T : Nat) (w v : World)
    (m : NotificationState) (hmi : m.id ≠ i)
    (hrows : List.Forall₂ (SameExcept i) w.notificationStates v.notificationStates)
    (htick : w.tick = v.tick + k) (hT : T ≤ v.tick) :
    List.Forall₂ (SameExcept i) (refreshOne env job w m).notificationStates
        (refreshOne (env.without T k) job v m).notificationStates ∧
      (refreshOne env job w m).tick = (refreshOne (env.without T k) job v m).tick + k ∧
      ∃ cs, (refreshOne env job w m).calls = w.calls ++ cs ∧
        (refreshOne (env.without T k) job v m).calls = v.calls ++ cs := by
  have heff : refreshEffectAt (env.without T k) job v m = refreshEffectAt env job w m := by
    unfold refreshEffectAt
    rw [sameExcept_any i m.id _ _ hrows, (without_above env T k v.tick hT).1,
      (without_above env T k (v.tick + 1) (by omega)).2.1,
      (without_above env T k (v.tick + 1) (by omega)).2.2,
      (without_above env T k (v.tick + 2) (by omega)).2.2, htick,
      show v.tick + 1 + k = v.tick + k + 1 by omega,
      show v.tick + 2 + k = v.tick + k + 2 by omega]
  rw [refreshOne_eq env, refreshOne_eq (env.without T k), heff]
  refine ⟨sameExcept_map i m.id _ hmi _ _ hrows, ?_, _, rfl, rfl⟩
  simp only [htick]
  omega

theorem foldl_refreshOne_sim (env : Env) (job : UpdateJob) (i k T : Nat)
    (l : List NotificationState) (hl : ∀ m ∈ l, m.id ≠ i) :
    ∀ w v : World,
      List.Forall₂ (SameExcept i) w.notificationStates v.notificationStates →
      w.tick = v.tick + k → T ≤ v.tick →
      List.Forall₂ (SameExcept i) (l.foldl (refreshOne env job) w).notificationStates
          (l.foldl (refreshOne (env.without T k) job) v).notificationStates ∧
        ∃ cs, (l.foldl (refreshOne env job) w).calls = w.calls ++ cs ∧
          (l.foldl (refreshOne (env.without T k) job) v).calls = v.calls ++ cs := by
  induction l with
  | nil => intro w v hrows _ _; exact ⟨hrows, [], by simp, by simp⟩
  | cons m tl ih =>
    intro w v hrows htick hT
    obtain ⟨h1, h2, cs, h3, h4⟩ :=
      refreshOne_sim env job i k T w v m (hl m (List.mem_cons_self _ _)) hrows htick hT
    obtain ⟨h5, cs2, h6, h7⟩ :=
      ih (fun x hx => hl x (List.mem_cons_of_mem _ hx)) _ _ h1 h2
        (Nat.le_trans hT (refreshOne_tick_le _ job v m))
    refine ⟨h5, cs ++ cs2, ?_, ?_⟩
    · simp only [List.foldl_cons, h6, h3, List.append_assoc]
    · simp only [List.foldl_cons, h7, h4, List.append_assoc]

theorem refreshOne_other_rows (env : Env) (job : UpdateJob) (w : World)
    (n : NotificationState) :
    List.Forall₂ (SameExcept n.id) (refreshOne env job w n).notificationStates
      w.notificationStates := by
  have h := (refreshOne_rowKept env job w n (fun j => j != n.id) (by simp)).1
  refine List.Forall₂.flip (List.Forall₂.imp ?_ h)
  intro before after hk
  refine ⟨hk.1, fun hne => hk.2.2.2.2.2.2 ?_⟩
  rw [← hk.1]
  simpa using hne

/-- C19: per-recipient isolation of the batched refresh. Let the queued refresh run over
the captured list `pre ++ n :: post` whose other entries have ids different from that of
`n`. Whatever happens to `n` (its DM cannot be edited nor sent, or the store call for it
throws because its row is gone), the loop goes on with `post` from the state in
which the iteration for `n` ended, and compared with the refresh over `pre ++ post`, run
with an environment that gives the other recipients the same answers (the consultations
made for `n` taken out), every row other than that of `n` ends the same and the calls
made for the other recipients are the same. -/
theorem refresh_isolation (env : Env) (job : UpdateJob) (w : World)
    (pre post : List NotificationState) (n : NotificationState)
    (hjob : job.activeNotifications = pre ++ n :: post)
    (hothers : ∀ m ∈ pre ++ post, m.id ≠ n.id) :
    let w1 := pre.foldl (refreshOne env job) w
    let w2 := refreshOne env job w1 n
    let withN := (runUpdateJob env job w).1
    let withoutN := (runUpdateJob (env.without w1.tick (w2.tick - w1.tick))
      { job with activeNotifications := pre ++ post } w).1
    withN = post.foldl (refreshOne env job) w2 ∧
      List.Forall₂ (SameExcept n.id) withN.notificationStates withoutN.notificationStates ∧
      ∃ others, withN.calls = w2.calls ++ others ∧ withoutN.calls = w1.calls ++ others := by
  intro w1 w2 withN withoutN
  have hwith : withN = post.foldl (refreshOne env job) w2 := by
    simp only [withN, runUpdateJob, hjob, List.foldl_append, List.foldl_cons, w2, w1]
  have hpre : pre.foldl (refreshOne (env.without w1.tick (w2.tick - w1.tick)) job) w = w1 :=
    foldl_refreshOne_env_below env _ job w1.tick (fun t ht => without_below env _ _ t ht)
      pre w (Nat.le_refl _)
  have hwithout : withoutN
      = post.foldl (refreshOne (env.without w1.tick (w2.tick - w1.tick)) job) w1 := by
    have hj : refreshOne (env.without w1.tick (w2.tick - w1.tick))
        { job with activeNotifications := pre ++ post }
        = refreshOne (env.without w1.tick (w2.tick - w1.tick)) job := rfl
    simp only [withoutN, runUpdateJob, hj, List.foldl_append, hpre]
  have hle : w1.tick ≤ w2.tick := refreshOne_tick_le env job w1 n
  obtain ⟨hrows, others, h1, h2⟩ :=
    foldl_refreshOne_sim env job n.id (w2.tick - w1.tick) w1.tick post
      (fun m hm => hothers m (List.mem_append_right _ hm)) w2 w1
      (refreshOne_other_rows env job w1 n) (by omega) (Nat.le_refl _)
  rw [hwith, hwithout]
  exact ⟨rfl, hrows, others, h1, h2⟩

theorem refresh_isolation_witness :
    Example.jobU1U2.activeNotifications = [] ++ Example.rowU1 :: [Example.rowU2] ∧
      (runUpdateJob Example.envU1Unreachable Example.jobU1U2
        Example.worldU1U2).1.notificationStates.map
          (fun r => (r.id, r.isActive, r.lastUpdated)) = [(1, false, 1), (2, true, 1003)] ∧
      List.Forall₂ (SameExcept 1)
        (runUpdateJob Example.envU1Unreachable Example.jobU1U2
          Example.worldU1U2).1.notificationStates
        (runUpdateJob (Example.envU1Unreachable.without 0 2)
          { Example.jobU1U2 with activeNotifications := [Example.rowU2] }
          Example.worldU1U2).1.notificationStates :=
  ⟨rfl, by decide,
    (refresh_isolation Example.envU1Unreachable Example.jobU1U2 Example.worldU1U2 []
      [Example.rowU2] Example.rowU1 rfl
      (by intro m hm; simp at hm; subst hm; decide)).2.1⟩

/-! ## Calls to the service while a callback awaits its function -/

theorem refreshOne_queue_frame (env : Env) (job : UpdateJob) (w : World)
    (m : NotificationState) (q : MessageUpdateService UpdateJob) :
    refreshOne env job { w with messageUpdateService := q } m
      = { refreshOne env job w m with messageUpdateService := q } := by
  rw [refreshOne_eq, refreshOne_eq]
  rfl

theorem foldl_refreshOne_queue_frame (env : Env) (job : UpdateJob)
    (l : List NotificationState) (q : MessageUpdateService UpdateJob) :
    ∀ w : World, l.foldl (refreshOne env job) { w with messageUpdateService := q }
      = { l.foldl (refreshOne env job) w with messageUpdateService := q } := by
  induction l with
  | nil => intro w; rfl
  | cons m tl ih =>
    intro w
    simp only [List.foldl_cons]
    rw [refreshOne_queue_frame, ih]

/-- The uninterrupted firing of a debounce timeout is the start of the refresh followed
at once by its end. -/
theorem timerFires_eq_start_end (env : Env) (t : Nat) (w : World) :
    timerFires env t w
      = match (timeoutStarts t w).2 with
        | some tm => refreshEnds env tm (timeoutStarts t w).1
        | none => w := by
  unfold timerFires
  rw [MessageUpdateService.fireTimer_eq]
  unfold timeoutStarts refreshEnds MessageUpdateService.timeoutFires
    MessageUpdateService.callbackEnds runUpdateJob
  cases w.messageUpdateService.timers.find? (fun x => x.id == t) with
  | none => rfl
  | some tm =>
    have h := foldl_refreshOne_queue_frame env tm.updateFunction
      tm.updateFunction.activeNotifications
      { w.messageUpdateService with
        timers := w.messageUpdateService.timers.filter (fun x => !(x.id == t)) } w
    simp only []
    rw [h]

/-- C4 fails on the code. The timeout of function 0 for key `k` has fired and its callback
awaits the function; `queueUpdate` is called for `k` with function 1; the callback comes
back and deletes the entry of `k`, which is the one of function 1 by then, so the queue
has no entry for `k` while the timeout of function 1 is pending. `queueUpdate` is called
for `k` with function 2, with no timeout firing since the call for function 1; it finds
no entry and clears nothing. The queue has one entry for `k` but two timeouts are pending
for it, and when they fire the superseded function 1 runs as well as function 2. -/
theorem debounce_superseded_function_runs :
    Example.serviceRaced.updateQueue = [] ∧
      Example.serviceRaced.timers.map (fun tm => (tm.id, tm.key, tm.updateFunction))
        = [(1, "k", 1)] ∧
      (MessageUpdateService.queueUpdate Example.serviceRaced "k" 2 500).updateQueue.map
          (fun e => (e.1, e.2.updateFunction, e.2.timeout)) = [("k", 2, 2)] ∧
      (MessageUpdateService.queueUpdate Example.serviceRaced "k" 2 500).timers.map
          (fun tm => (tm.id, tm.key, tm.updateFunction)) = [(1, "k", 1), (2, "k", 2)] ∧
      (MessageUpdateService.fireTimer Example.record 1
        (MessageUpdateService.queueUpdate Example.serviceRaced "k" 2 500) [0]).2
        = ([0, 1], [("k", 1)]) ∧
      (MessageUpdateService.fireTimer Example.record 2
        (MessageUpdateService.fireTimer Example.record 1
          (MessageUpdateService.queueUpdate Example.serviceRaced "k" 2 500) [0]).1 [0, 1]).2
        = ([0, 1, 2], [("k", 2)]) := by
  decide

/-- C5 fails on the code. On the service on which function 1 was queued for key `k` while
the callback of an earlier timeout for `k` awaited, and that callback has come back, the
queue is empty and the timeout of function 1 is pending: `flushQueue` invokes nothing and
leaves that timeout pending, with a queue size of 0. In the bot: B joins A, the timeout
of the refresh fires, C joins while the refresh awaits, the refresh ends; `shutdown` then
makes no call to Discord, and the refresh for A, B and C is still waiting for its
timeout after it. -/
theorem flushQueue_misses_pending_timeout :
    (Example.serviceRaced.updateQueue = [] ∧
      Example.serviceRaced.timers.map (fun tm => (tm.id, tm.key, tm.updateFunction))
        = [(1, "k", 1)] ∧
      (MessageUpdateService.flushQueue (MessageUpdateService.settleInOrder Example.record)
        Example.serviceRaced [0]).2 = ([0], []) ∧
      (MessageUpdateService.flushQueue (MessageUpdateService.settleInOrder Example.record)
        Example.serviceRaced [0]).1.timers.map (fun tm => (tm.id, tm.key, tm.updateFunction))
        = [(1, "k", 1)] ∧
      MessageUpdateService.getQueueSize
        (MessageUpdateService.flushQueue (MessageUpdateService.settleInOrder Example.record)
          Example.serviceRaced [0]).1 = 0) ∧
    (Example.worldRaced.messageUpdateService.updateQueue.length = 0 ∧
      Example.worldRaced.messageUpdateService.timers.map
          (fun tm => (tm.id, tm.key, tm.updateFunction.currentUsers.map (fun m => m.id)))
        = [(1, "g-c-session_1000_000102ff", ["A", "B", "C"])] ∧
      Example.worldRaced.calls.map (fun c => (c.isSend, c.userId, c.userListText))
        = [(true, "U1", some "A"), (true, "U2", some "A"),
           (false, "U1", some "A and B"), (false, "U2", some "A and B")] ∧
      (shutdown (MessageUpdateService.settleInOrder (runUpdateJob Example.env))
        Example.worldRaced).calls = Example.worldRaced.calls ∧
      (shutdown (MessageUpdateService.settleInOrder (runUpdateJob Example.env))
        Example.worldRaced).messageUpdateService.timers.map
          (fun tm => (tm.id, tm.key, tm.updateFunction.currentUsers.map (fun m => m.id)))
        = [(1, "g-c-session_1000_000102ff", ["A", "B", "C"])]) := by
  decide

/-! ## The session id -/

theorem digitChar_value (m : Nat) (h : m < 10) : (Nat.digitChar m).toNat - 48 = m := by
  interval_cases m <;> rfl

theorem decimalValue_toDigitsCore (fuel : Nat) :
    ∀ (n : Nat) (ds : List Char), n < fuel →
      (Nat.toDigitsCore 10 fuel n ds).foldl (fun acc c => 10 * acc + (c.toNat - 48)) 0
        = ds.foldl (fun acc c => 10 * acc + (c.toNat - 48)) n := by
  induction fuel with
  | zero => intro n ds h; omega
  | succ fuel ih =>
    intro n ds h
    rw [Nat.toDigitsCore]
    by_cases h0 : n / 10 = 0
    · have hn : n < 10 := by omega
      simp only [h0, if_true, List.foldl_cons, Nat.mul_zero, Nat.zero_add]
      rw [Nat.mod_eq_of_lt hn, digitChar_value n hn]
    · simp only [h0, if_false]
      rw [ih (n / 10) _ (by omega)]
      simp only [List.foldl_cons]
      rw [digitChar_value (n % 10) (Nat.mod_lt _ (by decide))]
      congr 1
      omega

theorem decimalValue_toString (n : Nat) : decimalValue (toString n).data = n := by
  show decimalValue (Nat.repr n).data = n
  unfold decimalValue Nat.repr Nat.toDigits
  simp only [List.asString]
  rw [decimalValue_toDigitsCore (n + 1) n [] (Nat.lt_succ_self n)]
  rfl

theorem toString_nat_injective (a b : Nat) (h : toString a = toString b) : a = b := by
  rw [← decimalValue_toString a, ← decimalValue_toString b, h]

theorem digitChar_injective_hex (i j : Nat) (hi : i < 16) (hj : j < 16)
    (h : Nat.digitChar i = Nat.digitChar j) : i = j := by
  interval_cases i <;> interval_cases j <;> first | rfl | (exact absurd h (by decide))

theorem hexByte_data (b : Fin 256) :
    (hexByte b).data = [Nat.digitChar (b.val / 16), Nat.digitChar (b.val % 16)] := rfl

theorem hexBytes_data (r : RandomBytes4) :
    (hexBytes r).data
      = [Nat.digitChar (r.b0.val / 16), Nat.digitChar (r.b0.val % 16),
         Nat.digitChar (r.b1.val / 16), Nat.digitChar (r.b1.val % 16),
         Nat.digitChar (r.b2.val / 16), Nat.digitChar (r.b2.val % 16),
         Nat.digitChar (r.b3.val / 16), Nat.digitChar (r.b3.val % 16)] := by
  simp [hexBytes, String.data_append, hexByte_data]

theorem digitChar_hex (i : Nat) (hi : i < 16) : Nat.digitChar i ∈ "0123456789abcdef".data := by
  interval_cases i <;> decide

theorem generateSessionId_data (t : Nat) (r : RandomBytes4) :
    (generateSessionId t r).data
      = "session_".data ++ ((toString t).data ++ ('_' :: (hexBytes r).data)) := by
  simp [generateSessionId, hexBytes, String.data_append]

/-- C25: `generateSessionId`, as a function of the timestamp `t` and the four random
bytes `r`, returns `session_`, the decimal numeral of `t`, an underscore and eight
characters, the two lower-case hexadecimal digits of each byte in turn; and two calls
return the same id only if both the timestamps and the random bytes are the same. -/
theorem generateSessionId_format_injective (t t2 : Nat) (r r2 : RandomBytes4) :
    generateSessionId t r = "session_" ++ toString t ++ "_" ++ hexBytes r ∧
      decimalValue (toString t).data = t ∧
      (hexBytes r).data
        = [Nat.digitChar (r.b0.val / 16), Nat.digitChar (r.b0.val % 16),
           Nat.digitChar (r.b1.val / 16), Nat.digitChar (r.b1.val % 16),
           Nat.digitChar (r.b2.val / 16), Nat.digitChar (r.b2.val % 16),
           Nat.digitChar (r.b3.val / 16), Nat.digitChar (r.b3.val % 16)] ∧
      (∀ c ∈ (hexBytes r).data, c ∈ "0123456789abcdef".data) ∧
      (generateSessionId t r = generateSessionId t2 r2 ↔ t = t2 ∧ r = r2) := by
  refine ⟨rfl, decimalValue_toString t, hexBytes_data r, ?_, ?_, ?_⟩
  · intro c hc
    rw [hexBytes_data] at hc
    simp only [List.mem_cons, List.mem_nil_iff, or_false] at hc
    rcases hc with h | h | h | h | h | h | h | h <;> rw [h] <;>
      first
        | exact digitChar_hex _ (Nat.mod_lt _ (by decide))
        | exact digitChar_hex _ (by omega)
  · intro h
    have hd := congrArg String.data h
    rw [generateSessionId_data, generateSessionId_data] at hd
    have hd2 := List.append_cancel_left hd
    have hlen : ('_' :: (hexBytes r).data).length = ('_' :: (hexBytes r2).data).length := by
      simp [hexBytes_data]
    obtain ⟨h1, h2⟩ := List.append_inj' hd2 hlen
    refine ⟨toString_nat_injective t t2 (String.ext h1), ?_⟩
    rw [hexBytes_data, hexBytes_data] at h2
    simp only [List.cons.injEq, and_true, true_and] at h2
    obtain ⟨a0, a1, b0, b1, c0, c1, d0, d1⟩ := h2
    have e0 := digitChar_injective_hex _ _ (by omega) (by omega) a0
    have e1 := digitChar_injective_hex _ _ (Nat.mod_lt _ (by decide)) (Nat.mod_lt _ (by decide)) a1
    have e2 := digitChar_injective_hex _ _ (by omega) (by omega) b0
    have e3 := digitChar_injective_hex _ _ (Nat.mod_lt _ (by decide)) (Nat.mod_lt _ (by decide)) b1
    have e4 := digitChar_injective_hex _ _ (by omega) (by omega) c0
    have e5 := digitChar_injective_hex _ _ (Nat.mod_lt _ (by decide)) (Nat.mod_lt _ (by decide)) c1
    have e6 := digitChar_injective_hex _ _ (by omega) (by omega) d0
    have e7 := digitChar_injective_hex _ _ (Nat.mod_lt _ (by decide)) (Nat.mod_lt _ (by decide)) d1
    cases r with
    | mk x0 x1 x2 x3 =>
      cases r2 with
      | mk y0 y1 y2 y3 =>
        simp only [RandomBytes4.mk.injEq]
        simp only at e0 e1 e2 e3 e4 e5 e6 e7
        exact ⟨Fin.ext (by omega), Fin.ext (by omega), Fin.ext (by omega), Fin.ext (by omega)⟩
  · rintro ⟨rfl, rfl⟩
    rfl


/-- C25 on an example: the id for a timestamp and four bytes, and another timestamp
gives another id. -/
theorem generateSessionId_example :
    generateSessionId 1700000000000 { b0 := 0, b1 := 1, b2 := 2, b3 := 255 }
        = "session_1700000000000_000102ff" ∧
      generateSessionId 1700000000000 { b0 := 0, b1 := 1, b2 := 2, b3 := 255 }
        ≠ generateSessionId 1700000000001 { b0 := 0, b1 := 1, b2 := 2, b3 := 255 } :=
  ⟨by decide, fun h =>
    absurd ((generateSessionId_format_injective 1700000000000 1700000000001
      { b0 := 0, b1 := 1, b2 := 2, b3 := 255 }
      { b0 := 0, b1 := 1, b2 := 2, b3 := 255 }).2.2.2.2.mp h).1 (by decide)⟩

/-! ## Leave of the last occupant, moves, reactions, the stored snapshot, ledger pruning -/

/-- C22: for a leave event after which the channel has no non-bot member (bots still
there do not count), `handleUserLeftChannel` is `endSession` for the channel: afterwards
no session row and no notification row of (guild, channel) is active, and the cache has
no entry for the channel. -/
theorem leave_last_occupant_ends_session (env : Env) (voiceState : VoiceState)
    (channel : VoiceChannel) (w : World) (hch : voiceState.channel = some channel)
    (hempty : nonBots channel.members = []) :
    handleUserLeftChannel env voiceState w = endSession env voiceState.guildId channel.id w ∧
      (∀ s ∈ (handleUserLeftChannel env voiceState w).channelSessions,
        ¬ (s.guildId = voiceState.guildId ∧ s.channelId = channel.id ∧ s.isActive = true)) ∧
      (∀ n ∈ (handleUserLeftChannel env voiceState w).notificationStates,
        ¬ (n.guildId = voiceState.guildId ∧ n.channelId = channel.id ∧ n.isActive = true)) ∧
      (handleUserLeftChannel env voiceState w).activeSessions.has
        (cacheKey voiceState.guildId channel.id) = false := by
  have h : handleUserLeftChannel env voiceState w
      = endSession env voiceState.guildId channel.id w := by
    simp [handleUserLeftChannel, hch, hempty]
  rw [h]
  refine ⟨rfl, ?_, ?_, JsMap.has_delete _ _⟩
  · intro s hs hk
    have := endSession_sessions_inactive env voiceState.guildId channel.id w s hs
    simp [sessionMatches, hk.1, hk.2.1, hk.2.2] at this
  · intro n hn hk
    have := endSession_notifications_inactive env voiceState.guildId channel.id w n hn
    simp [notificationMatches, hk.1, hk.2.1, hk.2.2] at this

/-- C22 on the example: A leaves channel `c` and only a bot stays; the session and the
notifications of U1 and U2 are inactive afterwards. -/
theorem leave_last_occupant_ends_session_witness :
    (handleUserLeftChannel Example.env (Example.voice [Example.bot "R"])
        Example.worldAfterJoin).channelSessions.map (fun s => s.isActive) = [false] ∧
      (handleUserLeftChannel Example.env (Example.voice [Example.bot "R"])
        Example.worldAfterJoin).notificationStates.map (fun n => n.isActive)
        = [false, false] ∧
      ∀ s ∈ (handleUserLeftChannel Example.env (Example.voice [Example.bot "R"])
          Example.worldAfterJoin).channelSessions,
        ¬ (s.guildId = "g" ∧ s.channelId = "c" ∧ s.isActive = true) :=
  ⟨by decide, by decide,
    (leave_last_occupant_ends_session Example.env (Example.voice [Example.bot "R"])
      { id := "c", name := "C", members := [Example.bot "R"] } Example.worldAfterJoin rfl
      (by decide)).2.1⟩

/-- C23: a voice state update whose old and new channel are both there and have different
ids is handled as `handleUserLeftChannel(oldState)` followed by
`handleUserJoinedChannel(newState)`; one whose old and new channel have the same id
changes nothing. -/
theorem voiceStateUpdate_move (env : Env) (newState oldState : VoiceState)
    (oldChannel newChannel : VoiceChannel) (w : World)
    (hold : oldState.channel = some oldChannel) (hnew : newState.channel = some newChannel) :
    (oldChannel.id ≠ newChannel.id →
        handleVoiceStateUpdate env newState oldState w
          = handleUserJoinedChannel env newState (handleUserLeftChannel env oldState w)) ∧
      (oldChannel.id = newChannel.id → handleVoiceStateUpdate env newState oldState w = w) := by
  constructor
  · intro hne
    simp [handleVoiceStateUpdate, hold, hnew, hne]
  · intro heq
    simp [handleVoiceStateUpdate, hold, hnew, heq]

/-- C23 on the example: A moves from `c`, where B stays, to the unmonitored channel `d`;
and an update within channel `c` leaves the state as it is. -/
theorem voiceStateUpdate_move_witness :
    handleVoiceStateUpdate Example.env (Example.voiceD [Example.human "A"])
        (Example.voice [Example.human "B"]) Example.worldAfterJoin
      = handleUserJoinedChannel Example.env (Example.voiceD [Example.human "A"])
          (handleUserLeftChannel Example.env (Example.voice [Example.human "B"])
            Example.worldAfterJoin) ∧
      handleVoiceStateUpdate Example.env (Example.voice [Example.human "A"])
        (Example.voice [Example.human "A"]) Example.worldAfterJoin = Example.worldAfterJoin :=
  ⟨(voiceStateUpdate_move Example.env (Example.voiceD [Example.human "A"])
      (Example.voice [Example.human "B"])
      { id := "c", name := "C", members := [Example.human "B"] }
      { id := "d", name := "D", members := [Example.human "A"] }
      Example.worldAfterJoin rfl rfl).1 (by decide),
    (voiceStateUpdate_move Example.env (Example.voice [Example.human "A"])
      (Example.voice [Example.human "A"])
      { id := "c", name := "C", members := [Example.human "A"] }
      { id := "c", name := "C", members := [Example.human "A"] }
      Example.worldAfterJoin rfl rfl).2 rfl⟩

/-- C24: when the reacting user is a bot, or the message has no guild, or no monitored
channel of the guild has the emoji of the reaction, `handleReactionAdd` resolves and
leaves the state, the subscription table included, as it was. -/
theorem handleReactionAdd_no_match (reaction : MessageReaction) (user : ReactingUser)
    (w : World)
    (h : user.bot = true ∨ reaction.guildId = none ∨
      ∃ guildId, reaction.guildId = some guildId ∧
        ∀ m ∈ w.monitoredChannels, m.guildId = guildId → m.emoji ≠ reaction.emoji) :
    handleReactionAdd reaction user w = (w, true) ∧
      (handleReactionAdd reaction user w).1.userSubscriptions = w.userSubscriptions := by
  have key : handleReactionAdd reaction user w = (w, true) := by
    unfold handleReactionAdd
    by_cases hb : user.bot = true
    · simp [hb]
    · by_cases hg : truthy reaction.guildId = true
      · rcases h with h | h | ⟨guildId, h1, h2⟩
        · exact absurd h hb
        · simp [h, truthy] at hg
        · have hnone : findMonitoredChannelByEmoji (reaction.guildId.getD "") reaction.emoji w
              = none := by
            unfold findMonitoredChannelByEmoji
            rw [List.find?_eq_none]
            intro m hm
            simp only [h1, Option.getD_some, Bool.and_eq_true, beq_iff_eq, not_and]
            exact fun hgm => h2 m hm hgm
          simp [hb, hg, hnone]
      · simp [hb, hg]
  rw [key]
  exact ⟨rfl, rfl⟩

/-- C24 on the example: U3 reacts with an emoji that no monitored channel of guild `g`
has. -/
theorem handleReactionAdd_no_match_witness :
    handleReactionAdd { guildId := some "g", emoji := "x" } { id := "U3", bot := false }
        Example.world = (Example.world, true) :=
  (handleReactionAdd_no_match { guildId := some "g", emoji := "x" }
    { id := "U3", bot := false } Example.world
    (Or.inr (Or.inr ⟨"g", rfl, by decide⟩))).1

/-- C26: `formatUserListForStorage` returns one entry per member, in the order of the
collection; the entry of a member has its id, the username and the avatar of its user,
and as display name that of the member when it is there and not empty, otherwise that of
the user. -/
theorem formatUserListForStorage_projection (users : List Member) :
    (formatUserListForStorage users).length = users.length ∧
      ∀ (i : Nat) (m : Member), users[i]? = some m →
        ∃ e, (formatUserListForStorage users)[i]? = some e ∧
          e.id = m.id ∧ e.username = m.username ∧ e.avatar = m.avatar ∧
          (∀ d, m.displayName = some d → d ≠ "" → e.displayName = some d) ∧
          (m.displayName = none ∨ m.displayName = some "" →
            e.displayName = m.userDisplayName) := by
  refine ⟨by simp [formatUserListForStorage], ?_⟩
  intro i m hm
  refine ⟨StoredUser.mk m.id m.username
      (if truthy m.displayName then m.displayName else m.userDisplayName) m.avatar,
    by simp [formatUserListForStorage, hm], rfl, rfl, rfl, ?_, ?_⟩
  · intro d hd hne
    simp [hd, truthy, hne]
  · intro h
    rcases h with h | h <;> simp [h, truthy]

/-- C26 on the example: a member with a display name and one whose own display name is
empty. -/
theorem formatUserListForStorage_projection_witness :
    formatUserListForStorage [Example.human "A", Example.memberGlobalName]
        = [{ id := "A", username := "A", displayName := some "A", avatar := none },
           { id := "M", username := "m", displayName := some "Em", avatar := some "pic" }] ∧
      ∃ e, (formatUserListForStorage [Example.human "A", Example.memberGlobalName])[1]?
          = some e ∧ e.id = "M" :=
  ⟨by decide,
    match (formatUserListForStorage_projection
      [Example.human "A", Example.memberGlobalName]).2 1 Example.memberGlobalName rfl with
    | ⟨e, he, hid, _⟩ => ⟨e, he, hid⟩⟩

/-! ## Pruning the rate-limit ledger -/

theorem foldl_prune_eq (cutoff : Int) (l : List (String × Nat)) :
    ∀ m : JsMap Nat,
      l.foldl (fun m e => if (e.2 : Int) < cutoff then JsMap.delete m e.1 else m) m
        = m.filter (fun x => !(l.any (fun e => decide ((e.2 : Int) < cutoff) && e.1 == x.1))) := by
  induction l with
  | nil => intro m; simp
  | cons e tl ih =>
    intro m
    simp only [List.foldl_cons]
    rw [ih]
    by_cases he : (e.2 : Int) < cutoff
    · simp only [he, if_true, JsMap.delete, List.filter_filter, List.any_cons, decide_True,
        Bool.true_and]
      apply List.filter_congr
      intro x _
      have hsym : (x.1 == e.1) = (e.1 == x.1) := by
        rw [Bool.eq_iff_iff, beq_iff_eq, beq_iff_eq]
        exact eq_comm
      rw [hsym]
      cases (e.1 == x.1) <;> simp
    · simp only [he, if_false, List.any_cons, decide_False, Bool.false_and, Bool.false_or]

theorem prune_filter_nodup (cutoff : Int) (m : JsMap Nat)
    (hnd : (m.map (fun e => e.1)).Nodup) :
    m.filter (fun x => !(m.any (fun e => decide ((e.2 : Int) < cutoff) && e.1 == x.1)))
      = m.filter (fun x => !decide ((x.2 : Int) < cutoff)) := by
  apply List.filter_congr
  intro x hx
  by_cases hxc : (x.2 : Int) < cutoff
  · have : m.any (fun e => decide ((e.2 : Int) < cutoff) && e.1 == x.1) = true := by
      rw [List.any_eq_true]
      exact ⟨x, hx, by simp [hxc]⟩
    simp [this, hxc]
  · have : m.any (fun e => decide ((e.2 : Int) < cutoff) && e.1 == x.1) = false := by
      rw [List.any_eq_false]
      intro e he hcon
      simp only [Bool.and_eq_true, decide_eq_true_eq, beq_iff_eq] at hcon
      have hget1 := JsMap.get_of_mem hnd (show (e.1, e.2) ∈ m from he)
      have hget2 := JsMap.get_of_mem hnd (show (x.1, x.2) ∈ m from hx)
      rw [hcon.2, hget2] at hget1
      have : x.2 = e.2 := Option.some.inj hget1
      rw [this] at hxc
      exact hxc hcon.1
    simp [this, hxc]

theorem get_filter_value (p : Nat → Bool) (m : JsMap Nat) (k : String)
    (hnd : (m.map (fun e => e.1)).Nodup) :
    JsMap.get (m.filter (fun x => p x.2)) k
      = match JsMap.get m k with
        | some v => if p v then some v else none
        | none => none := by
  have hnd2 : ((m.filter (fun x => p x.2)).map (fun e => e.1)).Nodup :=
    List.Nodup.sublist (List.Sublist.map _ (List.filter_sublist _)) hnd
  have hback : ∀ v, JsMap.get (m.filter (fun x => p x.2)) k = some v →
      JsMap.get m k = some v ∧ p v = true := by
    intro v hv
    have hmem := List.mem_filter.mp (JsMap.mem_of_get hv)
    exact ⟨JsMap.get_of_mem hnd hmem.1, hmem.2⟩
  cases hget : JsMap.get m k with
  | none =>
    cases hf : JsMap.get (m.filter (fun x => p x.2)) k with
    | none => rfl
    | some v2 =>
      have := (hback v2 hf).1
      rw [hget] at this
      cases this
  | some v =>
    by_cases hp : p v = true
    · simp only [hp, if_true]
      exact JsMap.get_of_mem hnd2
        (List.mem_filter.mpr ⟨JsMap.mem_of_get hget, hp⟩)
    · simp only [hp, if_false]
      cases hf : JsMap.get (m.filter (fun x => p x.2)) k with
      | none => rfl
      | some v2 =>
        have h2 := hback v2 hf
        rw [hget] at h2
        have : v = v2 := Option.some.inj h2.1
        rw [this] at hp
        exact absurd h2.2 hp

/-- C30: `cleanupRateLimits`, run at time `now` on a ledger (a Map, so with one entry per
key), removes exactly the entries whose timestamp is below `now - 300000` and leaves the
others as they are and in their order; and for every key and every time from `now` on,
the rate-limit test of the fan-out gives the same answer on the pruned ledger as on the
one before pruning. -/
theorem cleanupRateLimits_keeps_decisions (env : Env) (w : World)
    (hkeys : (w.rateLimitMap.map (fun e => e.1)).Nodup) :
    (cleanupRateLimits env w).rateLimitMap
        = w.rateLimitMap.filter
            (fun e => !decide ((e.2 : Int) < (env.clock w.tick : Int) - 300000)) ∧
      ∀ (userId guildId : String) (later : Nat), env.clock w.tick ≤ later →
        rateLimited ((cleanupRateLimits env w).rateLimitMap.get (rateLimitKey userId guildId))
            later
          = rateLimited (w.rateLimitMap.get (rateLimitKey userId guildId)) later := by
  have h1 : (cleanupRateLimits env w).rateLimitMap
      = w.rateLimitMap.filter
          (fun e => !decide ((e.2 : Int) < (env.clock w.tick : Int) - 300000)) := by
    simp only [cleanupRateLimits]
    rw [foldl_prune_eq, prune_filter_nodup _ _ hkeys]
  refine ⟨h1, ?_⟩
  intro userId guildId later hlater
  rw [h1, get_filter_value
    (fun v => !decide ((v : Int) < (env.clock w.tick : Int) - 300000)) _ _ hkeys]
  cases hget : JsMap.get w.rateLimitMap (rateLimitKey userId guildId) with
  | none => rfl
  | some v =>
    by_cases hv : (v : Int) < (env.clock w.tick : Int) - 300000
    · simp only [hv, decide_True, Bool.not_true, Bool.false_eq_true, if_false, rateLimited]
      have : ¬ ((later : Int) - (v : Int) < 5000) := by omega
      simp [this]
    · simp [hv]

/-- C30 on the example: at time 400000 the entry of U1 from time 50000 goes and the
entry of U2 stays, and U1 is not rate-limited at time 400001 on either ledger. -/
theorem cleanupRateLimits_keeps_decisions_witness :
    (cleanupRateLimits Example.envLate Example.worldLedger).rateLimitMap = [("U2-g", 399000)] ∧
      rateLimited ((cleanupRateLimits Example.envLate Example.worldLedger).rateLimitMap.get
          (rateLimitKey "U1" "g")) 400001
        = rateLimited (Example.worldLedger.rateLimitMap.get (rateLimitKey "U1" "g")) 400001 :=
  ⟨by decide,
    (cleanupRateLimits_keeps_decisions Example.envLate Example.worldLedger
      (by decide)).2 "U1" "g" 400001 (by decide)⟩

/-! ## A join on a channel with an active session -/

theorem getActiveChannelSession_frame (g c : String) (w : World) :
    (getActiveChannelSession g c w).2
      = { w with activeSessions := (getActiveChannelSession g c w).2.activeSessions } := by
  unfold getActiveChannelSession
  split
  · rfl
  · split <;> rfl

/-- C21 (as amended): a join on a monitored channel of a configured guild for which
`getActiveChannelSession` finds a session, with more than one and at most `maxUsers`
non-bot members. The handler creates no session row and no notification row, calls the
Discord client for nobody and leaves subscriptions, ledger and clock tick alone; the
session found may be put into the cache; and the update queue gets one refresh under the
key of (guild, channel, session) over the notifications active for that session when
the session has such a notification, and is left as it was when it has none. -/
theorem join_active_session_only_enqueues (env : Env) (voiceState : VoiceState)
    (channel : VoiceChannel) (guildConfig : GuildConfig) (monitoredChannel : MonitoredChannel)
    (session : ChannelSession) (w : World)
    (hch : voiceState.channel = some channel)
    (hguild : findGuild voiceState.guildId w = some guildConfig)
    (hmon : findMonitoredChannel voiceState.guildId channel.id w = some monitoredChannel)
    (hmany : 1 < (nonBots channel.members).length)
    (hmax : ((nonBots channel.members).length : Int) ≤ guildConfig.maxUsers)
    (hactive : (getActiveChannelSession voiceState.guildId channel.id w).1 = some session) :
    handleUserJoinedChannel env voiceState w
      = { w with
          activeSessions :=
            (getActiveChannelSession voiceState.guildId channel.id w).2.activeSessions
          messageUpdateService :=
            if getActiveNotifications voiceState.guildId channel.id session.sessionId w = []
            then w.messageUpdateService
            else w.messageUpdateService.queueUpdate
              (updateKey voiceState.guildId channel.id session.sessionId)
              { activeNotifications :=
                  getActiveNotifications voiceState.guildId channel.id session.sessionId w
                currentUsers := nonBots channel.members
                userListForStorage := formatUserListForStorage (nonBots channel.members)
                guildConfig := guildConfig
                monitoredChannel := monitoredChannel }
              500 } := by
  have hnot : ¬ ((nonBots channel.members).length : Int) > guildConfig.maxUsers := by omega
  have hrows : getActiveNotifications voiceState.guildId channel.id session.sessionId
      (getActiveChannelSession voiceState.guildId channel.id w).2
      = getActiveNotifications voiceState.guildId channel.id session.sessionId w := by
    unfold getActiveNotifications
    rw [(getActiveChannelSession_rows voiceState.guildId channel.id w).1]
  have hq : (getActiveChannelSession voiceState.guildId channel.id w).2.messageUpdateService
      = w.messageUpdateService := by
    rw [getActiveChannelSession_frame]
  simp only [handleUserJoinedChannel, hch, hguild, hmon, hnot, if_false, hactive, hmany,
    if_true, updateExistingNotifications, hrows, hq]
  by_cases hnone : getActiveNotifications voiceState.guildId channel.id session.sessionId w = []
  · simp only [hnone, List.length_nil, beq_self_eq_true, if_true]
    exact getActiveChannelSession_frame _ _ _
  · have hlen : ((getActiveNotifications voiceState.guildId channel.id session.sessionId
        w).length == 0) = false := by
      simpa using hnone
    simp only [hlen, hnone, if_false, Bool.false_eq_true]
    conv_lhs => rw [getActiveChannelSession_frame]

/-- C21 (as amended) on the example: B joins A in channel `c`, whose session has the
notifications of U1 and U2; tables and calls stay and one refresh over the two
notifications is queued under the key of the session. -/
theorem join_active_session_only_enqueues_witness :
    (handleUserJoinedChannel Example.env (Example.voice [Example.human "A", Example.human "B"])
        Example.worldAfterJoin).notificationStates = Example.worldAfterJoin.notificationStates ∧
      (handleUserJoinedChannel Example.env (Example.voice [Example.human "A", Example.human "B"])
        Example.worldAfterJoin).channelSessions = Example.worldAfterJoin.channelSessions ∧
      (handleUserJoinedChannel Example.env (Example.voice [Example.human "A", Example.human "B"])
        Example.worldAfterJoin).calls = Example.worldAfterJoin.calls ∧
      (handleUserJoinedChannel Example.env (Example.voice [Example.human "A", Example.human "B"])
        Example.worldAfterJoin).messageUpdateService.updateQueue.map
          (fun e => (e.1, e.2.updateFunction.activeNotifications.map (fun n => n.userId)))
        = [("g-c-session_1000_000102ff", ["U1", "U2"])] :=
  have h := join_active_session_only_enqueues Example.env
    (Example.voice [Example.human "A", Example.human "B"])
    { id := "c", name := "C", members := [Example.human "A", Example.human "B"] }
    Example.guild Example.monitored Example.sessionC Example.worldAfterJoin rfl (by decide)
    (by decide) (by decide) (by decide) (by decide)
  ⟨congrArg (fun x => x.notificationStates) h, congrArg (fun x => x.channelSessions) h,
    congrArg (fun x => x.calls) h, by decide⟩

/-- C21 as stated fails: the store has an active session of channel `c` with no
notification (the guild has no subscriber) and the cache is empty. When B joins A, the
handler queues no refresh and starts no timer, and it puts the session into the
cache. -/
theorem join_active_session_without_recipients :
    activeCount "g" "c" Example.worldRestarted = 1 ∧
      (getActiveChannelSession "g" "c" Example.worldRestarted).1 = some Example.sessionC ∧
      Example.worldRestarted.messageUpdateService.updateQueue = [] ∧
      Example.worldRestarted.activeSessions = [] ∧
      (handleUserJoinedChannel Example.env
        (Example.voice [Example.human "A", Example.human "B"])
        Example.worldRestarted).messageUpdateService.updateQueue = [] ∧
      (handleUserJoinedChannel Example.env
        (Example.voice [Example.human "A", Example.human "B"])
        Example.worldRestarted).messageUpdateService.timers = [] ∧
      (handleUserJoinedChannel Example.env
        (Example.voice [Example.human "A", Example.human "B"])
        Example.worldRestarted).activeSessions = [("g-c", Example.sessionC)] := by
  decide

/-! ## The records a queued refresh works on -/

/-- C27 (as amended): the queued refresh processes the notifications that were active
for (guild, channel, session) when it was enqueued. Let `updateExistingNotifications`
find at least one such notification in the state `w`, and let the timeout fire in any
later state whose queue is still the one left by that call: the notification table and
the calls of the Discord client afterwards are those of the loop over the notifications
read in `w`, started in the later state, whatever the later state says about them. -/
theorem refresh_uses_enqueue_time_records (env : Env) (guildId channelId sessionId : String)
    (currentUsers : List Member) (guildConfig : GuildConfig)
    (monitoredChannel : MonitoredChannel) (w later : World)
    (hwf : w.messageUpdateService.WellFormed)
    (hne : getActiveNotifications guildId channelId sessionId w ≠ [])
    (hq : later.messageUpdateService
      = (updateExistingNotifications guildId channelId sessionId currentUsers guildConfig
          monitoredChannel w).messageUpdateService) :
    (timerFires env w.messageUpdateService.nextTimer later).notificationStates
        = ((getActiveNotifications guildId channelId sessionId w).foldl
            (refreshOne env
              { activeNotifications := getActiveNotifications guildId channelId sessionId w
                currentUsers := currentUsers
                userListForStorage := formatUserListForStorage currentUsers
                guildConfig := guildConfig
                monitoredChannel := monitoredChannel })
            later).notificationStates ∧
      (timerFires env w.messageUpdateService.nextTimer later).calls
        = ((getActiveNotifications guildId channelId sessionId w).foldl
            (refreshOne env
              { activeNotifications := getActiveNotifications guildId channelId sessionId w
                currentUsers := currentUsers
                userListForStorage := formatUserListForStorage currentUsers
                guildConfig := guildConfig
                monitoredChannel := monitoredChannel })
            later).calls := by
  have hlen : ((getActiveNotifications guildId channelId sessionId w).length == 0) = false := by
    simpa using hne
  simp only [updateExistingNotifications, hlen, Bool.false_eq_true, if_false] at hq
  constructor <;>
    simp only [timerFires, hq, MessageUpdateService.fireTimer_queueUpdate hwf, runUpdateJob]

/-- C27 (as amended) on the example: the refresh queued when B joined A is fired in the
state right after the join. -/
theorem refresh_uses_enqueue_time_records_witness :
    (timerFires Example.env 0
        (handleUserJoinedChannel Example.env
          (Example.voice [Example.human "A", Example.human "B"])
          Example.worldAfterJoin)).notificationStates.map
          (fun n => (n.userId, n.userList.map (fun u => u.id)))
        = [("U1", ["A", "B"]), ("U2", ["A", "B"])] ∧
      (timerFires Example.env Example.worldAfterJoin.messageUpdateService.nextTimer
        (handleUserJoinedChannel Example.env
          (Example.voice [Example.human "A", Example.human "B"])
          Example.worldAfterJoin)).calls
        = ((getActiveNotifications "g" "c" "session_1000_000102ff"
              Example.worldAfterJoin).foldl
            (refreshOne Example.env
              { activeNotifications :=
                  getActiveNotifications "g" "c" "session_1000_000102ff" Example.worldAfterJoin
                currentUsers := [Example.human "A", Example.human "B"]
                userListForStorage :=
                  formatUserListForStorage [Example.human "A", Example.human "B"]
                guildConfig := Example.guild
                monitoredChannel := Example.monitored })
            (handleUserJoinedChannel Example.env
              (Example.voice [Example.human "A", Example.human "B"])
              Example.worldAfterJoin)).calls :=
  ⟨by decide,
    (refresh_uses_enqueue_time_records Example.env "g" "c" "session_1000_000102ff"
      [Example.human "A", Example.human "B"] Example.guild Example.monitored
      Example.worldAfterJoin
      (handleUserJoinedChannel Example.env
        (Example.voice [Example.human "A", Example.human "B"]) Example.worldAfterJoin)
      MessageUpdateService.wellFormed_empty (by decide) rfl).2⟩

/-- C27 as stated fails: A joins, B joins, A leaves (a refresh is queued over the
notifications of U1 and U2), B leaves and `endSession` deactivates both notifications.
When the timeout fires no notification of the session is active, yet the refresh edits
the DMs of U1 and U2 and rewrites the snapshot and the timestamp of both rows. -/
theorem stale_refresh_processes_deactivated_records :
    getActiveNotifications "g" "c" "session_1000_000102ff" Example.worldEndedPending = [] ∧
      Example.worldEndedPending.notificationStates.map
          (fun n => (n.userId, n.isActive, n.userList.map (fun u => u.id), n.lastUpdated))
        = [("U1", false, ["A"], 1004), ("U2", false, ["A"], 1008)] ∧
      Example.worldEndedPending.calls.length = 2 ∧
      ((timerFires Example.env 1 Example.worldEndedPending).calls.drop 2).map
          (fun c => (c.isSend, c.userId, c.userListText))
        = [(false, "U1", some "B"), (false, "U2", some "B")] ∧
      (timerFires Example.env 1 Example.worldEndedPending).notificationStates.map
          (fun n => (n.userId, n.isActive, n.userList.map (fun u => u.id), n.lastUpdated))
        = [("U1", false, ["B"], 1012), ("U2", false, ["B"], 1014)] := by
  decide

/-! ## Coherence of the session cache -/

theorem append_sep_inj {α : Type} (a : α) :
    ∀ (l1 l2 r1 r2 : List α), a ∉ l1 → a ∉ l2 → l1 ++ a :: r1 = l2 ++ a :: r2 →
      l1 = l2 ∧ r1 = r2 := by
  intro l1
  induction l1 with
  | nil =>
    intro l2 r1 r2 _ h2 h
    cases l2 with
    | nil => exact ⟨rfl, (List.cons.inj h).2⟩
    | cons b tl =>
      have := (List.cons.inj h).1
      exact absurd (by rw [this]; exact List.mem_cons_self _ _) h2
  | cons x tl ih =>
    intro l2 r1 r2 h1 h2 h
    cases l2 with
    | nil =>
      have := (List.cons.inj h).1
      exact absurd (by rw [← this]; exact List.mem_cons_self _ _) h1
    | cons b tl2 =>
      have hh := List.cons.inj h
      have := ih tl2 r1 r2 (fun hm => h1 (List.mem_cons_of_mem _ hm))
        (fun hm => h2 (List.mem_cons_of_mem _ hm)) hh.2
      exact ⟨by rw [hh.1, this.1], this.2⟩

theorem cacheKey_injective (g c g2 c2 : String) (hg : '-' ∉ g.data) (hg2 : '-' ∉ g2.data)
    (h : cacheKey g c = cacheKey g2 c2) : g = g2 ∧ c = c2 := by
  have hd := congrArg String.data h
  simp only [cacheKey, String.data_append] at hd
  have hd2 : g.data ++ '-' :: c.data = g2.data ++ '-' :: c2.data := by
    simpa using hd
  have := append_sep_inj '-' _ _ _ _ hg hg2 hd2
  exact ⟨String.ext this.1, String.ext this.2⟩

theorem cacheCoherent_getActiveChannelSession (g c : String) (w : World)
    (h : CacheCoherent w) : CacheCoherent (getActiveChannelSession g c w).2 := by
  unfold getActiveChannelSession
  split
  · exact h
  · split
    · rename_i session hfind
      intro e he
      simp only at he
      rcases JsMap.mem_set.mp he with rfl | ⟨hmem, _⟩
      · have hm := List.find?_some hfind
        simp only [sessionMatches, Bool.and_eq_true, beq_iff_eq] at hm
        refine ⟨?_, List.mem_of_find?_eq_some hfind, hm.2⟩
        simp only
        rw [hm.1.1, hm.1.2]
      · exact h e hmem
    · exact h

theorem cacheCoherent_startNewSession (env : Env) (g c : String) (w : World)
    (h : CacheCoherent w) : CacheCoherent (startNewSession env g c w).2 := by
  intro e he
  simp only [startNewSession] at he ⊢
  rcases JsMap.mem_set.mp he with rfl | ⟨hmem, _⟩
  · exact ⟨rfl, List.mem_append_right _ (List.mem_singleton_self _), rfl⟩
  · have := h e hmem
    exact ⟨this.1, List.mem_append_left _ this.2.1, this.2.2⟩

theorem cacheCoherent_endSession (env : Env) (g c : String) (w : World)
    (h : CacheCoherent w) : CacheCoherent (endSession env g c w) := by
  intro e he
  simp only [endSession, JsMap.delete, List.mem_filter, Bool.not_eq_true', beq_eq_false_iff_ne,
    ne_eq] at he ⊢
  obtain ⟨hk, hin, hact⟩ := h e he.1
  refine ⟨hk, ?_, hact⟩
  have hno : sessionMatches g c e.2 = false := by
    cases hm : sessionMatches g c e.2 with
    | false => rfl
    | true =>
      simp only [sessionMatches, Bool.and_eq_true, beq_iff_eq] at hm
      exact absurd (by rw [hk, hm.1.1, hm.1.2]) he.2
  exact List.mem_map.mpr ⟨e.2, hin, by simp [hno]⟩

theorem cacheCoherent_cleanupOne (env : Env) (client : ChannelSession → ChannelLookup)
    (w : World) (s : ChannelSession) (h : CacheCoherent w) :
    CacheCoherent (cleanupOne env client w s) := by
  unfold cleanupOne
  split
  · split
    · exact cacheCoherent_endSession env _ _ w h
    · exact h
  · exact cacheCoherent_endSession env _ _ w h
  · exact cacheCoherent_endSession env _ _ w h

theorem cacheCoherent_applySessionOp (env : Env) (w : World) (op : SessionOp)
    (h : CacheCoherent w) : CacheCoherent (applySessionOp env w op) := by
  cases op with
  | getActiveChannelSession g c => exact cacheCoherent_getActiveChannelSession g c w h
  | startNewSession g c => exact cacheCoherent_startNewSession env g c w h
  | endSession g c => exact cacheCoherent_endSession env g c w h
  | cleanupOrphanedSessions client =>
    exact foldl_invariant (cleanupOne env client) (fun x => CacheCoherent x)
      (fun x s hx => cacheCoherent_cleanupOne env client x s hx) _ w h
  | clearCache =>
    intro e he
    simp [applySessionOp, clearCache] at he

theorem cacheCoherent_runSessionOps (env : Env) (ops : List SessionOp) (w : World)
    (h : CacheCoherent w) : CacheCoherent (runSessionOps env w ops) :=
  foldl_invariant (applySessionOp env) (fun x => CacheCoherent x)
    (fun x op hx => cacheCoherent_applySessionOp env x op hx) ops w h


/-- C28: coherence of the session cache. In every state reached from the empty store and
the empty cache by calls to `getActiveChannelSession`, `startNewSession`, `endSession`,
`cleanupOrphanedSessions` and `clearCache`, every entry of the cache sits under the key
of its own guild and channel and is an active row of the session table; and, guild ids
being free of the hyphen that separates the two parts of the key,
`getActiveChannelSession` returns a session exactly when the session table has an active
row for the guild and the channel. -/
theorem session_cache_coherent (env : Env) (ops : List SessionOp) :
    (∀ (key : String) (session : ChannelSession),
        (key, session) ∈ (runSessionOps env World.init ops).activeSessions →
        key = cacheKey session.guildId session.channelId ∧
          session ∈ (runSessionOps env World.init ops).channelSessions ∧
          session.isActive = true) ∧
      ∀ guildId channelId : String, '-' ∉ guildId.data →
        (∀ s ∈ (runSessionOps env World.init ops).channelSessions, '-' ∉ s.guildId.data) →
        (((getActiveChannelSession guildId channelId
            (runSessionOps env World.init ops)).1.isSome = true) ↔
          ∃ s ∈ (runSessionOps env World.init ops).channelSessions,
            s.guildId = guildId ∧ s.channelId = channelId ∧ s.isActive = true) := by
  have hco : CacheCoherent (runSessionOps env World.init ops) :=
    cacheCoherent_runSessionOps env ops World.init (by intro e he; simp [World.init] at he)
  generalize runSessionOps env World.init ops = w at hco
  refine ⟨fun key session hmem => hco (key, session) hmem, ?_⟩
  intro g c hg hstore
  unfold getActiveChannelSession
  by_cases hhas : w.activeSessions.has (cacheKey g c) = true
  · simp only [hhas, if_true]
    have hsome := JsMap.get_isSome_of_has w.activeSessions (cacheKey g c) hhas
    constructor
    · intro _
      obtain ⟨s, hs⟩ := Option.isSome_iff_exists.mp hsome
      obtain ⟨hk, hin, hact⟩ := hco _ (JsMap.mem_of_get hs)
      have hinj := cacheKey_injective g c s.guildId s.channelId hg (hstore s hin) hk
      exact ⟨s, hin, hinj.1.symm, hinj.2.symm, hact⟩
    · intro _
      exact hsome
  · simp only [hhas, Bool.false_eq_true, if_false]
    constructor
    · intro hres
      cases hfind : w.channelSessions.find? (sessionMatches g c) with
      | none => simp [hfind] at hres
      | some s =>
        have hm := List.find?_some hfind
        simp only [sessionMatches, Bool.and_eq_true, beq_iff_eq] at hm
        exact ⟨s, List.mem_of_find?_eq_some hfind, hm.1.1, hm.1.2, hm.2⟩
    · rintro ⟨s, hin, h1, h2, h3⟩
      cases hfind : w.channelSessions.find? (sessionMatches g c) with
      | none =>
        have := List.find?_eq_none.mp hfind s hin
        simp [sessionMatches, h1, h2, h3] at this
      | some s2 => rfl

/-- C28 on the example: the session of channel `c` has ended and that of channel `d` is
active and cached; the lookup finds no session for `c` and one for `d`. -/
theorem session_cache_coherent_witness :
    (runSessionOps Example.env World.init Example.sessionOps).activeSessions.map
        (fun e => (e.1, e.2.channelId, e.2.isActive)) = [("g-d", "d", true)] ∧
      (getActiveChannelSession "g" "c"
        (runSessionOps Example.env World.init Example.sessionOps)).1 = none ∧
      (((getActiveChannelSession "g" "d"
          (runSessionOps Example.env World.init Example.sessionOps)).1.isSome = true) ↔
        ∃ s ∈ (runSessionOps Example.env World.init Example.sessionOps).channelSessions,
          s.guildId = "g" ∧ s.channelId = "d" ∧ s.isActive = true) :=
  ⟨by decide, by decide,
    (session_cache_coherent Example.env Example.sessionOps).2 "g" "d" (by decide)
      (by decide)⟩

/-! ## Values substituted by `formatNotificationMessage` -/

/-- C29 (as amended): when every opening brace of the template starts one of the three
template variables and the channelName, userList and emoji values contain neither an
opening brace nor a dollar sign, `formatNotificationMessage` puts exactly the value in
the place of every variable and keeps the text between the variables. -/
theorem formatNotificationMessage_verbatim (segs : List Segment)
    (channelName userList : String) (emoji : Option String)
    (htemplate : BraceFree segs)
    (hc : ∀ c ∈ channelName.data, c ≠ '\x7b' ∧ c ≠ '$')
    (hu : ∀ c ∈ userList.data, c ≠ '\x7b' ∧ c ≠ '$')
    (he : ∀ c ∈ (emoji.getD "").data, c ≠ '\x7b' ∧ c ≠ '$') :
    formatNotificationMessage (String.mk (renderTemplate segs)) channelName userList emoji
      = String.mk (fillTemplate (templateValues channelName userList emoji) segs) := by
  have he1 := emojiOrDefault_chars emoji '\x7b' (by decide) (fun c h => (he c h).1)
  have he2 := emojiOrDefault_chars emoji '$' (by decide) (fun c h => (he c h).2)
  have hb1 := braceFree_fill Placeholder.channelName channelName.data (fun c h => (hc c h).1)
    segs htemplate
  have hb2 := braceFree_fill Placeholder.userList userList.data (fun c h => (hu c h).1) _ hb1
  have hvals : ∀ p, ∀ c ∈ templateValues channelName userList emoji p, c ≠ '\x7b' := by
    intro p
    cases p
    · exact fun c h => (hc c h).1
    · exact fun c h => (hu c h).1
    · exact he1
  have hr := render_filled (templateValues channelName userList emoji) segs
  simp only [templateValues] at hr
  unfold formatNotificationMessage replaceAll
  simp only []
  rw [replaceGo_segments Placeholder.channelName channelName.data (fun c h => (hc c h).2) segs
      htemplate,
    replaceGo_segments Placeholder.userList userList.data (fun c h => (hu c h).2) _ hb1,
    replaceGo_segments Placeholder.emoji (emojiOrDefault emoji).data he2 _ hb2, hr,
    replaceGo_none ('#' :: Placeholder.channelName.pattern) channelName.data '\x7b'
      (by decide) _ [] (fillTemplate_braceFree _ hvals segs htemplate)]

/-- C29 (as amended) on an example: a channel name with blanks, a comma and a hash
sign. -/
theorem formatNotificationMessage_verbatim_witness :
    formatNotificationMessage "Join \x7bchannelName\x7d: \x7buserList\x7d" "Room #1, east"
        "Alice and Bob" none
      = "Join Room #1, east: Alice and Bob" :=
  (formatNotificationMessage_verbatim
    [Segment.text "Join ".data, Segment.hole Placeholder.channelName,
     Segment.text ": ".data, Segment.hole Placeholder.userList]
    "Room #1, east" "Alice and Bob" none
    (by
      intro s hs
      simp only [List.mem_cons, Segment.text.injEq, reduceCtorEq, List.mem_nil_iff,
        or_false, false_or] at hs
      rcases hs with rfl | rfl <;> decide)
    (by decide) (by decide) (by decide)).trans (by decide)

/-- C29 as stated fails: a channel name made of a dollar sign and an ampersand is
replaced by the matched variable itself, two dollar signs in a channel name come out as
one, a channel name that spells the variable for the user list is replaced by the user
list, and a channel name put after an opening brace completes a variable that the next
replacement then fills. -/
theorem formatNotificationMessage_value_not_verbatim :
    formatNotificationMessage "Join \x7bchannelName\x7d" "$&" "Alice" (some "x")
        = "Join \x7bchannelName\x7d" ∧
      formatNotificationMessage "Join \x7bchannelName\x7d" "$&" "Alice" (some "x")
        ≠ "Join $&" ∧
      formatNotificationMessage "Join \x7bchannelName\x7d" "Ca$$h" "Alice" (some "x")
        = "Join Ca$h" ∧
      formatNotificationMessage "Join \x7bchannelName\x7d" "\x7buserList\x7d" "Alice"
          (some "x") = "Join Alice" ∧
      formatNotificationMessage "\x7buser\x7bchannelName\x7d" "List\x7d" "Alice" (some "x")
        = "Alice" := by
  decide

end VoiceNotify
